import Mathlib

/-! The window delta calculator of `extension/src/funcs.c`.

A shallow embedding of `check_float8_array`, `check_timestamptz_array` and
`gapfill_array_delta`, followed by theorems about them.

Conventions of the embedding.

* `int64` and `TimestampTz` values are integers (`Int`) in the range of the type, and an
  `int64` operation yields the exact result reduced modulo `2 ^ 64` into that range
  (`wrap64`): the host is compiled with `-fwrapv`, so a signed overflow wraps around.
  The arguments of a call are taken as they are passed; a theorem that depends on an
  argument being an `int64` value says so (`int64`).
* `num_elements` is an `int`: the `int64` value assigned to it is reduced modulo `2 ^ 32`
  (`wrap32`).  The other `int` variables hold indices into the arrays and counts of
  slots; they are bounded by the lengths of the lists that model the arrays and are plain
  integers.
* `float8` is an arbitrary type `V` with a subtraction: nothing here depends on how the
  host subtracts two reals.
* `t_datums[i]` and `v_elem[i]` are C reads without a bounds check.  A read inside the
  array yields the element; a read outside it yields whatever word the host memory holds
  there, which the model takes as a parameter (`t_outside`, `v_outside`).  Every index the
  code reads is also recorded (`t_reads`, `v_reads`), so that memory safety can be stated.
* `res[res_idx++]` is a C write without a bounds check.  A run that writes more slots
  than `palloc0` reserved ends in the outcome `overrun`.
* The host primitives (`elog`, `Assert`, `palloc0`, the `ARR_*` accessors,
  `deconstruct_array`, `construct_md_array`) are not part of the repository; each is
  described where it is used.  `palloc0` raises an error for a request above
  `MaxAllocSize`, also inside `construct_md_array`; below it, memory is taken to be
  available.
* A `while` loop whose termination depends on the arguments takes a fuel argument: the
  number of rounds it may run.
-/

namespace Promscale

/-! ## Constants of the host -/

/-- Modelled from the spec: the constant `USECS_PER_SEC` of the host header
`datatype/timestamp.h`, which is not part of the repository; timestamps count
microseconds, `step_s` and `range_s` count seconds. -/
def USECS_PER_SEC : Int := 1000000

/-- Modelled from the spec: the type identifier `FLOAT8OID` of the host catalog
(`catalog/pg_type_d.h`), not part of the repository; only its identity matters. -/
def FLOAT8OID : Nat := 701

/-- Modelled from the spec: the type identifier `TIMESTAMPTZOID` of the host catalog
(`catalog/pg_type_d.h`), not part of the repository; only its identity matters. -/
def TIMESTAMPTZOID : Nat := 1184

/-- Modelled from the spec: the constant `MaxAllocSize` of the host header
`utils/memutils.h`, not part of the repository: `0x3fffffff`, the largest request
`palloc0` accepts. -/
def MaxAllocSize : Nat := 1073741823

/-- The size `sizeof(Datum)` of a result slot in `res`, on a 64-bit host. -/
def SIZEOF_DATUM : Nat := 8

/-- The size `sizeof(bool)` of a slot in `res_null`. -/
def SIZEOF_BOOL : Nat := 1

/-! ## Machine integers -/

/-- The values of the C type `int64` (and of `TimestampTz`, which is an `int64`). -/
def int64 (x : Int) : Prop :=
  -9223372036854775808 ≤ x ∧ x < 9223372036854775808

instance (x : Int) : Decidable (int64 x) := by
  unfold int64; infer_instance

/-- The `int64` an operation yields whose exact result is `x`: the value congruent to `x`
modulo `2 ^ 64` in the range of the type. -/
def wrap64 (x : Int) : Int :=
  (x + 9223372036854775808) % 18446744073709551616 - 9223372036854775808

/-- The `int` an `int64` is converted to on assignment: the value congruent to it modulo
`2 ^ 32` in the range of `int`. -/
def wrap32 (x : Int) : Int :=
  (x + 2147483648) % 4294967296 - 2147483648

/-! ## Array objects of the host -/

/-- Modelled from the spec: the host array object `ArrayType` (`utils/array.h`), reduced
to what `funcs.c` reads of it.  `ndim` is `ARR_NDIM`, `dim0` is the word `ARR_DIMS(a)[0]`,
`hasnull` is `ARR_HASNULL` (the object carries a null bitmap), `elemtype` is
`ARR_ELEMTYPE`, and `elems` are the entries, an absent entry being `none`. -/
structure ArrayType (α : Type) where
  ndim : Nat
  dim0 : Int
  hasnull : Bool
  elemtype : Nat
  elems : List (Option α)

/-- An array object the host can produce: an absent entry comes with a null bitmap, and a
one-dimensional array has as many entries as its first dimension says. -/
def ArrayType.WellFormed {α : Type} (a : ArrayType α) : Prop :=
  (none ∈ a.elems → a.hasnull = true) ∧ (a.ndim = 1 → a.dim0 = (a.elems.length : Int))

/-- The array without absent entries that holds `xs` in one dimension.  The host
represents an array without any entry as a zero-dimensional one
(`construct_empty_array`), so `ndim` is 1 only when `xs` is not empty. -/
def ArrayType.ofList {α : Type} (oid : Nat) (xs : List α) : ArrayType α :=
  { ndim := if xs.isEmpty then 0 else 1, dim0 := (xs.length : Int), hasnull := false,
    elemtype := oid, elems := xs.map some }

/-- How a call of a host function ends. -/
inductive Outcome (α : Type) where
  /-- The function returned a value. -/
  | returned (a : α)
  /-- The call was aborted by `elog(ERROR, msg)`. -/
  | error (msg : String)
  /-- An `Assert` failed (only in a build with assertion checking): the process aborts. -/
  | trap
  /-- An integer division by zero was executed (undefined in C; on the usual hosts the
  signal `SIGFPE`). -/
  | sigfpe
  /-- A slot was written past the slots reserved for `res` and `res_null` (undefined in
  C: the heap of the host is overwritten). -/
  | overrun
  /-- The fuel ran out while the bucket loop was still running. -/
  | unfinished
  deriving DecidableEq, Repr

/-- The `Outcome` of a computation followed by a step that may raise an error. -/
def Outcome.andThen {α β : Type} (o : Outcome α) (f : α → Except String β) : Outcome β :=
  match o with
  | .returned a =>
    match f a with
    | .ok b => .returned b
    | .error m => .error m
  | .error m => .error m
  | .trap => .trap
  | .sigfpe => .sigfpe
  | .overrun => .overrun
  | .unfinished => .unfinished

/-! ## The two array checks -/

/-- Source `check_float8_array`: `elog(ERROR, "%s: expected float8 array", caller)` unless
the array is one-dimensional, has no null bitmap and holds `float8`; otherwise the data
area `ARR_DATA_PTR`, which stores the entries that are present. -/
def check_float8_array {V : Type} (transarray : ArrayType V) (caller : String) :
    Except String (List V) :=
  if transarray.ndim ≠ 1 ∨ transarray.hasnull = true ∨ transarray.elemtype ≠ FLOAT8OID then
    .error (caller ++ ": expected float8 array")
  else
    .ok (transarray.elems.filterMap id)

/-- Source `check_timestamptz_array`: `elog(ERROR, "%s: expected timestamptz array", caller)`
unless the array is one-dimensional, has no null bitmap and holds `timestamptz`; otherwise
the datums `deconstruct_array` extracts, one per entry (the datum of an absent entry is 0). -/
def check_timestamptz_array (array : ArrayType Int) (caller : String) :
    Except String (List Int) :=
  if array.ndim ≠ 1 ∨ array.hasnull = true ∨ array.elemtype ≠ TIMESTAMPTZOID then
    .error (caller ++ ": expected timestamptz array")
  else
    .ok (array.elems.map (fun e => e.getD 0))

/-! ## The bucket loop -/

/-- A C read `a[i]`: the element when `0 ≤ i < length`, else the word `outside i` that the
host memory holds at that place. -/
def deref {α : Type} (a : List α) (outside : Int → α) (i : Int) : α :=
  if i < 0 then outside i else a.getD i.toNat (outside i)

/-- The locals of `gapfill_array_delta` that the bucket loop only reads, together with the
host memory around the two C arrays. -/
structure Frame (V : Type) where
  start_ts : Int
  step_s : Int
  range_s : Int
  t_length : Int
  t_datums : List Int
  v_elem : List V
  t_outside : Int → Int
  v_outside : Int → V

/-- The read `DatumGetTimestampTz(t_datums[i])`. -/
def Frame.t {V : Type} (F : Frame V) (i : Int) : Int := deref F.t_datums F.t_outside i

/-- The read `v_elem[i]`. -/
def Frame.v {V : Type} (F : Frame V) (i : Int) : V := deref F.v_elem F.v_outside i

/-- The locals the bucket loop writes.  `res` is the pair of buffers `res` / `res_null`
up to `res_idx` (so `res_idx = res.length`), an entry with `res_null` set being `none`.
The last three fields are ghost state: the boundary each slot was computed for, and the
indices read from `t_datums` and from `v_elem`, in program order. -/
structure Cursor (V : Type) where
  current_bucket_end_ts : Int
  current_bucket_end_idx : Int
  range_start_idx : Int
  res : List (Option V)
  boundaries : List Int
  t_reads : List Int
  v_reads : List Int
  deriving DecidableEq, Repr

/-- The cursor loops `while (idx < t_length && t_datums[idx] > bound) idx++;`, run for at
most `fuel` rounds. -/
def advance {V : Type} (F : Frame V) (bound : Int) : Nat → Int → Int
  | 0, idx => idx
  | fuel + 1, idx =>
    if idx < F.t_length ∧ F.t idx > bound then advance F bound fuel (idx + 1) else idx

/-- The indices of `t_datums` that `advance` reads: by short-circuit evaluation,
`t_datums[idx]` is read only when `idx < t_length`. -/
def advance_reads {V : Type} (F : Frame V) (bound : Int) : Nat → Int → List Int
  | 0, idx => if idx < F.t_length then [idx] else []
  | fuel + 1, idx =>
    if idx < F.t_length then
      idx :: (if F.t idx > bound then advance_reads F bound fuel (idx + 1) else [])
    else []

/-- The cursor loop run to its end: from `idx` it can make at most `t_length - idx`
rounds. -/
def scan {V : Type} (F : Frame V) (bound : Int) (idx : Int) : Int :=
  advance F bound (F.t_length - idx).toNat idx

/-- The indices of `t_datums` read by `scan`. -/
def scan_reads {V : Type} (F : Frame V) (bound : Int) (idx : Int) : List Int :=
  advance_reads F bound (F.t_length - idx).toNat idx

/-- The value of `current_bucket_end_idx` after the first cursor loop of a round. -/
def bucket_end_idx {V : Type} (F : Frame V) (s : Cursor V) : Int :=
  scan F s.current_bucket_end_ts s.current_bucket_end_idx

/-- The local `range_start_ts` of a round,
`current_bucket_end_ts - (range_s * USECS_PER_SEC)`: an `int64` product and an `int64`
difference, each of which wraps around. -/
def range_start_ts {V : Type} (F : Frame V) (s : Cursor V) : Int :=
  wrap64 (s.current_bucket_end_ts - wrap64 (F.range_s * USECS_PER_SEC))

/-- The value of `range_start_idx` when the second cursor loop of a round starts. -/
def range_start_from {V : Type} (F : Frame V) (s : Cursor V) : Int :=
  if bucket_end_idx F s > s.range_start_idx then bucket_end_idx F s else s.range_start_idx

/-- The value of `range_start_idx` after the second cursor loop of a round. -/
def range_start_idx {V : Type} (F : Frame V) (s : Cursor V) : Int :=
  scan F (range_start_ts F s) (range_start_from F s)

/-- The test under `/* need two elements */`. -/
def need_two {V : Type} (F : Frame V) (s : Cursor V) : Bool :=
  decide (F.t (range_start_idx F s - 1) > range_start_ts F s ∧
    range_start_idx F s - bucket_end_idx F s ≥ 2)

/-- The slot a round writes at `res_idx`: `last - first`, or an entry with `res_null`
set. -/
def slot {V : Type} [Sub V] (F : Frame V) (s : Cursor V) : Option V :=
  if need_two F s then
    some (F.v (bucket_end_idx F s) - F.v (range_start_idx F s - 1))
  else
    none

/-- One round of the bucket loop (the body of `while(current_bucket_end_ts > start_ts)`).
Its last statement `current_bucket_end_ts - (step_s * USECS_PER_SEC)` is an `int64`
product and an `int64` difference, each of which wraps around. -/
def bucket {V : Type} [Sub V] (F : Frame V) (s : Cursor V) : Cursor V :=
  { current_bucket_end_ts :=
      wrap64 (s.current_bucket_end_ts - wrap64 (F.step_s * USECS_PER_SEC))
    current_bucket_end_idx := bucket_end_idx F s
    range_start_idx := range_start_idx F s
    res := s.res ++ [slot F s]
    boundaries := s.boundaries ++ [s.current_bucket_end_ts]
    t_reads := s.t_reads ++ scan_reads F s.current_bucket_end_ts s.current_bucket_end_idx
      ++ scan_reads F (range_start_ts F s) (range_start_from F s)
      ++ [range_start_idx F s - 1]
    v_reads := s.v_reads ++
      (if need_two F s then [bucket_end_idx F s, range_start_idx F s - 1] else []) }

/-- The bucket loop `while(current_bucket_end_ts > start_ts) ...`, allowed `fuel` rounds;
`none` when the loop is still running after them. -/
def bucket_loop {V : Type} [Sub V] (F : Frame V) : Nat → Cursor V → Option (Cursor V)
  | 0, s => if s.current_bucket_end_ts > F.start_ts then none else some s
  | fuel + 1, s =>
    if s.current_bucket_end_ts > F.start_ts then bucket_loop F fuel (bucket F s) else some s

/-! ## The entry point -/

/-- The arguments of a call of `gapfill_array_delta`. -/
structure Args (V : Type) where
  start_ts : Int
  end_ts : Int
  step_s : Int
  range_s : Int
  t_array : ArrayType Int
  v_array : ArrayType V

/-- What a call depends on besides its arguments: whether the build checks `Assert`
(the host compiles it to nothing unless assertion checking is enabled), and the words
the host memory holds around `t_datums` and `v_elem`. -/
structure Host (V : Type) where
  assert_checking : Bool
  t_outside : Int → Int
  v_outside : Int → V

/-- The host statement `Assert(cond)`: nothing, unless the build checks assertions and
`cond` is false. -/
def assert_fails {V : Type} (H : Host V) (cond : Bool) : Bool :=
  !cond && H.assert_checking

/-- The local `int num_elements = ((end_ts - start_ts) / (step_s * USECS_PER_SEC)) + 1`,
the number of slots reserved for `res` and `res_null`: an `int64` difference, an `int64`
product, a C division (which truncates toward zero) and an `int64` sum, converted to
`int`.  The divisor is a multiple of 64, hence never `-1`: the division itself cannot
overflow. -/
def num_elements {V : Type} (a : Args V) : Int :=
  wrap32 (wrap64 (Int.tdiv (wrap64 (a.end_ts - a.start_ts))
    (wrap64 (a.step_s * USECS_PER_SEC)) + 1))

/-- The argument `size * n` of a `palloc0(size * n)` with `n` an `int`: `n` is converted
to the unsigned 64-bit type `size_t`, and the product is taken modulo `2 ^ 64`. -/
def alloc_request (size : Nat) (n : Int) : Nat :=
  (size * (n % 18446744073709551616).toNat) % 18446744073709551616

/-- Modelled from the spec: the host allocator `palloc0` (`utils/palloc.h`), not part of
the repository.  A request above `MaxAllocSize` is refused with
`elog(ERROR, "invalid memory alloc request size %zu", size)`; any other request,
`palloc0(0)` included, is served. -/
def palloc0 (request : Nat) : Except String Unit :=
  if request ≤ MaxAllocSize then .ok ()
  else .error ("invalid memory alloc request size " ++ toString request)

/-- The locals of a call once both checks have passed. -/
def frame {V : Type} (H : Host V) (a : Args V) (v_elem : List V) (t_datums : List Int) :
    Frame V :=
  { start_ts := a.start_ts, step_s := a.step_s, range_s := a.range_s,
    t_length := a.t_array.dim0, t_datums := t_datums, v_elem := v_elem,
    t_outside := H.t_outside, v_outside := H.v_outside }

/-- The locals the loop writes, as initialised by the declarations. -/
def init {V : Type} (a : Args V) : Cursor V :=
  { current_bucket_end_ts := a.end_ts, current_bucket_end_idx := 0, range_start_idx := 0,
    res := [], boundaries := [], t_reads := [], v_reads := [] }

/-- Source `gapfill_array_delta` up to the end of the bucket loop, returning the locals
the loop has written.  In program order: the division of the `num_elements` declaration
(by the `int64` product `step_s * USECS_PER_SEC`), the `palloc0` of `res`, the `palloc0`
of `res_null`, the three `Assert`s, the two checks, the loop.  The loop writes one slot
per round without looking at `num_elements`; a run that has written more slots than were
reserved is an `overrun`. -/
def gapfill_run {V : Type} [Sub V] (H : Host V) (fuel : Nat) (a : Args V) :
    Outcome (Cursor V) :=
  if wrap64 (a.step_s * USECS_PER_SEC) = 0 then .sigfpe
  else
    match palloc0 (alloc_request SIZEOF_DATUM (num_elements a)) with
    | .error msg => .error msg
    | .ok _ =>
      match palloc0 (alloc_request SIZEOF_BOOL (num_elements a)) with
      | .error msg => .error msg
      | .ok _ =>
        if assert_fails H (decide (a.t_array.elemtype = TIMESTAMPTZOID)) then .trap
        else if assert_fails H (decide (a.v_array.elemtype = FLOAT8OID)) then .trap
        else if assert_fails H (decide (a.t_array.dim0 = a.v_array.dim0)) then .trap
        else
          match check_float8_array a.v_array "gapfill array delta" with
          | .error msg => .error msg
          | .ok v_elem =>
            match check_timestamptz_array a.t_array "gapfill array delta" with
            | .error msg => .error msg
            | .ok t_datums =>
              match bucket_loop (frame H a v_elem t_datums) fuel (init a) with
              | none => .unfinished
              | some s =>
                if (s.res.length : Int) ≤ num_elements a then .returned s else .overrun

/-- The size `MAXALIGN(n)` of the host: `n` rounded up to a multiple of 8. -/
def MAXALIGN (n : Nat) : Nat := (n + 7) / 8 * 8

/-- Modelled from the spec: the host function `construct_md_array` (`utils/array.h`), not
part of the repository, as it is called on line 132: one dimension, `res_idx` elements
of 8 bytes passed by value, `nulls = res_null`.  Without elements it returns the empty
array.  Otherwise it reserves the array with `palloc0`: the header with the dimensions
(`ARR_OVERHEAD_NONULLS(1)`, 24 bytes; with the null bitmap, when an element is null,
`ARR_OVERHEAD_WITHNULLS(1, n) = MAXALIGN(24 + (n + 7) / 8)`) and 8 bytes for each element
that is not null.  Its checks on the dimensions pass for every `res_idx` that does not
exceed a `num_elements` accepted by `palloc0`. -/
def construct_md_array {V : Type} (res : List (Option V)) :
    Except String (List (Option V)) :=
  if res.length = 0 then .ok res
  else
    match palloc0 (8 * (res.map Option.isNone).count false +
        (if (res.map Option.isNone).contains true then MAXALIGN (24 + (res.length + 7) / 8)
         else 24)) with
    | .error msg => .error msg
    | .ok _ => .ok res

/-- Source `gapfill_array_delta`: the array that `construct_md_array` builds from the
first `res_idx` slots of `res` / `res_null`. -/
def gapfill_array_delta {V : Type} [Sub V] (H : Host V) (fuel : Nat) (a : Args V) :
    Outcome (List (Option V)) :=
  (gapfill_run H fuel a).andThen (fun s => construct_md_array s.res)

/-! ## Vocabulary of the specification -/

/-- A call whose two arrays hold the timestamps `ts` and the values `vs`, without absent
entries and with the expected element types. -/
def call {V : Type} (start_ts end_ts step_s range_s : Int) (ts : List Int) (vs : List V) :
    Args V :=
  { start_ts := start_ts, end_ts := end_ts, step_s := step_s, range_s := range_s,
    t_array := ArrayType.ofList TIMESTAMPTZOID ts, v_array := ArrayType.ofList FLOAT8OID vs }

/-- The bucket boundary number `k`: `end - k * STEP` with `STEP = step_s * 1000000`, in
exact arithmetic. -/
def boundary (end_ts step_s : Int) (k : Nat) : Int :=
  end_ts - (k : Int) * (step_s * USECS_PER_SEC)

/-- Whether the timestamp `t` lies in the window `(B - RANGE, B]` of the boundary `B`,
with `RANGE = range_s * 1000000`, in exact arithmetic. -/
def in_window (range_s B t : Int) : Bool :=
  decide (B - range_s * USECS_PER_SEC < t ∧ t ≤ B)

/-- The number of samples whose timestamp lies in the window of the boundary `B`. -/
def window_count (range_s B : Int) (ts : List Int) : Nat :=
  ts.countP (in_window range_s B)

/-- Timestamps sorted in non-increasing order (most recent first). -/
def non_increasing (ts : List Int) : Prop :=
  ts.Pairwise (fun a b => b ≤ a)

instance (ts : List Int) : Decidable (non_increasing ts) := by
  unfold non_increasing; infer_instance

/-- The index `i` is the smallest one with `ts[i] ≤ B`: the most recent observation at or
before the boundary. -/
def most_recent_at (ts : List Int) (B : Int) (i : Nat) : Prop :=
  i < ts.length ∧ ts.getD i 0 ≤ B ∧ ∀ i', i' < i → B < ts.getD i' 0

/-- The index `j` is the largest one with `ts[j] > B - RANGE`: the earliest observation
still inside the window. -/
def earliest_in_window (ts : List Int) (range_s B : Int) (j : Nat) : Prop :=
  j < ts.length ∧ B - range_s * USECS_PER_SEC < ts.getD j 0 ∧
    ∀ j', j' < ts.length → j < j' → ts.getD j' 0 ≤ B - range_s * USECS_PER_SEC

/-- Following the words of the specification: the smallest index `i` with
`ts[i] ≤ bound`, or the length of `ts` if no such index exists. -/
def first_at_or_before (ts : List Int) (bound : Int) : Nat :=
  ts.findIdx (fun t => decide (t ≤ bound))

/-- An array that must be rejected as the argument expected to hold elements of type
`oid`: it has an absent entry, or is not one-dimensional, or holds another type. -/
def ArrayType.malformed_for {α : Type} (oid : Nat) (a : ArrayType α) : Prop :=
  none ∈ a.elems ∨ a.ndim ≠ 1 ∨ a.elemtype ≠ oid

/-- The number of boundaries `end - k * STEP` that are strictly greater than `start`, for
`STEP > 0`, in exact arithmetic. -/
def n_buckets (start_ts end_ts step_s : Int) : Nat :=
  ((end_ts - start_ts + step_s * USECS_PER_SEC - 1) / (step_s * USECS_PER_SEC)).toNat

/-- No `int64` overflow on the way to the boundaries of a call with `STEP > 0`: the two
timestamps are `int64` values, and the product `step_s * USECS_PER_SEC`, the difference
`end_ts - start_ts` (line 79) and every boundary the loop computes (line 124) are their
exact values.  The boundaries decrease, so the last one computed, number `n_buckets`, is
the one that matters. -/
def no_step_overflow (start_ts end_ts step_s : Int) : Prop :=
  int64 start_ts ∧ int64 end_ts ∧ int64 (step_s * USECS_PER_SEC) ∧
    int64 (end_ts - start_ts) ∧
    int64 (boundary end_ts step_s (n_buckets start_ts end_ts step_s))

instance (start_ts end_ts step_s : Int) : Decidable (no_step_overflow start_ts end_ts step_s) := by
  unfold no_step_overflow; infer_instance

/-- No `int64` overflow in the start of a window (line 101): for every boundary `B` above
`start`, `B - RANGE` is an `int64` value. -/
def no_range_overflow (start_ts end_ts step_s range_s : Int) : Prop :=
  ∀ k : Nat, k < n_buckets start_ts end_ts step_s →
    int64 (boundary end_ts step_s k - range_s * USECS_PER_SEC)

instance (start_ts end_ts step_s range_s : Int) :
    Decidable (no_range_overflow start_ts end_ts step_s range_s) := by
  unfold no_range_overflow; infer_instance

/-- The number of slots `n = (end - start) / STEP + 1` of line 79 (C division, exact
arithmetic) is one for which `palloc0` accepts every request of the call: it is not
negative, and `8 * n + n / 8 + 32` bytes do not exceed `MaxAllocSize`.  That many bytes
suffice for `res` (`8 * n`), for `res_null` (`n`) and for the array of the result (at most
`8 * n + MAXALIGN(24 + (n + 7) / 8)`). -/
def slots_fit (start_ts end_ts step_s : Int) : Prop :=
  0 ≤ Int.tdiv (end_ts - start_ts) (step_s * USECS_PER_SEC) + 1 ∧
    (SIZEOF_DATUM : Int) * (Int.tdiv (end_ts - start_ts) (step_s * USECS_PER_SEC) + 1)
      + (Int.tdiv (end_ts - start_ts) (step_s * USECS_PER_SEC) + 1) / 8 + 32
      ≤ (MaxAllocSize : Int)

instance (start_ts end_ts step_s : Int) : Decidable (slots_fit start_ts end_ts step_s) := by
  unfold slots_fit; infer_instance

/-- The number of slots `(end - start) / STEP + 1` of line 79 (C division, exact
arithmetic) is an `int` value, one the 32-bit variable `num_elements` holds unchanged. -/
def slots_in_int (start_ts end_ts step_s : Int) : Prop :=
  -2147483648 ≤ Int.tdiv (end_ts - start_ts) (step_s * USECS_PER_SEC) + 1 ∧
    Int.tdiv (end_ts - start_ts) (step_s * USECS_PER_SEC) + 1 < 2147483648

instance (start_ts end_ts step_s : Int) : Decidable (slots_in_int start_ts end_ts step_s) := by
  unfold slots_in_int; infer_instance

/-- The locals of a `call`: the frame `gapfill_array_delta` runs its loop in. -/
def call_frame {V : Type} (H : Host V) (start_ts step_s range_s : Int) (ts : List Int)
    (vs : List V) : Frame V :=
  { start_ts := start_ts, step_s := step_s, range_s := range_s,
    t_length := (ts.length : Int), t_datums := ts, v_elem := vs,
    t_outside := H.t_outside, v_outside := H.v_outside }

/-! ## Devices of the proofs -/

/-- The locals after `k` rounds of the bucket loop. -/
def rounds {V : Type} [Sub V] (F : Frame V) (k : Nat) (s : Cursor V) : Cursor V :=
  (bucket F)^[k] s

/-- The cursors are ordered and inside `[0, t_length]`. -/
def in_bounds {V : Type} (F : Frame V) (s : Cursor V) : Prop :=
  0 ≤ s.current_bucket_end_idx ∧ s.current_bucket_end_idx ≤ s.range_start_idx ∧
    s.range_start_idx ≤ F.t_length

/-- Every sample a cursor has passed is too recent for the boundary the loop is at. -/
def passed {V : Type} (F : Frame V) (s : Cursor V) : Prop :=
  (∀ i, 0 ≤ i → i < s.current_bucket_end_idx → s.current_bucket_end_ts < F.t i) ∧
  (∀ i, 0 ≤ i → i < s.range_start_idx → range_start_ts F s < F.t i)

/-- The locals of a `call` at the head of round `k` of its bucket loop (`k = 0` is the
first round). -/
def head_of_round {V : Type} [Sub V] (H : Host V) (start_ts end_ts step_s range_s : Int)
    (ts : List Int) (vs : List V) (k : Nat) : Cursor V :=
  rounds (call_frame H start_ts step_s range_s ts vs) k
    (init (call start_ts end_ts step_s range_s ts vs))

/-- The value of `current_bucket_end_idx` after the first cursor loop of round `k`. -/
def end_idx_of_round {V : Type} [Sub V] (H : Host V) (start_ts end_ts step_s range_s : Int)
    (ts : List Int) (vs : List V) (k : Nat) : Int :=
  bucket_end_idx (call_frame H start_ts step_s range_s ts vs)
    (head_of_round H start_ts end_ts step_s range_s ts vs k)

/-- The value of `range_start_idx` after the second cursor loop of round `k`. -/
def start_idx_of_round {V : Type} [Sub V] (H : Host V) (start_ts end_ts step_s range_s : Int)
    (ts : List Int) (vs : List V) (k : Nat) : Int :=
  range_start_idx (call_frame H start_ts step_s range_s ts vs)
    (head_of_round H start_ts end_ts step_s range_s ts vs k)

/-- The local `range_start_ts` of round `k`. -/
def window_start_of_round {V : Type} [Sub V] (H : Host V)
    (start_ts end_ts step_s range_s : Int) (ts : List Int) (vs : List V) (k : Nat) : Int :=
  range_start_ts (call_frame H start_ts step_s range_s ts vs)
    (head_of_round H start_ts end_ts step_s range_s ts vs k)

/-- The slot written by round `k`. -/
def slot_of_round {V : Type} [Sub V] (H : Host V) (start_ts end_ts step_s range_s : Int)
    (ts : List Int) (vs : List V) (k : Nat) : Option V :=
  slot (call_frame H start_ts step_s range_s ts vs)
    (head_of_round H start_ts end_ts step_s range_s ts vs k)

/-- Two frames over the same number of samples, each timestamp of the second being the
one of the first moved by `c`, with the same step and range; the values, the memory
outside the arrays and `start_ts` may differ. -/
def shifted {V W : Type} (c : Int) (F : Frame V) (G : Frame W) : Prop :=
  G.t_length = F.t_length ∧
    (∀ i : Int, 0 ≤ i → i < F.t_length → G.t i = F.t i + c) ∧
    G.step_s = F.step_s ∧ G.range_s = F.range_s

/-- Two states of the loop with the same cursors, the boundary of the second moved by
`c`. -/
def aligned {V W : Type} (c : Int) (s : Cursor V) (r : Cursor W) : Prop :=
  r.current_bucket_end_ts = s.current_bucket_end_ts + c ∧
    r.current_bucket_end_idx = s.current_bucket_end_idx ∧
    r.range_start_idx = s.range_start_idx

/-! ## Worked inputs -/

/-- A host without assertion checking whose memory outside the arrays holds `0`. -/
def host0 : Host Int :=
  { assert_checking := false, t_outside := fun _ => 0, v_outside := fun _ => 0 }

/-- Seconds to microseconds. -/
def secs (xs : List Int) : List Int := xs.map (fun t => t * USECS_PER_SEC)

/-- The timestamps of the worked examples. -/
def ts_example : List Int := secs [100, 90, 80, 50, 40]

/-- The values of the worked examples. -/
def vs_example : List Int := [10, 9, 8, 5, 4]

/-- Worked example A: `start = 0, end = 100, step = 50, range = 60`. -/
def exampleA : Args Int := call 0 (100 * USECS_PER_SEC) 50 60 ts_example vs_example

/-- Worked example B: `start = 0, end = 100, step = 50, range = 10`. -/
def exampleB : Args Int := call 0 (100 * USECS_PER_SEC) 50 10 ts_example vs_example

/-- A call with `start` four steps after `end`: `start = 200, end = 0, step = 50,
range = 60`, on the samples of the worked examples. -/
def exampleFarStart : Args Int := call (200 * USECS_PER_SEC) 0 50 60 ts_example vs_example

/-- A single sample, older than the first window: timestamps `[50]`, values `[1]`,
`start = 0, end = 100, step = 50, range = 10`. -/
def exampleStale : Args Int := call 0 (100 * USECS_PER_SEC) 50 10 (secs [50]) [1]

/-- Worked example A with `range = 0`. -/
def exampleZeroRange : Args Int := call 0 (100 * USECS_PER_SEC) 50 0 ts_example vs_example

/-- Three timestamps `[100, 90, 80]` but a single value `[10]`:
`start = 0, end = 100, step = 50, range = 60`. -/
def exampleShortValues : Args Int :=
  call 0 (100 * USECS_PER_SEC) 50 60 (secs [100, 90, 80]) [10]

/-- The values of the worked examples with the second entry absent. -/
def v_array_with_null : ArrayType Int :=
  { ndim := 1, dim0 := 5, hasnull := true, elemtype := FLOAT8OID,
    elems := [some 10, none, some 8, some 5, some 4] }

/-- Worked example A with an absent entry among the values. -/
def exampleNull : Args Int :=
  { start_ts := 0, end_ts := 100 * USECS_PER_SEC, step_s := 50, range_s := 60,
    t_array := ArrayType.ofList TIMESTAMPTZOID ts_example, v_array := v_array_with_null }

/-- Worked example A with an absent entry among the values and `step = 0`. -/
def exampleNullZeroStep : Args Int :=
  { start_ts := 0, end_ts := 100 * USECS_PER_SEC, step_s := 0, range_s := 60,
    t_array := ArrayType.ofList TIMESTAMPTZOID ts_example, v_array := v_array_with_null }

/-- A range of `18446744073710` seconds, whose product with `USECS_PER_SEC` exceeds
`2 ^ 64` by `448384`. -/
def wide_s : Int := 18446744073710

/-- Worked example A with the range `wide_s`. -/
def exampleWideRange : Args Int :=
  call 0 (100 * USECS_PER_SEC) 50 wide_s ts_example vs_example

/-- The samples of the worked examples with `start = 0, end = 1` and the step
`wide_s`. -/
def exampleWideStep : Args Int := call 0 (1 * USECS_PER_SEC) wide_s 60 ts_example vs_example

/-- Worked example A with the step `2 ^ 58` seconds, whose product with `USECS_PER_SEC`
is a multiple of `2 ^ 64`. -/
def exampleZeroProduct : Args Int :=
  call 0 (100 * USECS_PER_SEC) 288230376151711744 60 ts_example vs_example

/-- The call `exampleFarStart` with an absent entry among the values. -/
def exampleNullFarStart : Args Int :=
  { start_ts := 200 * USECS_PER_SEC, end_ts := 0, step_s := 50, range_s := 60,
    t_array := ArrayType.ofList TIMESTAMPTZOID ts_example, v_array := v_array_with_null }

/-! ## The cursor loops -/

section Lemmas

variable {V : Type}

theorem advance_ge (F : Frame V) (bound : Int) :
    ∀ (fuel : Nat) (idx : Int), idx ≤ advance F bound fuel idx
  | 0, idx => le_refl _
  | fuel + 1, idx => by
    unfold advance
    split
    · exact le_trans (by omega) (advance_ge F bound fuel (idx + 1))
    · exact le_refl _

theorem advance_le (F : Frame V) (bound : Int) :
    ∀ (fuel : Nat) (idx : Int), idx ≤ F.t_length → advance F bound fuel idx ≤ F.t_length
  | 0, idx, h => h
  | fuel + 1, idx, h => by
    unfold advance
    split
    · rename_i hg
      exact advance_le F bound fuel (idx + 1) (by omega)
    · exact h

theorem advance_passed (F : Frame V) (bound : Int) :
    ∀ (fuel : Nat) (idx i : Int), idx ≤ i → i < advance F bound fuel idx → bound < F.t i
  | 0, idx, i, h1, h2 => by
    simp only [advance] at h2
    omega
  | fuel + 1, idx, i, h1, h2 => by
    unfold advance at h2
    split at h2
    · rename_i hg
      rcases eq_or_lt_of_le h1 with h | h
      · subst h
        exact hg.2
      · exact advance_passed F bound fuel (idx + 1) i (by omega) h2
    · omega

theorem advance_stop (F : Frame V) (bound : Int) :
    ∀ (fuel : Nat) (idx : Int), (F.t_length - idx).toNat ≤ fuel →
      advance F bound fuel idx < F.t_length → F.t (advance F bound fuel idx) ≤ bound
  | 0, idx, h1, h2 => by
    simp only [advance] at h2
    omega
  | fuel + 1, idx, h1, h2 => by
    unfold advance at h2 ⊢
    split
    · rename_i hg
      rw [if_pos hg] at h2
      exact advance_stop F bound fuel (idx + 1) (by omega) h2
    · rename_i hg
      rw [if_neg hg] at h2
      by_contra hc
      exact hg ⟨h2, by omega⟩

theorem scan_ge (F : Frame V) (bound idx : Int) : idx ≤ scan F bound idx :=
  advance_ge F bound _ idx

theorem scan_le (F : Frame V) (bound idx : Int) (h : idx ≤ F.t_length) :
    scan F bound idx ≤ F.t_length :=
  advance_le F bound _ idx h

theorem scan_passed (F : Frame V) (bound idx i : Int) (h1 : idx ≤ i)
    (h2 : i < scan F bound idx) : bound < F.t i :=
  advance_passed F bound _ idx i h1 h2

theorem scan_stop (F : Frame V) (bound idx : Int) (h : scan F bound idx < F.t_length) :
    F.t (scan F bound idx) ≤ bound :=
  advance_stop F bound _ idx (le_refl _) h

/-- A cursor that already points at a sample at or before the bound does not move. -/
theorem scan_fixed (F : Frame V) (bound idx : Int)
    (h : idx < F.t_length → F.t idx ≤ bound) : scan F bound idx = idx := by
  unfold scan
  generalize (F.t_length - idx).toNat = fuel
  cases fuel with
  | zero => rfl
  | succ n =>
    unfold advance
    rw [if_neg]
    rintro ⟨h1, h2⟩
    have := h h1
    omega

/-! ## Machine arithmetic -/

theorem wrap64_of_int64 (x : Int) (h : int64 x) : wrap64 x = x := by
  unfold int64 at h
  unfold wrap64
  omega

theorem int64_wrap64 (x : Int) : int64 (wrap64 x) := by
  unfold int64 wrap64
  omega

theorem wrap64_sub_wrap64 (a b : Int) : wrap64 (a - wrap64 b) = wrap64 (a - b) := by
  unfold wrap64
  omega

theorem wrap64_wrap64_sub (a b : Int) : wrap64 (wrap64 a - b) = wrap64 (a - b) := by
  unfold wrap64
  omega

/-- A wrapped value is not below an exact one that does not exceed the type. -/
theorem le_wrap64 (x : Int) (h : x < 9223372036854775808) : x ≤ wrap64 x := by
  unfold wrap64
  omega

theorem wrap32_of_range (x : Int) (h0 : 0 ≤ x) (h1 : x < 2147483648) : wrap32 x = x := by
  unfold wrap32
  omega

/-- A request for `n` slots of 8 bytes is accepted exactly when `n` is not negative and
the slots fit below `MaxAllocSize`. -/
theorem palloc0_datum (n : Int) (h1 : -2147483648 ≤ n) (h2 : n < 2147483648) :
    alloc_request SIZEOF_DATUM n ≤ MaxAllocSize ↔ (0 ≤ n ∧ 8 * n ≤ 1073741823) := by
  unfold alloc_request SIZEOF_DATUM MaxAllocSize
  omega

theorem palloc0_bool (n : Int) (h0 : 0 ≤ n) (h1 : 8 * n ≤ 1073741823) :
    alloc_request SIZEOF_BOOL n ≤ MaxAllocSize := by
  unfold alloc_request SIZEOF_BOOL MaxAllocSize
  omega

theorem wrap32_range (x : Int) : -2147483648 ≤ wrap32 x ∧ wrap32 x < 2147483648 := by
  unfold wrap32
  omega

/-! ## The bucket loop as an iteration -/

theorem rounds_succ [Sub V] (F : Frame V) (k : Nat) (s : Cursor V) :
    rounds F (k + 1) s = bucket F (rounds F k s) := by
  unfold rounds
  exact Function.iterate_succ_apply' _ _ _

theorem rounds_succ_bucket [Sub V] (F : Frame V) (k : Nat) (s : Cursor V) :
    rounds F (k + 1) s = rounds F k (bucket F s) := by
  unfold rounds
  exact Function.iterate_succ_apply _ _ _

/-- The boundary after `k` rounds is the exact one, wrapped once. -/
theorem rounds_ts [Sub V] (F : Frame V) (k : Nat) (s : Cursor V)
    (hs : int64 s.current_bucket_end_ts) :
    (rounds F k s).current_bucket_end_ts
      = wrap64 (s.current_bucket_end_ts - (k : Int) * (F.step_s * USECS_PER_SEC)) := by
  induction k with
  | zero =>
    simp only [rounds, Function.iterate_zero, id_eq, Nat.cast_zero, zero_mul, sub_zero]
    exact (wrap64_of_int64 _ hs).symm
  | succ k ih =>
    rw [rounds_succ]
    show wrap64 ((rounds F k s).current_bucket_end_ts - wrap64 (F.step_s * USECS_PER_SEC)) = _
    rw [ih, wrap64_sub_wrap64, wrap64_wrap64_sub]
    congr 1
    push_cast
    ring

theorem rounds_res [Sub V] (F : Frame V) (k : Nat) (s : Cursor V) :
    (rounds F k s).res = s.res ++ (List.range k).map (fun i => slot F (rounds F i s)) := by
  induction k with
  | zero => simp [rounds]
  | succ k ih =>
    rw [rounds_succ, List.range_succ, List.map_append, ← List.append_assoc, ← ih]
    rfl

theorem rounds_boundaries [Sub V] (F : Frame V) (k : Nat) (s : Cursor V) :
    (rounds F k s).boundaries = s.boundaries ++ (List.range k).map
      (fun i : Nat => (rounds F i s).current_bucket_end_ts) := by
  induction k with
  | zero => simp [rounds]
  | succ k ih =>
    rw [rounds_succ, List.range_succ, List.map_append, ← List.append_assoc, ← ih]
    rfl

/-- The bucket loop makes exactly `m` rounds when the boundary is above `start_ts` at the
head of the first `m` rounds and not at the head of the next, provided it is allowed that
many. -/
theorem bucket_loop_rounds [Sub V] (F : Frame V) :
    ∀ (m fuel : Nat) (s : Cursor V),
      (∀ k : Nat, k < m → F.start_ts < (rounds F k s).current_bucket_end_ts) →
      (rounds F m s).current_bucket_end_ts ≤ F.start_ts →
      m ≤ fuel → bucket_loop F fuel s = some (rounds F m s)
  | 0, fuel, s, _, hstop, _ => by
    have h : ¬ s.current_bucket_end_ts > F.start_ts := by
      have : (rounds F 0 s).current_bucket_end_ts = s.current_bucket_end_ts := rfl
      omega
    cases fuel <;> simp [bucket_loop, h, rounds]
  | m + 1, 0, s, _, _, hfuel => by omega
  | m + 1, fuel + 1, s, hgo, hstop, hfuel => by
    have h : s.current_bucket_end_ts > F.start_ts := hgo 0 (by omega)
    have ih := bucket_loop_rounds F m fuel (bucket F s)
      (by
        intro k hk
        have := hgo (k + 1) (by omega)
        rw [rounds_succ_bucket] at this
        exact this)
      (by
        rw [rounds_succ_bucket] at hstop
        exact hstop)
      (by omega)
    simp only [bucket_loop, h, if_true]
    rw [ih, rounds_succ_bucket]

/-- While the boundary is above `start_ts` at the head of each of the first `m` rounds and
fewer rounds are allowed, the bucket loop is still running. -/
theorem bucket_loop_unfinished [Sub V] (F : Frame V) :
    ∀ (m fuel : Nat) (s : Cursor V), fuel < m →
      (∀ k : Nat, k < m → F.start_ts < (rounds F k s).current_bucket_end_ts) →
      bucket_loop F fuel s = none
  | 0, fuel, s, h, _ => by omega
  | m + 1, 0, s, _, hgo => by
    have h0 : s.current_bucket_end_ts > F.start_ts := hgo 0 (by omega)
    simp [bucket_loop, h0]
  | m + 1, fuel + 1, s, hfuel, hgo => by
    have h0 : s.current_bucket_end_ts > F.start_ts := hgo 0 (by omega)
    simp only [bucket_loop, h0, if_true]
    apply bucket_loop_unfinished F m fuel _ (by omega)
    intro k hk
    have := hgo (k + 1) (by omega)
    rw [rounds_succ_bucket] at this
    exact this

/-- A bucket loop that has ended made some number `m` of rounds: the boundary was above
`start_ts` at the head of each of them, and not after the last. -/
theorem bucket_loop_some [Sub V] (F : Frame V) :
    ∀ (fuel : Nat) (s c : Cursor V), bucket_loop F fuel s = some c →
      ∃ m : Nat, m ≤ fuel ∧ c = rounds F m s ∧
        (∀ k : Nat, k < m → F.start_ts < (rounds F k s).current_bucket_end_ts) ∧
        (rounds F m s).current_bucket_end_ts ≤ F.start_ts
  | 0, s, c, h => by
    unfold bucket_loop at h
    split at h
    · exact absurd h (by simp)
    · rename_i hn
      refine ⟨0, le_refl _, (Option.some.inj h).symm, fun k hk => by omega, ?_⟩
      show s.current_bucket_end_ts ≤ F.start_ts
      omega
  | fuel + 1, s, c, h => by
    unfold bucket_loop at h
    split at h
    · rename_i hgo
      obtain ⟨m, hm, hc, hk, hstop⟩ := bucket_loop_some F fuel (bucket F s) c h
      refine ⟨m + 1, by omega, ?_, ?_, ?_⟩
      · rw [rounds_succ_bucket]
        exact hc
      · intro k hk'
        cases k with
        | zero => exact hgo
        | succ k =>
          rw [rounds_succ_bucket]
          exact hk k (by omega)
      · rw [rounds_succ_bucket]
        exact hstop
    · rename_i hn
      refine ⟨0, by omega, (Option.some.inj h).symm, fun k hk => by omega, ?_⟩
      show s.current_bucket_end_ts ≤ F.start_ts
      omega

theorem n_buckets_spec (start_ts end_ts step_s : Int) (hstep : 0 < step_s) (k : Nat) :
    k < n_buckets start_ts end_ts step_s ↔ start_ts < boundary end_ts step_s k := by
  have hS : 0 < step_s * USECS_PER_SEC := by
    unfold USECS_PER_SEC
    omega
  unfold n_buckets boundary
  generalize step_s * USECS_PER_SEC = S at hS
  rw [Int.lt_toNat, Int.lt_iff_add_one_le, Int.le_ediv_iff_mul_le hS]
  constructor <;> intro h <;> nlinarith

/-- With a positive step the boundaries do not exceed `end`. -/
theorem boundary_le (end_ts step_s : Int) (hstep : 0 ≤ step_s) (k : Nat) :
    boundary end_ts step_s k ≤ end_ts := by
  have hS : 0 ≤ step_s * USECS_PER_SEC := by
    unfold USECS_PER_SEC
    omega
  unfold boundary
  have : 0 ≤ (k : Int) * (step_s * USECS_PER_SEC) := mul_nonneg (by omega) hS
  omega

theorem boundary_succ (end_ts step_s : Int) (k : Nat) :
    boundary end_ts step_s (k + 1) = boundary end_ts step_s k - step_s * USECS_PER_SEC := by
  unfold boundary
  push_cast
  ring

theorem boundary_antitone (end_ts step_s : Int) (hstep : 0 ≤ step_s) (j k : Nat)
    (h : j ≤ k) : boundary end_ts step_s k ≤ boundary end_ts step_s j := by
  have hS : 0 ≤ step_s * USECS_PER_SEC := by
    unfold USECS_PER_SEC
    omega
  unfold boundary
  have : (j : Int) * (step_s * USECS_PER_SEC) ≤ (k : Int) * (step_s * USECS_PER_SEC) :=
    mul_le_mul_of_nonneg_right (by exact_mod_cast h) hS
  omega

/-- A boundary above `start` is an `int64` value, for `int64` timestamps and a positive
step. -/
theorem boundary_int64 (start_ts end_ts step_s : Int) (hstep : 0 ≤ step_s)
    (hs : int64 start_ts) (he : int64 end_ts) (k : Nat)
    (hk : start_ts < boundary end_ts step_s k) : int64 (boundary end_ts step_s k) := by
  have := boundary_le end_ts step_s hstep k
  unfold int64 at hs he ⊢
  omega

/-! ## Reads inside the arrays -/

theorem deref_natCast {α : Type} (a : List α) (outside : Int → α) (i : Nat)
    (h : i < a.length) : deref a outside (i : Int) = a[i] := by
  unfold deref
  rw [if_neg (by omega), Int.toNat_ofNat, List.getD_eq_getElem _ _ h]

theorem deref_getD {α : Type} (a : List α) (outside : Int → α) (i : Nat) (d : α)
    (h : i < a.length) : deref a outside (i : Int) = a.getD i d := by
  rw [deref_natCast a outside i h, List.getD_eq_getElem _ _ h]

/-! ## Invariants of the bucket loop -/

theorem bucket_end_idx_ge (F : Frame V) (s : Cursor V) :
    s.current_bucket_end_idx ≤ bucket_end_idx F s :=
  scan_ge F _ _

theorem range_start_from_ge (F : Frame V) (s : Cursor V) :
    bucket_end_idx F s ≤ range_start_from F s ∧ s.range_start_idx ≤ range_start_from F s := by
  unfold range_start_from
  split <;> omega

theorem range_start_idx_ge (F : Frame V) (s : Cursor V) :
    bucket_end_idx F s ≤ range_start_idx F s ∧ s.range_start_idx ≤ range_start_idx F s := by
  have h1 := range_start_from_ge F s
  have h2 : range_start_from F s ≤ range_start_idx F s := scan_ge F _ _
  omega

theorem bucket_end_idx_le (F : Frame V) (s : Cursor V) (h : in_bounds F s) :
    bucket_end_idx F s ≤ F.t_length :=
  scan_le F _ _ (by unfold in_bounds at h; omega)

theorem range_start_idx_le (F : Frame V) (s : Cursor V) (h : in_bounds F s) :
    range_start_idx F s ≤ F.t_length := by
  refine scan_le F _ _ ?_
  have h1 := bucket_end_idx_le F s h
  unfold in_bounds at h
  unfold range_start_from
  split <;> omega

theorem bucket_in_bounds [Sub V] (F : Frame V) (s : Cursor V) (h : in_bounds F s) :
    in_bounds F (bucket F s) := by
  have h1 := bucket_end_idx_ge F s
  have h2 := range_start_idx_ge F s
  have h3 := range_start_idx_le F s h
  unfold in_bounds at h ⊢
  show 0 ≤ bucket_end_idx F s ∧ bucket_end_idx F s ≤ range_start_idx F s ∧
    range_start_idx F s ≤ F.t_length
  omega

theorem rounds_in_bounds [Sub V] (F : Frame V) (k : Nat) (s : Cursor V)
    (h : in_bounds F s) : in_bounds F (rounds F k s) := by
  induction k with
  | zero => exact h
  | succ k ih =>
    rw [rounds_succ]
    exact bucket_in_bounds F _ ih

/-- After the first cursor loop, every sample before `current_bucket_end_idx` is after the
boundary. -/
theorem bucket_end_idx_passed (F : Frame V) (s : Cursor V) (hp : passed F s) (i : Int)
    (h0 : 0 ≤ i) (h : i < bucket_end_idx F s) : s.current_bucket_end_ts < F.t i := by
  by_cases hi : i < s.current_bucket_end_idx
  · exact hp.1 i h0 hi
  · exact scan_passed F _ _ i (by omega) h

/-- After the first cursor loop, the sample at `current_bucket_end_idx`, when there is
one, is at or before the boundary. -/
theorem bucket_end_idx_stop (F : Frame V) (s : Cursor V)
    (h : bucket_end_idx F s < F.t_length) :
    F.t (bucket_end_idx F s) ≤ s.current_bucket_end_ts :=
  scan_stop F _ _ h

/-- After the second cursor loop, every sample before `range_start_idx` is inside or
after the window, when the window does not start after the boundary. -/
theorem range_start_idx_passed (F : Frame V) (s : Cursor V) (hp : passed F s)
    (hR : range_start_ts F s ≤ s.current_bucket_end_ts) (i : Int) (h0 : 0 ≤ i)
    (h : i < range_start_idx F s) : range_start_ts F s < F.t i := by
  by_cases hi : i < range_start_from F s
  · unfold range_start_from at hi
    split at hi
    · have := bucket_end_idx_passed F s hp i h0 hi
      omega
    · exact hp.2 i h0 hi
  · exact scan_passed F _ _ i (by omega) h

/-- After the second cursor loop, the sample at `range_start_idx`, when there is one, is
at or before the start of the window. -/
theorem range_start_idx_stop (F : Frame V) (s : Cursor V)
    (h : range_start_idx F s < F.t_length) :
    F.t (range_start_idx F s) ≤ range_start_ts F s :=
  scan_stop F _ _ h

/-- A round keeps the invariant `passed` when neither the boundary nor the start of the
window moves forward in time. -/
theorem bucket_passed [Sub V] (F : Frame V) (s : Cursor V) (hp : passed F s)
    (hR : range_start_ts F s ≤ s.current_bucket_end_ts)
    (hB : (bucket F s).current_bucket_end_ts ≤ s.current_bucket_end_ts)
    (hW : range_start_ts F (bucket F s) ≤ range_start_ts F s) : passed F (bucket F s) := by
  constructor
  · intro i h0 h
    have := bucket_end_idx_passed F s hp i h0 h
    omega
  · intro i h0 h
    have := range_start_idx_passed F s hp hR i h0 h
    omega

/-! ## Sorted timestamps: the cursors delimit the window -/

theorem sorted_t (F : Frame V) (hs : non_increasing F.t_datums)
    (hn : F.t_length = F.t_datums.length) (i j : Int) (h0 : 0 ≤ i) (hij : i ≤ j)
    (hj : j < F.t_length) : F.t j ≤ F.t i := by
  obtain ⟨a, rfl⟩ := Int.eq_ofNat_of_zero_le h0
  obtain ⟨b, rfl⟩ := Int.eq_ofNat_of_zero_le (le_trans h0 hij)
  have hb : b < F.t_datums.length := by omega
  have ha : a < F.t_datums.length := by omega
  unfold Frame.t
  rw [deref_natCast _ _ a ha, deref_natCast _ _ b hb]
  rcases Nat.eq_or_lt_of_le (by omega : a ≤ b) with h | h
  · subst h
    exact le_refl _
  · exact (List.pairwise_iff_getElem.mp hs) a b ha hb h

/-- A predicate that holds exactly at the positions `a ≤ i < b` of a list holds at
`b - a` entries. -/
theorem countP_interval {α : Type} (p : α → Bool) :
    ∀ (l : List α) (a b : Nat),
      (∀ (i : Nat) (hi : i < l.length), p l[i] = true ↔ a ≤ i ∧ i < b) →
      b ≤ l.length → l.countP p = b - a
  | [], a, b, _, hb => by
    simp only [List.length_nil, Nat.le_zero] at hb
    simp [hb]
  | x :: xs, a, b, h, hb => by
    have h0 := h 0 (by simp)
    simp only [List.getElem_cons_zero] at h0
    have hs : ∀ (i : Nat) (hi : i < xs.length),
        p xs[i] = true ↔ a - 1 ≤ i ∧ i < b - 1 := by
      intro i hi
      have := h (i + 1) (by simpa using hi)
      simp only [List.getElem_cons_succ] at this
      rw [this]
      by_cases hx : p x = true
      · have := h0.mp hx
        omega
      · have : ¬ (a ≤ 0 ∧ 0 < b) := fun hc => hx (h0.mpr hc)
        omega
    have ih := countP_interval p xs (a - 1) (b - 1) hs (by
      simp only [List.length_cons] at hb
      omega)
    rw [List.countP_cons, ih]
    by_cases hx : p x = true
    · have := h0.mp hx
      simp only [hx, if_true]
      omega
    · have : ¬ (a ≤ 0 ∧ 0 < b) := fun hc => hx (h0.mpr hc)
      simp only [hx]
      simp only [Bool.false_eq_true, if_false]
      have hab : a ≤ b ∨ b < a := le_or_lt a b
      omega

/-- A predicate that holds at two positions of a list holds at two entries or more. -/
theorem two_le_countP {α : Type} (p : α → Bool) :
    ∀ (l : List α) (i j : Nat), i < j → ∀ (hi : i < l.length) (hj : j < l.length),
      p l[i] = true → p l[j] = true → 2 ≤ l.countP p
  | [], _, _, _, hi, _, _, _ => absurd hi (by simp)
  | x :: xs, 0, j + 1, _, _, hj, hpi, hpj => by
    simp only [List.getElem_cons_zero] at hpi
    simp only [List.getElem_cons_succ] at hpj
    have hj' : j < xs.length := by simpa using hj
    have hmem : xs[j] ∈ xs := List.getElem_mem hj'
    have h1 : 0 < xs.countP p := List.countP_pos_iff.mpr ⟨_, hmem, hpj⟩
    rw [List.countP_cons, hpi]
    simp only [if_true]
    omega
  | x :: xs, i + 1, j + 1, hij, hi, hj, hpi, hpj => by
    simp only [List.getElem_cons_succ] at hpi hpj
    have ih := two_le_countP p xs i j (by omega) (by simpa using hi) (by simpa using hj)
      hpi hpj
    rw [List.countP_cons]
    omega

/-- For sorted timestamps the samples in the window of the boundary are exactly those
between the two cursors, when the start of the window is the exact `B - RANGE` and does
not lie after `B`. -/
theorem window_count_eq (F : Frame V) (s : Cursor V) (hb : in_bounds F s)
    (hp : passed F s) (hR : range_start_ts F s ≤ s.current_bucket_end_ts)
    (hws : range_start_ts F s = s.current_bucket_end_ts - F.range_s * USECS_PER_SEC)
    (hs : non_increasing F.t_datums) (hn : F.t_length = F.t_datums.length) :
    (window_count F.range_s s.current_bucket_end_ts F.t_datums : Int)
      = range_start_idx F s - bucket_end_idx F s := by
  have h1 := bucket_end_idx_ge F s
  have h2 := range_start_idx_ge F s
  have h3 := range_start_idx_le F s hb
  have hce0 : 0 ≤ bucket_end_idx F s := by
    unfold in_bounds at hb
    omega
  obtain ⟨a, ha⟩ := Int.eq_ofNat_of_zero_le hce0
  obtain ⟨b, hb'⟩ := Int.eq_ofNat_of_zero_le (le_trans hce0 h2.1)
  have key : F.t_datums.countP (in_window F.range_s s.current_bucket_end_ts) = b - a := by
    refine countP_interval _ _ a b ?_ (by omega)
    intro i hi
    have hti : F.t (i : Int) = F.t_datums[i] := deref_natCast _ _ i hi
    rw [← hti]
    unfold in_window
    rw [decide_eq_true_iff, ← hws]
    constructor
    · rintro ⟨hlo, hhi⟩
      constructor
      · by_contra hc
        have := bucket_end_idx_passed F s hp (i : Int) (by omega) (by omega)
        omega
      · by_contra hc
        have hstop := range_start_idx_stop F s (by omega)
        have := sorted_t F hs hn (range_start_idx F s) (i : Int) (by omega) (by omega)
          (by omega)
        omega
    · rintro ⟨hlo, hhi⟩
      constructor
      · exact range_start_idx_passed F s hp hR (i : Int) (by omega) (by omega)
      · have hstop := bucket_end_idx_stop F s (by omega)
        have := sorted_t F hs hn (bucket_end_idx F s) (i : Int) (by omega) (by omega)
          (by omega)
        omega
  unfold window_count
  rw [key, ha, hb']
  omega

/-- With at least two samples between the cursors the round writes `last - first`. -/
theorem slot_of_two [Sub V] (F : Frame V) (s : Cursor V) (hb : in_bounds F s)
    (hp : passed F s) (hR : range_start_ts F s ≤ s.current_bucket_end_ts)
    (h : 2 ≤ range_start_idx F s - bucket_end_idx F s) :
    slot F s = some (F.v (bucket_end_idx F s) - F.v (range_start_idx F s - 1)) := by
  have h1 := bucket_end_idx_ge F s
  have := range_start_idx_passed F s hp hR (range_start_idx F s - 1)
    (by unfold in_bounds at hb; omega) (by omega)
  unfold slot need_two
  rw [if_pos]
  rw [decide_eq_true_iff]
  exact ⟨this, h⟩

/-- With fewer than two samples between the cursors the round writes an absent slot,
whatever the read `t_datums[range_start_idx - 1]` yields. -/
theorem slot_of_lt_two [Sub V] (F : Frame V) (s : Cursor V)
    (h : range_start_idx F s - bucket_end_idx F s < 2) : slot F s = none := by
  unfold slot need_two
  rw [if_neg]
  rw [decide_eq_true_iff]
  rintro ⟨_, h2⟩
  omega

theorem slot_eq_none_iff [Sub V] (F : Frame V) (s : Cursor V) :
    slot F s = none ↔ need_two F s = false := by
  unfold slot
  cases need_two F s <;> simp

/-- A round that writes a present slot has two samples in the exact window
`(B - RANGE, B]` of its boundary `B`, whatever the earlier rounds did, when the timestamps
are sorted and the start of the window the round uses is not before `B - RANGE`. -/
theorem window_count_of_need_two (F : Frame V) (s : Cursor V) (hb : in_bounds F s)
    (hws : s.current_bucket_end_ts - F.range_s * USECS_PER_SEC ≤ range_start_ts F s)
    (hs : non_increasing F.t_datums) (hn : F.t_length = F.t_datums.length)
    (h : need_two F s = true) :
    2 ≤ window_count F.range_s s.current_bucket_end_ts F.t_datums := by
  have h1 := bucket_end_idx_ge F s
  have h3 := range_start_idx_le F s hb
  unfold need_two at h
  rw [decide_eq_true_iff] at h
  obtain ⟨ht, h2⟩ := h
  have hce0 : 0 ≤ bucket_end_idx F s := by
    unfold in_bounds at hb
    omega
  obtain ⟨a, ha⟩ := Int.eq_ofNat_of_zero_le hce0
  have ha1 : a + 1 < F.t_datums.length := by omega
  have ha0 : a < F.t_datums.length := by omega
  have hstop := bucket_end_idx_stop F s (by omega)
  have hs0 := sorted_t F hs hn (bucket_end_idx F s) (range_start_idx F s - 1) (by omega)
    (by omega) (by omega)
  have hs1 := sorted_t F hs hn (bucket_end_idx F s + 1) (range_start_idx F s - 1) (by omega)
    (by omega) (by omega)
  have hs01 := sorted_t F hs hn (bucket_end_idx F s) (bucket_end_idx F s + 1) (by omega)
    (by omega) (by omega)
  have ht0 : F.t (bucket_end_idx F s) = F.t_datums[a] := by
    rw [ha]
    exact deref_natCast _ _ a ha0
  have ht1 : F.t (bucket_end_idx F s + 1) = F.t_datums[a + 1] := by
    rw [ha]
    exact deref_natCast _ _ (a + 1) ha1
  unfold window_count
  refine two_le_countP _ _ a (a + 1) (by omega) ha0 ha1 ?_ ?_
  · unfold in_window
    rw [decide_eq_true_iff, ← ht0]
    omega
  · unfold in_window
    rw [decide_eq_true_iff, ← ht1]
    omega

/-- The start of the window a round uses is never before the exact `B - RANGE`, for an
`int64` boundary `B` and a range that is not negative. -/
theorem range_start_ts_ge (F : Frame V) (s : Cursor V)
    (h64 : int64 s.current_bucket_end_ts) (hrange : 0 ≤ F.range_s) :
    s.current_bucket_end_ts - F.range_s * USECS_PER_SEC ≤ range_start_ts F s := by
  unfold range_start_ts
  rw [wrap64_sub_wrap64]
  apply le_wrap64
  unfold int64 at h64
  unfold USECS_PER_SEC
  omega

/-- A round whose exact window `(B - RANGE, B]` holds fewer than two samples writes an
absent slot, whatever the earlier rounds did and whether or not the start of the window
overflows. -/
theorem slot_of_window_below_two [Sub V] (F : Frame V) (s : Cursor V) (hb : in_bounds F s)
    (h64 : int64 s.current_bucket_end_ts) (hrange : 0 ≤ F.range_s)
    (hs : non_increasing F.t_datums) (hn : F.t_length = F.t_datums.length)
    (hwin : window_count F.range_s s.current_bucket_end_ts F.t_datums < 2) :
    slot F s = none := by
  rw [slot_eq_none_iff]
  by_contra hc
  have hneed : need_two F s = true := by simpa using hc
  have := window_count_of_need_two F s hb (range_start_ts_ge F s h64 hrange) hs hn hneed
  omega

/-! ## The entry point on well-formed arrays -/

theorem init_in_bounds (F : Frame V) (a : Args V) (h : 0 ≤ F.t_length) :
    in_bounds F (init a) := by
  unfold in_bounds init
  simpa using h

theorem init_passed (F : Frame V) (a : Args V) : passed F (init a) := by
  constructor <;> intro i h0 h <;> simp only [init] at h <;> omega

theorem check_float8_array_ofList (vs : List V) (caller : String) :
    check_float8_array (ArrayType.ofList FLOAT8OID vs) caller =
      if vs.length = 0 then .error (caller ++ ": expected float8 array") else .ok vs := by
  have h3 : (List.map some vs).filterMap id = vs := by
    induction vs with
    | nil => rfl
    | cons x xs ih => simp
  cases vs with
  | nil => rfl
  | cons x xs =>
    unfold check_float8_array ArrayType.ofList
    simp only [h3]
    simp

theorem check_timestamptz_array_ofList (ts : List Int) (caller : String) :
    check_timestamptz_array (ArrayType.ofList TIMESTAMPTZOID ts) caller =
      if ts.length = 0 then .error (caller ++ ": expected timestamptz array")
      else .ok ts := by
  have h4 : (List.map some ts).map (fun e => e.getD 0) = ts := by
    rw [List.map_map]
    exact List.map_id _
  cases ts with
  | nil => rfl
  | cons x xs =>
    unfold check_timestamptz_array ArrayType.ofList
    simp only [h4]
    simp

/-- The `num_elements` of a call depends on `start`, `end` and the step only. -/
theorem num_elements_call (start_ts end_ts step_s range_s : Int) (ts : List Int)
    (vs : List V) :
    num_elements (call start_ts end_ts step_s range_s ts vs)
      = wrap32 (wrap64 (Int.tdiv (wrap64 (end_ts - start_ts))
          (wrap64 (step_s * USECS_PER_SEC)) + 1)) := rfl

theorem num_elements_range (a : Args V) :
    -2147483648 ≤ num_elements a ∧ num_elements a < 2147483648 :=
  wrap32_range _

/-- A `call`, step by step: the outcome of `gapfill_array_delta` up to the end of the
loop, as a list of the cases in program order. -/
theorem gapfill_run_call [Sub V] (H : Host V) (fuel : Nat)
    (start_ts end_ts step_s range_s : Int) (ts : List Int) (vs : List V) :
    gapfill_run H fuel (call start_ts end_ts step_s range_s ts vs) =
      if wrap64 (step_s * USECS_PER_SEC) = 0 then .sigfpe
      else if ¬ (0 ≤ num_elements (call start_ts end_ts step_s range_s ts vs) ∧
          8 * num_elements (call start_ts end_ts step_s range_s ts vs) ≤ 1073741823) then
        .error ("invalid memory alloc request size " ++ toString (alloc_request SIZEOF_DATUM
          (num_elements (call start_ts end_ts step_s range_s ts vs))))
      else if H.assert_checking = true ∧ ts.length ≠ vs.length then .trap
      else if vs.length = 0 then .error "gapfill array delta: expected float8 array"
      else if ts.length = 0 then .error "gapfill array delta: expected timestamptz array"
      else
        match bucket_loop (call_frame H start_ts step_s range_s ts vs) fuel
            (init (call start_ts end_ts step_s range_s ts vs)) with
        | none => .unfinished
        | some s =>
          if (s.res.length : Int) ≤ num_elements (call start_ts end_ts step_s range_s ts vs)
          then .returned s else .overrun := by
  have hr := num_elements_range (call start_ts end_ts step_s range_s ts vs)
  have hd := palloc0_datum _ hr.1 hr.2
  by_cases h0 : wrap64 (step_s * USECS_PER_SEC) = 0
  · rw [if_pos h0]
    unfold gapfill_run
    exact if_pos h0
  rw [if_neg h0]
  by_cases ha : 0 ≤ num_elements (call start_ts end_ts step_s range_s ts vs) ∧
      8 * num_elements (call start_ts end_ts step_s range_s ts vs) ≤ 1073741823
  swap
  · rw [if_pos ha]
    have : ¬ alloc_request SIZEOF_DATUM
        (num_elements (call start_ts end_ts step_s range_s ts vs)) ≤ MaxAllocSize :=
      fun hc => ha (hd.mp hc)
    unfold gapfill_run
    rw [if_neg (show ¬ wrap64 ((call start_ts end_ts step_s range_s ts vs).step_s
      * USECS_PER_SEC) = 0 from h0)]
    simp only [palloc0, if_neg this]
  rw [if_neg (not_not.mpr ha)]
  have h8 := hd.mpr ha
  have h1 := palloc0_bool _ ha.1 ha.2
  have hstart : gapfill_run H fuel (call start_ts end_ts step_s range_s ts vs) =
      if assert_fails H (decide ((ts.length : Int) = (vs.length : Int))) then .trap
      else
        match check_float8_array (ArrayType.ofList FLOAT8OID vs) "gapfill array delta" with
        | .error msg => .error msg
        | .ok v_elem =>
          match check_timestamptz_array (ArrayType.ofList TIMESTAMPTZOID ts)
              "gapfill array delta" with
          | .error msg => .error msg
          | .ok t_datums =>
            match bucket_loop (frame H (call start_ts end_ts step_s range_s ts vs) v_elem
                t_datums) fuel (init (call start_ts end_ts step_s range_s ts vs)) with
            | none => .unfinished
            | some s =>
              if (s.res.length : Int)
                  ≤ num_elements (call start_ts end_ts step_s range_s ts vs)
              then .returned s else .overrun := by
    unfold gapfill_run
    rw [if_neg (show ¬ wrap64 ((call start_ts end_ts step_s range_s ts vs).step_s
      * USECS_PER_SEC) = 0 from h0)]
    simp only [palloc0, if_pos h8, if_pos h1]
    simp [call, ArrayType.ofList, assert_fails]
  rw [hstart]
  by_cases hl : H.assert_checking = true ∧ ts.length ≠ vs.length
  · rw [if_pos hl, if_pos]
    unfold assert_fails
    simp [hl.1, hl.2]
  rw [if_neg hl, if_neg]
  swap
  · unfold assert_fails
    simp only [Bool.and_eq_true, Bool.not_eq_true', decide_eq_false_iff_not, not_and]
    intro hne hc
    apply hl
    exact ⟨hc, fun he => hne (by exact_mod_cast he)⟩
  rw [check_float8_array_ofList, check_timestamptz_array_ofList]
  by_cases hv : vs.length = 0
  · rw [if_pos hv, if_pos hv]
    rfl
  rw [if_neg hv, if_neg hv]
  by_cases ht : ts.length = 0
  · rw [if_pos ht, if_pos ht]
    rfl
  rw [if_neg ht, if_neg ht]
  rfl

/-! ## The states of a call, round by round -/

theorem head_of_round_succ [Sub V] (H : Host V) (start_ts end_ts step_s range_s : Int)
    (ts : List Int) (vs : List V) (k : Nat) :
    head_of_round H start_ts end_ts step_s range_s ts vs (k + 1)
      = bucket (call_frame H start_ts step_s range_s ts vs)
          (head_of_round H start_ts end_ts step_s range_s ts vs k) :=
  rounds_succ _ _ _

theorem head_of_round_in_bounds [Sub V] (H : Host V) (start_ts end_ts step_s range_s : Int)
    (ts : List Int) (vs : List V) (k : Nat) :
    in_bounds (call_frame H start_ts step_s range_s ts vs)
      (head_of_round H start_ts end_ts step_s range_s ts vs k) :=
  rounds_in_bounds _ k _ (init_in_bounds _ _ (by simp [call_frame]))

/-- The slots written before round `m`. -/
theorem head_of_round_res [Sub V] (H : Host V) (start_ts end_ts step_s range_s : Int)
    (ts : List Int) (vs : List V) (m : Nat) :
    (head_of_round H start_ts end_ts step_s range_s ts vs m).res
      = (List.range m).map (slot_of_round H start_ts end_ts step_s range_s ts vs) := by
  unfold head_of_round
  rw [rounds_res]
  rfl

theorem head_of_round_res_length [Sub V] (H : Host V)
    (start_ts end_ts step_s range_s : Int) (ts : List Int) (vs : List V) (m : Nat) :
    (head_of_round H start_ts end_ts step_s range_s ts vs m).res.length = m := by
  rw [head_of_round_res]
  simp

/-- The slot at position `k` of the slots written before round `m` is the one written by
round `k`. -/
theorem head_of_round_res_get [Sub V] (H : Host V) (start_ts end_ts step_s range_s : Int)
    (ts : List Int) (vs : List V) (m k : Nat) (hk : k < m) :
    (head_of_round H start_ts end_ts step_s range_s ts vs m).res[k]?
      = some (slot_of_round H start_ts end_ts step_s range_s ts vs k) := by
  rw [head_of_round_res]
  simp [List.getElem?_range, hk]

/-- The boundaries the slots before round `m` were computed for. -/
theorem head_of_round_boundaries [Sub V] (H : Host V)
    (start_ts end_ts step_s range_s : Int) (ts : List Int) (vs : List V) (m : Nat) :
    (head_of_round H start_ts end_ts step_s range_s ts vs m).boundaries
      = (List.range m).map (fun i : Nat =>
          (head_of_round H start_ts end_ts step_s range_s ts vs i).current_bucket_end_ts) := by
  unfold head_of_round
  rw [rounds_boundaries]
  rfl

/-- The boundary at the head of round `k` is the exact boundary `end - k * STEP` wrapped
into `int64`. -/
theorem head_of_round_ts_wrap [Sub V] (H : Host V) (start_ts end_ts step_s range_s : Int)
    (ts : List Int) (vs : List V) (k : Nat) (he : int64 end_ts) :
    (head_of_round H start_ts end_ts step_s range_s ts vs k).current_bucket_end_ts
      = wrap64 (boundary end_ts step_s k) := by
  unfold head_of_round
  rw [rounds_ts _ _ _ he]
  rfl

/-- The boundary at the head of every round is an `int64` value, for an `int64`
timestamp `end`. -/
theorem head_of_round_ts_int64 [Sub V] (H : Host V) (start_ts end_ts step_s range_s : Int)
    (ts : List Int) (vs : List V) (k : Nat) (he : int64 end_ts) :
    int64 (head_of_round H start_ts end_ts step_s range_s ts vs k).current_bucket_end_ts := by
  rw [head_of_round_ts_wrap H start_ts end_ts step_s range_s ts vs k he]
  exact int64_wrap64 _

/-- The boundary at the head of round `k` is the exact boundary `end - k * STEP` when
that is an `int64` value. -/
theorem head_of_round_ts [Sub V] (H : Host V) (start_ts end_ts step_s range_s : Int)
    (ts : List Int) (vs : List V) (k : Nat) (he : int64 end_ts)
    (hk : int64 (boundary end_ts step_s k)) :
    (head_of_round H start_ts end_ts step_s range_s ts vs k).current_bucket_end_ts
      = boundary end_ts step_s k := by
  rw [head_of_round_ts_wrap H start_ts end_ts step_s range_s ts vs k he,
    wrap64_of_int64 _ hk]

/-- The start of the window of round `k` is the exact `B - RANGE` when that is an `int64`
value. -/
theorem window_start_of_round_eq [Sub V] (H : Host V)
    (start_ts end_ts step_s range_s : Int) (ts : List Int) (vs : List V) (k : Nat)
    (hB : (head_of_round H start_ts end_ts step_s range_s ts vs k).current_bucket_end_ts
      = boundary end_ts step_s k)
    (hw : int64 (boundary end_ts step_s k - range_s * USECS_PER_SEC)) :
    window_start_of_round H start_ts end_ts step_s range_s ts vs k
      = boundary end_ts step_s k - range_s * USECS_PER_SEC := by
  unfold window_start_of_round range_start_ts
  rw [hB, wrap64_sub_wrap64]
  exact wrap64_of_int64 _ hw

/-- Up to round `n_buckets` the boundary at the head of a round is the exact one, absent
`int64` overflow. -/
theorem head_of_round_ts_upto [Sub V] (H : Host V) (start_ts end_ts step_s range_s : Int)
    (ts : List Int) (vs : List V) (hstep : 0 < step_s)
    (hno : no_step_overflow start_ts end_ts step_s) (k : Nat)
    (hk : k ≤ n_buckets start_ts end_ts step_s) :
    (head_of_round H start_ts end_ts step_s range_s ts vs k).current_bucket_end_ts
      = boundary end_ts step_s k := by
  obtain ⟨hs, he, _, _, hm⟩ := hno
  apply head_of_round_ts H start_ts end_ts step_s range_s ts vs k he
  rcases Nat.eq_or_lt_of_le hk with h | h
  · rw [h]
    exact hm
  · exact boundary_int64 start_ts end_ts step_s (le_of_lt hstep) hs he k
      ((n_buckets_spec start_ts end_ts step_s hstep k).mp h)

/-- The number of rounds does not exceed the exact number of slots `(end - start) / STEP
+ 1` when that is not negative. -/
theorem n_buckets_le_slots (start_ts end_ts step_s : Int) (hstep : 0 < step_s)
    (h0 : 0 ≤ Int.tdiv (end_ts - start_ts) (step_s * USECS_PER_SEC) + 1) :
    (n_buckets start_ts end_ts step_s : Int)
      ≤ Int.tdiv (end_ts - start_ts) (step_s * USECS_PER_SEC) + 1 := by
  have hS : (0 : Int) < step_s * USECS_PER_SEC := by
    unfold USECS_PER_SEC
    omega
  have hspec := n_buckets_spec start_ts end_ts step_s hstep
  unfold boundary at hspec
  generalize n_buckets start_ts end_ts step_s = m at hspec ⊢
  generalize step_s * USECS_PER_SEC = S at hS hspec h0 ⊢
  rcases Nat.eq_zero_or_pos m with hm | hm
  · rw [hm]
    simpa using h0
  · have h1 := (hspec (m - 1)).mp (by omega)
    have hm1 : ((m - 1 : Nat) : Int) = (m : Int) - 1 := by omega
    rw [hm1] at h1
    have hk0 : (0 : Int) ≤ ((m : Int) - 1) * S := mul_nonneg (by omega) (le_of_lt hS)
    have hd : 0 ≤ end_ts - start_ts := by omega
    rw [Int.tdiv_eq_ediv hd (le_of_lt hS)]
    have : (m : Int) - 1 ≤ (end_ts - start_ts) / S := by
      rw [Int.le_ediv_iff_mul_le hS]
      omega
    omega

/-- A number of slots that `palloc0` accepts is an `int` value. -/
theorem slots_in_int_of_slots_fit (start_ts end_ts step_s : Int)
    (hfit : slots_fit start_ts end_ts step_s) : slots_in_int start_ts end_ts step_s := by
  unfold slots_fit SIZEOF_DATUM MaxAllocSize at hfit
  unfold slots_in_int
  generalize Int.tdiv (end_ts - start_ts) (step_s * USECS_PER_SEC) = q at hfit ⊢
  obtain ⟨h0, h1⟩ := hfit
  push_cast at h1
  omega

/-- Absent `int64` overflow, and for a number of slots that `palloc0` accepts,
`num_elements` is the exact `(end - start) / STEP + 1` (C division). -/
theorem num_elements_exact (start_ts end_ts step_s range_s : Int) (ts : List Int)
    (vs : List V) (hno : no_step_overflow start_ts end_ts step_s)
    (hfit : slots_fit start_ts end_ts step_s) :
    num_elements (call start_ts end_ts step_s range_s ts vs)
      = Int.tdiv (end_ts - start_ts) (step_s * USECS_PER_SEC) + 1 := by
  obtain ⟨_, _, hS, hd, _⟩ := hno
  rw [num_elements_call, wrap64_of_int64 _ hd, wrap64_of_int64 _ hS]
  unfold slots_fit SIZEOF_DATUM MaxAllocSize at hfit
  generalize Int.tdiv (end_ts - start_ts) (step_s * USECS_PER_SEC) = q at hfit ⊢
  obtain ⟨h0, h1⟩ := hfit
  push_cast at h1
  have hq : wrap64 (q + 1) = q + 1 := wrap64_of_int64 _ (by unfold int64; omega)
  rw [hq]
  exact wrap32_of_range _ h0 (by omega)

/-- A call with a positive step and no `int64` overflow on the way to its boundaries,
whose allocations succeed and whose arrays are not empty, makes `n_buckets` rounds; it
returns if the slots written fit the slots reserved. -/
theorem gapfill_run_rounds [Sub V] (H : Host V) (fuel : Nat)
    (start_ts end_ts step_s range_s : Int) (ts : List Int) (vs : List V)
    (hstep : 0 < step_s) (hno : no_step_overflow start_ts end_ts step_s)
    (ha : 0 ≤ num_elements (call start_ts end_ts step_s range_s ts vs) ∧
      8 * num_elements (call start_ts end_ts step_s range_s ts vs) ≤ 1073741823)
    (hlen : H.assert_checking = true → ts.length = vs.length)
    (hts : ts ≠ []) (hvs : vs ≠ [])
    (hfuel : n_buckets start_ts end_ts step_s ≤ fuel) :
    gapfill_run H fuel (call start_ts end_ts step_s range_s ts vs) =
      if (n_buckets start_ts end_ts step_s : Int)
          ≤ num_elements (call start_ts end_ts step_s range_s ts vs) then
        .returned (head_of_round H start_ts end_ts step_s range_s ts vs
          (n_buckets start_ts end_ts step_s))
      else .overrun := by
  have h0 : ¬ wrap64 (step_s * USECS_PER_SEC) = 0 := by
    rw [wrap64_of_int64 _ hno.2.2.1]
    unfold USECS_PER_SEC
    omega
  have hloop : bucket_loop (call_frame H start_ts step_s range_s ts vs) fuel
      (init (call start_ts end_ts step_s range_s ts vs))
      = some (head_of_round H start_ts end_ts step_s range_s ts vs
          (n_buckets start_ts end_ts step_s)) := by
    apply bucket_loop_rounds _ _ _ _ ?_ ?_ hfuel
    · intro k hk
      have := head_of_round_ts_upto H start_ts end_ts step_s range_s ts vs hstep hno k
        (le_of_lt hk)
      unfold head_of_round at this
      rw [this]
      exact (n_buckets_spec start_ts end_ts step_s hstep k).mp hk
    · have := head_of_round_ts_upto H start_ts end_ts step_s range_s ts vs hstep hno
        (n_buckets start_ts end_ts step_s) (le_refl _)
      unfold head_of_round at this
      rw [this]
      have h2 : ¬ start_ts < boundary end_ts step_s (n_buckets start_ts end_ts step_s) :=
        fun hc => absurd ((n_buckets_spec start_ts end_ts step_s hstep _).mpr hc)
          (lt_irrefl _)
      show boundary end_ts step_s (n_buckets start_ts end_ts step_s) ≤ start_ts
      omega
  rw [gapfill_run_call, if_neg h0, if_neg (not_not.mpr ha),
    if_neg (fun hc => hc.2 (hlen hc.1)),
    if_neg (fun hc => hvs (List.length_eq_zero.mp hc)),
    if_neg (fun hc => hts (List.length_eq_zero.mp hc)), hloop]
  simp only [head_of_round_res_length]

/-- With a positive step, no `int64` overflow on the way to the boundaries, a number of
slots that `palloc0` accepts and arrays that are not empty, the call returns the locals
at the head of round `n_buckets`. -/
theorem gapfill_run_returns [Sub V] (H : Host V) (fuel : Nat)
    (start_ts end_ts step_s range_s : Int) (ts : List Int) (vs : List V)
    (hstep : 0 < step_s) (hno : no_step_overflow start_ts end_ts step_s)
    (hfit : slots_fit start_ts end_ts step_s)
    (hlen : H.assert_checking = true → ts.length = vs.length)
    (hts : ts ≠ []) (hvs : vs ≠ [])
    (hfuel : n_buckets start_ts end_ts step_s ≤ fuel) :
    gapfill_run H fuel (call start_ts end_ts step_s range_s ts vs) =
      .returned (head_of_round H start_ts end_ts step_s range_s ts vs
        (n_buckets start_ts end_ts step_s)) := by
  have hne := num_elements_exact start_ts end_ts step_s range_s ts vs hno hfit
  have hfit' := hfit
  unfold slots_fit SIZEOF_DATUM MaxAllocSize at hfit'
  push_cast at hfit'
  rw [gapfill_run_rounds H fuel start_ts end_ts step_s range_s ts vs hstep hno
    (by rw [hne]; omega) hlen hts hvs hfuel, if_pos]
  rw [hne]
  exact n_buckets_le_slots start_ts end_ts step_s hstep hfit.1

/-- The array of the result is built when `8 * n + n / 8 + 32` bytes, for its `n`
elements, do not exceed `MaxAllocSize`. -/
theorem construct_md_array_ok (res : List (Option V))
    (h : 8 * res.length + res.length / 8 + 32 ≤ MaxAllocSize) :
    construct_md_array res = .ok res := by
  unfold construct_md_array
  split
  · rfl
  · have h1 : (res.map Option.isNone).count false ≤ res.length := by
      have := List.count_le_length false (res.map Option.isNone)
      rwa [List.length_map] at this
    have h2 : 8 * (res.map Option.isNone).count false +
        (if (res.map Option.isNone).contains true then MAXALIGN (24 + (res.length + 7) / 8)
         else 24) ≤ MaxAllocSize := by
      unfold MAXALIGN
      split <;> omega
    unfold palloc0
    rw [if_pos h2]

/-- The array that is built holds the slots it was built from. -/
theorem construct_md_array_eq (res arr : List (Option V))
    (h : construct_md_array res = .ok arr) : arr = res := by
  unfold construct_md_array at h
  split at h
  · exact (Except.ok.inj h).symm
  · split at h
    · exact absurd h (by simp)
    · exact (Except.ok.inj h).symm

/-- Whether the array of the result is built depends on the positions of its absent
slots only. -/
theorem construct_md_array_congr {W : Type} (res : List (Option V)) (res' : List (Option W))
    (hnull : res.map Option.isNone = res'.map Option.isNone)
    (h : construct_md_array res = .ok res) : construct_md_array res' = .ok res' := by
  have hl : res.length = res'.length := by
    have := congrArg List.length hnull
    rwa [List.length_map, List.length_map] at this
  unfold construct_md_array at h ⊢
  rw [← hl, ← hnull]
  by_cases h0 : res.length = 0
  · rw [if_pos h0]
  · rw [if_neg h0] at h ⊢
    split at h
    · exact absurd h (by simp)
    · rename_i hp
      simp only [hp]

/-- A call whose run returns, and whose result array is small enough to be built, returns
the slots the run has written. -/
theorem gapfill_array_delta_of_run [Sub V] (H : Host V) (fuel : Nat) (a : Args V)
    (c : Cursor V) (h : gapfill_run H fuel a = .returned c)
    (hfit : 8 * c.res.length + c.res.length / 8 + 32 ≤ MaxAllocSize) :
    gapfill_array_delta H fuel a = .returned c.res := by
  unfold gapfill_array_delta
  rw [h]
  simp only [Outcome.andThen, construct_md_array_ok c.res hfit]

/-- The array of the slots of `n_buckets` rounds can be built when `palloc0` accepts the
requests for the number of slots. -/
theorem result_fits (start_ts end_ts step_s : Int) (hstep : 0 < step_s)
    (hfit : slots_fit start_ts end_ts step_s) :
    8 * n_buckets start_ts end_ts step_s + n_buckets start_ts end_ts step_s / 8 + 32
      ≤ MaxAllocSize := by
  have hle := n_buckets_le_slots start_ts end_ts step_s hstep hfit.1
  unfold slots_fit SIZEOF_DATUM MaxAllocSize at hfit
  push_cast at hfit
  unfold MaxAllocSize
  omega

theorem gapfill_array_delta_returns [Sub V] (H : Host V) (fuel : Nat)
    (start_ts end_ts step_s range_s : Int) (ts : List Int) (vs : List V)
    (hstep : 0 < step_s) (hno : no_step_overflow start_ts end_ts step_s)
    (hfit : slots_fit start_ts end_ts step_s)
    (hlen : H.assert_checking = true → ts.length = vs.length)
    (hts : ts ≠ []) (hvs : vs ≠ [])
    (hfuel : n_buckets start_ts end_ts step_s ≤ fuel) :
    gapfill_array_delta H fuel (call start_ts end_ts step_s range_s ts vs) =
      .returned ((List.range (n_buckets start_ts end_ts step_s)).map
        (slot_of_round H start_ts end_ts step_s range_s ts vs)) := by
  rw [gapfill_array_delta_of_run H fuel _ _
    (gapfill_run_returns H fuel start_ts end_ts step_s range_s ts vs hstep hno hfit hlen
      hts hvs hfuel) (by
        rw [head_of_round_res_length]
        exact result_fits start_ts end_ts step_s hstep hfit), head_of_round_res]

/-- With fewer rounds allowed than there are boundaries above `start`, the loop of such a
call is still running when the fuel is used up. -/
theorem gapfill_run_unfinished [Sub V] (H : Host V) (fuel : Nat)
    (start_ts end_ts step_s range_s : Int) (ts : List Int) (vs : List V)
    (hstep : 0 < step_s) (hno : no_step_overflow start_ts end_ts step_s)
    (ha : 0 ≤ num_elements (call start_ts end_ts step_s range_s ts vs) ∧
      8 * num_elements (call start_ts end_ts step_s range_s ts vs) ≤ 1073741823)
    (hlen : H.assert_checking = true → ts.length = vs.length)
    (hts : ts ≠ []) (hvs : vs ≠ [])
    (hfuel : fuel < n_buckets start_ts end_ts step_s) :
    gapfill_run H fuel (call start_ts end_ts step_s range_s ts vs) = .unfinished := by
  have h0 : ¬ wrap64 (step_s * USECS_PER_SEC) = 0 := by
    rw [wrap64_of_int64 _ hno.2.2.1]
    unfold USECS_PER_SEC
    omega
  have hloop : bucket_loop (call_frame H start_ts step_s range_s ts vs) fuel
      (init (call start_ts end_ts step_s range_s ts vs)) = none := by
    apply bucket_loop_unfinished _ _ _ _ hfuel
    intro k hk
    have := head_of_round_ts_upto H start_ts end_ts step_s range_s ts vs hstep hno k
      (le_of_lt hk)
    unfold head_of_round at this
    rw [this]
    exact (n_buckets_spec start_ts end_ts step_s hstep k).mp hk
  rw [gapfill_run_call, if_neg h0, if_neg (not_not.mpr ha),
    if_neg (fun hc => hc.2 (hlen hc.1)),
    if_neg (fun hc => hvs (List.length_eq_zero.mp hc)),
    if_neg (fun hc => hts (List.length_eq_zero.mp hc)), hloop]

/-- What a call that returns has done: it made some number `m` of rounds, the boundary
being above `start` at the head of each and not after the last; the step product was not
zero, the allocations succeeded, the arrays were not empty, and the `m` slots fit the
slots reserved. -/
theorem gapfill_run_returned [Sub V] (H : Host V) (fuel : Nat)
    (start_ts end_ts step_s range_s : Int) (ts : List Int) (vs : List V) (c : Cursor V)
    (h : gapfill_run H fuel (call start_ts end_ts step_s range_s ts vs) = .returned c) :
    ∃ m : Nat, m ≤ fuel ∧ c = head_of_round H start_ts end_ts step_s range_s ts vs m ∧
      (∀ k : Nat, k < m → start_ts
        < (head_of_round H start_ts end_ts step_s range_s ts vs k).current_bucket_end_ts) ∧
      (head_of_round H start_ts end_ts step_s range_s ts vs m).current_bucket_end_ts
        ≤ start_ts ∧
      wrap64 (step_s * USECS_PER_SEC) ≠ 0 ∧
      (0 ≤ num_elements (call start_ts end_ts step_s range_s ts vs) ∧
        8 * num_elements (call start_ts end_ts step_s range_s ts vs) ≤ 1073741823) ∧
      (H.assert_checking = true → ts.length = vs.length) ∧
      ts ≠ [] ∧ vs ≠ [] ∧
      (m : Int) ≤ num_elements (call start_ts end_ts step_s range_s ts vs) := by
  rw [gapfill_run_call] at h
  by_cases h0 : wrap64 (step_s * USECS_PER_SEC) = 0
  · rw [if_pos h0] at h
    exact absurd h (by simp)
  rw [if_neg h0] at h
  by_cases ha : 0 ≤ num_elements (call start_ts end_ts step_s range_s ts vs) ∧
      8 * num_elements (call start_ts end_ts step_s range_s ts vs) ≤ 1073741823
  swap
  · rw [if_pos ha] at h
    exact absurd h (by simp)
  rw [if_neg (not_not.mpr ha)] at h
  by_cases hl : H.assert_checking = true ∧ ts.length ≠ vs.length
  · rw [if_pos hl] at h
    exact absurd h (by simp)
  rw [if_neg hl] at h
  by_cases hv : vs.length = 0
  · rw [if_pos hv] at h
    exact absurd h (by simp)
  rw [if_neg hv] at h
  by_cases ht : ts.length = 0
  · rw [if_pos ht] at h
    exact absurd h (by simp)
  rw [if_neg ht] at h
  cases hloop : bucket_loop (call_frame H start_ts step_s range_s ts vs) fuel
      (init (call start_ts end_ts step_s range_s ts vs)) with
  | none =>
    rw [hloop] at h
    exact absurd h (by simp)
  | some s =>
    rw [hloop] at h
    simp only at h
    by_cases hfit : (s.res.length : Int)
        ≤ num_elements (call start_ts end_ts step_s range_s ts vs)
    swap
    · rw [if_neg hfit] at h
      exact absurd h (by simp)
    rw [if_pos hfit] at h
    have hsc : s = c := Outcome.returned.inj h
    obtain ⟨m, hm, hc, hgo, hstop⟩ := bucket_loop_some _ fuel _ _ hloop
    refine ⟨m, hm, hsc ▸ hc, hgo, hstop, h0, ha, ?_, ?_, ?_, ?_⟩
    · intro hc'
      by_contra hne
      exact hl ⟨hc', hne⟩
    · exact fun hc' => ht (by rw [hc']; rfl)
    · exact fun hc' => hv (by rw [hc']; rfl)
    · have : s.res.length = m := by
        rw [hc]
        exact head_of_round_res_length H start_ts end_ts step_s range_s ts vs m
      rw [this] at hfit
      exact hfit

/-- The result of a call that returns holds the slots its run has written, and the array
of the result was built. -/
theorem gapfill_array_delta_returned [Sub V] (H : Host V) (fuel : Nat) (a : Args V)
    (res : List (Option V)) (h : gapfill_array_delta H fuel a = .returned res) :
    ∃ c : Cursor V, gapfill_run H fuel a = .returned c ∧ res = c.res ∧
      construct_md_array c.res = .ok c.res := by
  unfold gapfill_array_delta at h
  cases hrun : gapfill_run H fuel a with
  | returned c =>
    rw [hrun] at h
    cases hcons : construct_md_array c.res with
    | ok arr =>
      have harr := construct_md_array_eq _ _ hcons
      have h' : Outcome.returned arr = Outcome.returned res := by
        simpa [Outcome.andThen, hcons] using h
      have hres : arr = res := Outcome.returned.inj h'
      exact ⟨c, rfl, hres.symm.trans harr, by rw [hcons, harr]⟩
    | error m =>
      exact absurd h (by simp [Outcome.andThen, hcons])
  | error m => rw [hrun] at h; exact absurd h (by simp [Outcome.andThen])
  | trap => rw [hrun] at h; exact absurd h (by simp [Outcome.andThen])
  | sigfpe => rw [hrun] at h; exact absurd h (by simp [Outcome.andThen])
  | overrun => rw [hrun] at h; exact absurd h (by simp [Outcome.andThen])
  | unfinished => rw [hrun] at h; exact absurd h (by simp [Outcome.andThen])

/-- A call whose step product is not zero, whose allocations succeed and whose arrays are
not empty returns after `m` rounds when the boundary is above `start` at the head of each
of them and not after the last, the fuel allows `m` rounds and the `m` slots fit the slots
reserved. -/
theorem gapfill_run_of_rounds [Sub V] (H : Host V) (fuel : Nat)
    (start_ts end_ts step_s range_s : Int) (ts : List Int) (vs : List V) (m : Nat)
    (h0 : wrap64 (step_s * USECS_PER_SEC) ≠ 0)
    (ha : 0 ≤ num_elements (call start_ts end_ts step_s range_s ts vs) ∧
      8 * num_elements (call start_ts end_ts step_s range_s ts vs) ≤ 1073741823)
    (hlen : H.assert_checking = true → ts.length = vs.length)
    (hts : ts ≠ []) (hvs : vs ≠ [])
    (hgo : ∀ k : Nat, k < m → start_ts
      < (head_of_round H start_ts end_ts step_s range_s ts vs k).current_bucket_end_ts)
    (hstop : (head_of_round H start_ts end_ts step_s range_s ts vs m).current_bucket_end_ts
      ≤ start_ts)
    (hm : m ≤ fuel)
    (hfit : (m : Int) ≤ num_elements (call start_ts end_ts step_s range_s ts vs)) :
    gapfill_run H fuel (call start_ts end_ts step_s range_s ts vs) =
      .returned (head_of_round H start_ts end_ts step_s range_s ts vs m) := by
  have hloop : bucket_loop (call_frame H start_ts step_s range_s ts vs) fuel
      (init (call start_ts end_ts step_s range_s ts vs))
      = some (head_of_round H start_ts end_ts step_s range_s ts vs m) :=
    bucket_loop_rounds _ _ _ _ hgo hstop hm
  rw [gapfill_run_call, if_neg h0, if_neg (not_not.mpr ha),
    if_neg (fun hc => hc.2 (hlen hc.1)),
    if_neg (fun hc => hvs (List.length_eq_zero.mp hc)),
    if_neg (fun hc => hts (List.length_eq_zero.mp hc)), hloop]
  simp only [head_of_round_res_length]
  rw [if_pos hfit]

/-- Absent `int64` overflow on the way to the boundaries, a loop that ends has made
`n_buckets` rounds. -/
theorem rounds_eq_n_buckets [Sub V] (H : Host V) (start_ts end_ts step_s range_s : Int)
    (ts : List Int) (vs : List V) (hstep : 0 < step_s)
    (hno : no_step_overflow start_ts end_ts step_s) (m : Nat)
    (hgo : ∀ k : Nat, k < m → start_ts
      < (head_of_round H start_ts end_ts step_s range_s ts vs k).current_bucket_end_ts)
    (hstop : (head_of_round H start_ts end_ts step_s range_s ts vs m).current_bucket_end_ts
      ≤ start_ts) :
    m = n_buckets start_ts end_ts step_s := by
  have hspec := n_buckets_spec start_ts end_ts step_s hstep
  rcases Nat.lt_trichotomy m (n_buckets start_ts end_ts step_s) with hlt | heq | hgt
  · rw [head_of_round_ts_upto H start_ts end_ts step_s range_s ts vs hstep hno m
      (le_of_lt hlt)] at hstop
    have := (hspec m).mp hlt
    omega
  · exact heq
  · have h1 := hgo _ hgt
    rw [head_of_round_ts_upto H start_ts end_ts step_s range_s ts vs hstep hno _
      (le_refl _)] at h1
    have := (hspec (n_buckets start_ts end_ts step_s)).mpr h1
    omega

/-- The result of a call that returns is the list of the slots of its rounds. -/
theorem gapfill_array_delta_returned_slots [Sub V] (H : Host V) (fuel : Nat)
    (start_ts end_ts step_s range_s : Int) (ts : List Int) (vs : List V)
    (res : List (Option V))
    (h : gapfill_array_delta H fuel (call start_ts end_ts step_s range_s ts vs)
      = .returned res) :
    ∃ m : Nat, m ≤ fuel ∧
      res = (List.range m).map (slot_of_round H start_ts end_ts step_s range_s ts vs) ∧
      (∀ k : Nat, k < m → start_ts
        < (head_of_round H start_ts end_ts step_s range_s ts vs k).current_bucket_end_ts) ∧
      (head_of_round H start_ts end_ts step_s range_s ts vs m).current_bucket_end_ts
        ≤ start_ts := by
  obtain ⟨c, hc, hres, _⟩ := gapfill_array_delta_returned H fuel _ res h
  obtain ⟨m, hm, hcm, hgo, hstop, _⟩ := gapfill_run_returned H fuel start_ts end_ts step_s
    range_s ts vs c hc
  refine ⟨m, hm, ?_, hgo, hstop⟩
  rw [hres, hcm, head_of_round_res]

/-- The result of a call that returns holds, at the position of every boundary above
`start`, the slot of the round of that boundary. -/
theorem gapfill_array_delta_returned_get [Sub V] (H : Host V) (fuel : Nat)
    (start_ts end_ts step_s range_s : Int) (ts : List Int) (vs : List V)
    (res : List (Option V)) (hstep : 0 ≤ step_s) (hs : int64 start_ts) (he : int64 end_ts)
    (k : Nat) (hk : start_ts < boundary end_ts step_s k)
    (h : gapfill_array_delta H fuel (call start_ts end_ts step_s range_s ts vs)
      = .returned res) :
    res[k]? = some (slot_of_round H start_ts end_ts step_s range_s ts vs k) := by
  obtain ⟨m, _, hres, _, hstop⟩ := gapfill_array_delta_returned_slots H fuel start_ts end_ts
    step_s range_s ts vs res h
  have hkm : k < m := by
    by_contra hc
    have hmono := boundary_antitone end_ts step_s hstep m k (by omega)
    have hm64 := boundary_int64 start_ts end_ts step_s hstep hs he m (by omega)
    rw [head_of_round_ts H start_ts end_ts step_s range_s ts vs m he hm64] at hstop
    omega
  rw [hres]
  simp [List.getElem?_range, hkm]

/-- Up to a boundary `B` for which `B` and `B - RANGE` are `int64` values, with a step
and a range that are not negative, every sample a cursor has passed is too recent. -/
theorem head_of_round_passed [Sub V] (H : Host V) (start_ts end_ts step_s range_s : Int)
    (ts : List Int) (vs : List V) (hstep : 0 ≤ step_s) (hrange : 0 ≤ range_s)
    (he : int64 end_ts) :
    ∀ k : Nat, int64 (boundary end_ts step_s k) →
      int64 (boundary end_ts step_s k - range_s * USECS_PER_SEC) →
      passed (call_frame H start_ts step_s range_s ts vs)
        (head_of_round H start_ts end_ts step_s range_s ts vs k)
  | 0, _, _ => init_passed _ _
  | k + 1, hB1, hW1 => by
    have hR0 : 0 ≤ range_s * USECS_PER_SEC := by
      unfold USECS_PER_SEC
      omega
    have hS0 : 0 ≤ step_s * USECS_PER_SEC := by
      unfold USECS_PER_SEC
      omega
    have hsucc := boundary_succ end_ts step_s k
    have hle := boundary_le end_ts step_s hstep k
    have hBk : int64 (boundary end_ts step_s k) := by
      unfold int64 at hB1 he ⊢
      omega
    have hWk : int64 (boundary end_ts step_s k - range_s * USECS_PER_SEC) := by
      unfold int64 at hW1 hBk ⊢
      omega
    have ih := head_of_round_passed H start_ts end_ts step_s range_s ts vs hstep hrange he
      k hBk hWk
    have hts := head_of_round_ts H start_ts end_ts step_s range_s ts vs k he hBk
    have hts1 := head_of_round_ts H start_ts end_ts step_s range_s ts vs (k + 1) he hB1
    have hws := window_start_of_round_eq H start_ts end_ts step_s range_s ts vs k hts hWk
    have hws1 := window_start_of_round_eq H start_ts end_ts step_s range_s ts vs (k + 1)
      hts1 hW1
    unfold window_start_of_round at hws hws1
    rw [head_of_round_succ] at hts1 hws1 ⊢
    apply bucket_passed _ _ ih
    · rw [hws, hts]
      omega
    · rw [hts1, hts]
      omega
    · rw [hws1, hws]
      omega

/-! ## A range that is not positive -/

/-- When the window does not start before the boundary, the window cursor stops where
the bucket cursor stopped. -/
theorem range_start_idx_eq_of_window_empty (F : Frame V) (s : Cursor V)
    (hR : s.current_bucket_end_ts ≤ range_start_ts F s)
    (h : s.range_start_idx = s.current_bucket_end_idx) :
    range_start_idx F s = bucket_end_idx F s := by
  have h1 := bucket_end_idx_ge F s
  have hfrom : range_start_from F s = bucket_end_idx F s := by
    unfold range_start_from
    split <;> omega
  unfold range_start_idx
  rw [hfrom]
  apply scan_fixed
  intro hlt
  have := bucket_end_idx_stop F s hlt
  omega

/-- With `range_s ≤ 0` and no `int64` overflow, the window of every round up to
`n_buckets` starts at or after its boundary. -/
theorem window_start_of_round_nonpos [Sub V] (H : Host V)
    (start_ts end_ts step_s range_s : Int) (ts : List Int) (vs : List V)
    (hstep : 0 < step_s) (hrange : range_s ≤ 0)
    (hno : no_step_overflow start_ts end_ts step_s)
    (hnr : no_range_overflow start_ts end_ts step_s range_s) (k : Nat)
    (hk : k < n_buckets start_ts end_ts step_s) :
    (head_of_round H start_ts end_ts step_s range_s ts vs k).current_bucket_end_ts
      ≤ range_start_ts (call_frame H start_ts step_s range_s ts vs)
          (head_of_round H start_ts end_ts step_s range_s ts vs k) := by
  have hts := head_of_round_ts_upto H start_ts end_ts step_s range_s ts vs hstep hno k
    (le_of_lt hk)
  have hws := window_start_of_round_eq H start_ts end_ts step_s range_s ts vs k hts
    (hnr k hk)
  unfold window_start_of_round at hws
  rw [hws, hts]
  unfold USECS_PER_SEC
  omega

theorem head_of_round_cursors_eq_of_range_nonpos [Sub V] (H : Host V)
    (start_ts end_ts step_s range_s : Int) (ts : List Int) (vs : List V)
    (hstep : 0 < step_s) (hrange : range_s ≤ 0)
    (hno : no_step_overflow start_ts end_ts step_s)
    (hnr : no_range_overflow start_ts end_ts step_s range_s) :
    ∀ k : Nat, k ≤ n_buckets start_ts end_ts step_s →
      (head_of_round H start_ts end_ts step_s range_s ts vs k).range_start_idx
        = (head_of_round H start_ts end_ts step_s range_s ts vs k).current_bucket_end_idx
  | 0, _ => rfl
  | k + 1, hk => by
    have ih := head_of_round_cursors_eq_of_range_nonpos H start_ts end_ts step_s range_s
      ts vs hstep hrange hno hnr k (by omega)
    rw [head_of_round_succ]
    exact range_start_idx_eq_of_window_empty _ _
      (window_start_of_round_nonpos H start_ts end_ts step_s range_s ts vs hstep hrange
        hno hnr k (by omega)) ih

/-- With `range_s ≤ 0` and no `int64` overflow every round writes an absent slot. -/
theorem slot_of_round_of_range_nonpos [Sub V] (H : Host V)
    (start_ts end_ts step_s range_s : Int) (ts : List Int) (vs : List V)
    (hstep : 0 < step_s) (hrange : range_s ≤ 0)
    (hno : no_step_overflow start_ts end_ts step_s)
    (hnr : no_range_overflow start_ts end_ts step_s range_s) (k : Nat)
    (hk : k < n_buckets start_ts end_ts step_s) :
    slot_of_round H start_ts end_ts step_s range_s ts vs k = none ∧
      start_idx_of_round H start_ts end_ts step_s range_s ts vs k
        = end_idx_of_round H start_ts end_ts step_s range_s ts vs k := by
  have heq := range_start_idx_eq_of_window_empty _ _
    (window_start_of_round_nonpos H start_ts end_ts step_s range_s ts vs hstep hrange
      hno hnr k hk)
    (head_of_round_cursors_eq_of_range_nonpos H start_ts end_ts step_s range_s ts vs hstep
      hrange hno hnr k (le_of_lt hk))
  refine ⟨?_, heq⟩
  apply slot_of_lt_two
  omega

/-! ## Calls that do not reach the loop -/

/-- When the `int64` product `step_s * USECS_PER_SEC` is zero the declaration of
`num_elements` divides by zero. -/
theorem gapfill_run_step_zero [Sub V] (H : Host V) (fuel : Nat) (a : Args V)
    (h : wrap64 (a.step_s * USECS_PER_SEC) = 0) : gapfill_run H fuel a = .sigfpe := by
  unfold gapfill_run
  rw [if_pos h]

/-- After the first cursor loop, every sample before `current_bucket_end_idx` is after the
boundary, when this held of the samples the cursor had passed before. -/
theorem bucket_end_idx_passed_of (F : Frame V) (s : Cursor V)
    (hp : ∀ i, 0 ≤ i → i < s.current_bucket_end_idx → s.current_bucket_end_ts < F.t i)
    (i : Int) (h0 : 0 ≤ i) (h : i < bucket_end_idx F s) : s.current_bucket_end_ts < F.t i := by
  by_cases hi : i < s.current_bucket_end_idx
  · exact hp i h0 hi
  · exact scan_passed F _ _ i (by omega) h

/-- Up to a boundary that is an `int64` value, with a step that is not negative, every
sample the bucket cursor has passed is after the boundary. -/
theorem head_of_round_passed_end [Sub V] (H : Host V) (start_ts end_ts step_s range_s : Int)
    (ts : List Int) (vs : List V) (hstep : 0 ≤ step_s) (he : int64 end_ts) :
    ∀ k : Nat, int64 (boundary end_ts step_s k) → ∀ i : Int, 0 ≤ i →
      i < (head_of_round H start_ts end_ts step_s range_s ts vs k).current_bucket_end_idx →
      (head_of_round H start_ts end_ts step_s range_s ts vs k).current_bucket_end_ts
        < (call_frame H start_ts step_s range_s ts vs).t i
  | 0, _, i, h0, h => by
    have : (head_of_round H start_ts end_ts step_s range_s ts vs 0).current_bucket_end_idx
        = 0 := rfl
    omega
  | k + 1, hB1, i, h0, h => by
    have hS0 : 0 ≤ step_s * USECS_PER_SEC := by
      unfold USECS_PER_SEC
      omega
    have hsucc := boundary_succ end_ts step_s k
    have hle := boundary_le end_ts step_s hstep k
    have hBk : int64 (boundary end_ts step_s k) := by
      unfold int64 at hB1 he ⊢
      omega
    have ih := head_of_round_passed_end H start_ts end_ts step_s range_s ts vs hstep he k hBk
    have hts := head_of_round_ts H start_ts end_ts step_s range_s ts vs k he hBk
    have hts1 := head_of_round_ts H start_ts end_ts step_s range_s ts vs (k + 1) he hB1
    rw [hts1]
    rw [head_of_round_succ] at h
    have := bucket_end_idx_passed_of _ _ ih i h0 h
    omega

theorem check_float8_array_malformed (a : ArrayType V) (caller : String)
    (hw : a.WellFormed) (hbad : a.malformed_for FLOAT8OID) :
    check_float8_array a caller = .error (caller ++ ": expected float8 array") := by
  unfold check_float8_array
  rw [if_pos]
  rcases hbad with h | h | h
  · exact Or.inr (Or.inl (hw.1 h))
  · exact Or.inl h
  · exact Or.inr (Or.inr h)

theorem check_timestamptz_array_malformed (a : ArrayType Int) (caller : String)
    (hw : a.WellFormed) (hbad : a.malformed_for TIMESTAMPTZOID) :
    check_timestamptz_array a caller = .error (caller ++ ": expected timestamptz array") := by
  unfold check_timestamptz_array
  rw [if_pos]
  rcases hbad with h | h | h
  · exact Or.inr (Or.inl (hw.1 h))
  · exact Or.inl h
  · exact Or.inr (Or.inr h)

/-- A call with a nonzero step product and a malformed array ends before the loop, in the
same way whatever the fuel: in the error of `palloc0` when `num_elements` is not a size it
accepts, else in a failed `Assert` or in the error of one of the two checks. -/
theorem gapfill_run_malformed [Sub V] (H : Host V) (a : Args V)
    (hstep : wrap64 (a.step_s * USECS_PER_SEC) ≠ 0)
    (hwv : a.v_array.WellFormed) (hwt : a.t_array.WellFormed)
    (hbad : a.v_array.malformed_for FLOAT8OID ∨ a.t_array.malformed_for TIMESTAMPTZOID) :
    ∃ o : Outcome (Cursor V), (∀ fuel : Nat, gapfill_run H fuel a = o) ∧
      ((¬ (0 ≤ num_elements a ∧ 8 * num_elements a ≤ 1073741823) ∧
          o = .error ("invalid memory alloc request size "
            ++ toString (alloc_request SIZEOF_DATUM (num_elements a)))) ∨
       ((0 ≤ num_elements a ∧ 8 * num_elements a ≤ 1073741823) ∧
        (o = .error "gapfill array delta: expected float8 array" ∨
         o = .error "gapfill array delta: expected timestamptz array" ∨
         (H.assert_checking = true ∧ o = .trap)))) := by
  have hr := num_elements_range a
  have hd := palloc0_datum _ hr.1 hr.2
  have htrap : ∀ c : Bool, assert_fails H c = true → H.assert_checking = true := by
    intro c hc
    unfold assert_fails at hc
    simp only [Bool.and_eq_true] at hc
    exact hc.2
  by_cases ha : 0 ≤ num_elements a ∧ 8 * num_elements a ≤ 1073741823
  swap
  · have h8 : ¬ alloc_request SIZEOF_DATUM (num_elements a) ≤ MaxAllocSize :=
      fun hc => ha (hd.mp hc)
    exact ⟨_, fun fuel => by
      simp only [gapfill_run, if_neg hstep, palloc0, if_neg h8], Or.inl ⟨ha, rfl⟩⟩
  have h8 := hd.mpr ha
  have h1 := palloc0_bool _ ha.1 ha.2
  by_cases h1a : assert_fails H (decide (a.t_array.elemtype = TIMESTAMPTZOID)) = true
  · exact ⟨.trap, fun fuel => by
        simp only [gapfill_run, if_neg hstep, palloc0, if_pos h8, if_pos h1, if_pos h1a],
      Or.inr ⟨ha, Or.inr (Or.inr ⟨htrap _ h1a, rfl⟩)⟩⟩
  by_cases h2 : assert_fails H (decide (a.v_array.elemtype = FLOAT8OID)) = true
  · exact ⟨.trap, fun fuel => by
        simp only [gapfill_run, if_neg hstep, palloc0, if_pos h8, if_pos h1, if_neg h1a,
          if_pos h2],
      Or.inr ⟨ha, Or.inr (Or.inr ⟨htrap _ h2, rfl⟩)⟩⟩
  by_cases h3 : assert_fails H (decide (a.t_array.dim0 = a.v_array.dim0)) = true
  · exact ⟨.trap, fun fuel => by
        simp only [gapfill_run, if_neg hstep, palloc0, if_pos h8, if_pos h1, if_neg h1a,
          if_neg h2, if_pos h3],
      Or.inr ⟨ha, Or.inr (Or.inr ⟨htrap _ h3, rfl⟩)⟩⟩
  by_cases hc : a.v_array.ndim ≠ 1 ∨ a.v_array.hasnull = true ∨
      a.v_array.elemtype ≠ FLOAT8OID
  · exact ⟨.error "gapfill array delta: expected float8 array", fun fuel => by
        simp only [gapfill_run, if_neg hstep, palloc0, if_pos h8, if_pos h1, if_neg h1a,
          if_neg h2, if_neg h3, check_float8_array, if_pos hc]
        rfl,
      Or.inr ⟨ha, Or.inl rfl⟩⟩
  · have hv : ¬ a.v_array.malformed_for FLOAT8OID := by
      rintro (h | h | h)
      · exact hc (Or.inr (Or.inl (hwv.1 h)))
      · exact hc (Or.inl h)
      · exact hc (Or.inr (Or.inr h))
    have ht : a.t_array.malformed_for TIMESTAMPTZOID := hbad.resolve_left hv
    exact ⟨.error "gapfill array delta: expected timestamptz array", fun fuel => by
        simp only [gapfill_run, if_neg hstep, palloc0, if_pos h8, if_pos h1, if_neg h1a,
          if_neg h2, if_neg h3, check_float8_array, if_neg hc,
          check_timestamptz_array_malformed a.t_array _ hwt ht]
        rfl,
      Or.inr ⟨ha, Or.inr (Or.inl rfl)⟩⟩

/-! ## The cursors as first indices -/

/-! ## The cursors as first indices -/

theorem first_at_or_before_eq (ts : List Int) (bound : Int) (c : Nat)
    (hc : c ≤ ts.length) (hbefore : ∀ i : Nat, i < c → bound < ts.getD i 0)
    (hat : c < ts.length → ts.getD c 0 ≤ bound) : first_at_or_before ts bound = c := by
  unfold first_at_or_before
  rcases Nat.lt_or_ge c ts.length with h | h
  · rw [List.findIdx_eq h]
    constructor
    · have := hat h
      rw [List.getD_eq_getElem _ _ h] at this
      simpa using this
    · intro j hj
      have := hbefore j hj
      rw [List.getD_eq_getElem _ _ (by omega)] at this
      simpa using this
  · have hcl : c = ts.length := by omega
    rw [hcl, List.findIdx_eq_length]
    intro x hx
    obtain ⟨i, hi, rfl⟩ := List.getElem_of_mem hx
    have := hbefore i (by omega)
    rw [List.getD_eq_getElem _ _ hi] at this
    simpa using this

/-- The cursor loop only moves forward as it is allowed more rounds. -/
theorem advance_mono_fuel (F : Frame V) (bound : Int) :
    ∀ (fuel : Nat) (idx : Int), advance F bound fuel idx ≤ advance F bound (fuel + 1) idx
  | 0, idx => advance_ge F bound 1 idx
  | fuel + 1, idx => by
    rw [advance, advance]
    split
    · exact advance_mono_fuel F bound fuel (idx + 1)
    · exact le_refl _

/-- When the test under `need two elements` succeeds, both value lookups are inside
`[0, t_length)`: `current_bucket_end_idx ≤ t_length - 2` and
`1 ≤ range_start_idx - 1 ≤ t_length - 1`. -/
theorem need_two_bounds (F : Frame V) (s : Cursor V) (hb : in_bounds F s)
    (h : need_two F s = true) :
    0 ≤ bucket_end_idx F s ∧ bucket_end_idx F s + 2 ≤ F.t_length ∧
      1 ≤ range_start_idx F s - 1 ∧ range_start_idx F s - 1 < F.t_length := by
  have h1 := bucket_end_idx_ge F s
  have h3 := range_start_idx_le F s hb
  unfold need_two at h
  rw [decide_eq_true_iff] at h
  obtain ⟨hb1, _, _⟩ := hb
  omega

/-- When the first cursor loop has run off the samples the test fails. -/
theorem need_two_false_of_exhausted (F : Frame V) (s : Cursor V) (hb : in_bounds F s)
    (h : bucket_end_idx F s = F.t_length) : need_two F s = false := by
  by_contra hc
  have := need_two_bounds F s hb (by simpa using hc)
  omega

theorem bucket_v_reads [Sub V] (F : Frame V) (s : Cursor V) :
    (bucket F s).v_reads = s.v_reads ++
      (if need_two F s then [bucket_end_idx F s, range_start_idx F s - 1] else []) := rfl

theorem rounds_v_reads_in_range [Sub V] (F : Frame V) (k : Nat) (s : Cursor V)
    (hb : in_bounds F s) (h : ∀ i ∈ s.v_reads, 0 ≤ i ∧ i < F.t_length) :
    ∀ i ∈ (rounds F k s).v_reads, 0 ≤ i ∧ i < F.t_length := by
  induction k with
  | zero => exact h
  | succ k ih =>
    rw [rounds_succ, bucket_v_reads]
    intro i hi
    rw [List.mem_append] at hi
    rcases hi with hi | hi
    · exact ih i hi
    · have hbk := rounds_in_bounds F k s hb
      by_cases hn : need_two F (rounds F k s) = true
      · have := need_two_bounds F _ hbk hn
        rw [if_pos hn] at hi
        simp only [List.mem_cons, List.mem_singleton, List.mem_nil_iff, or_false] at hi
        rcases hi with rfl | rfl <;> omega
      · rw [if_neg hn] at hi
        exact absurd hi (List.not_mem_nil _)

theorem head_of_round_v_reads [Sub V] (H : Host V) (start_ts end_ts step_s range_s : Int)
    (ts : List Int) (vs : List V) (k : Nat) :
    ∀ i ∈ (head_of_round H start_ts end_ts step_s range_s ts vs k).v_reads,
      0 ≤ i ∧ i < (ts.length : Int) :=
  rounds_v_reads_in_range _ k _ (init_in_bounds _ _ (by simp [call_frame]))
    (fun i hi => absurd hi (List.not_mem_nil _))

/-! ## After the samples are exhausted -/

theorem head_of_round_end_idx_mono [Sub V] (H : Host V)
    (start_ts end_ts step_s range_s : Int) (ts : List Int) (vs : List V) (k d : Nat) :
    (head_of_round H start_ts end_ts step_s range_s ts vs k).current_bucket_end_idx
      ≤ (head_of_round H start_ts end_ts step_s range_s ts vs (k + d)).current_bucket_end_idx := by
  induction d with
  | zero => exact le_refl _
  | succ d ih =>
    refine le_trans ih ?_
    rw [← Nat.add_assoc, head_of_round_succ]
    exact bucket_end_idx_ge _ _

/-- Once the first cursor loop has run off the samples it does so in every later round,
and all these rounds write an absent slot. -/
theorem exhausted_stays [Sub V] (H : Host V) (start_ts end_ts step_s range_s : Int)
    (ts : List Int) (vs : List V) (k k' : Nat) (hk : k ≤ k')
    (h : end_idx_of_round H start_ts end_ts step_s range_s ts vs k = (ts.length : Int)) :
    end_idx_of_round H start_ts end_ts step_s range_s ts vs k' = (ts.length : Int) ∧
      slot_of_round H start_ts end_ts step_s range_s ts vs k' = none := by
  have hb := head_of_round_in_bounds H start_ts end_ts step_s range_s ts vs k'
  have hle : end_idx_of_round H start_ts end_ts step_s range_s ts vs k' ≤ (ts.length : Int) :=
    bucket_end_idx_le _ _ hb
  have hge : (ts.length : Int) ≤ end_idx_of_round H start_ts end_ts step_s range_s ts vs k' := by
    rcases Nat.eq_or_lt_of_le hk with rfl | hlt
    · exact le_of_eq h.symm
    · obtain ⟨d, rfl⟩ : ∃ d, k' = (k + 1) + d := ⟨k' - (k + 1), by omega⟩
      have h1 := head_of_round_end_idx_mono H start_ts end_ts step_s range_s ts vs (k + 1) d
      have h2 : (head_of_round H start_ts end_ts step_s range_s ts vs
          (k + 1)).current_bucket_end_idx = (ts.length : Int) := by
        rw [head_of_round_succ]
        exact h
      have h3 : (head_of_round H start_ts end_ts step_s range_s ts vs
            (k + 1 + d)).current_bucket_end_idx
          ≤ end_idx_of_round H start_ts end_ts step_s range_s ts vs (k + 1 + d) :=
        bucket_end_idx_ge _ _
      omega
  have heq : end_idx_of_round H start_ts end_ts step_s range_s ts vs k' = (ts.length : Int) :=
    le_antisymm hle hge
  refine ⟨heq, ?_⟩
  apply slot_of_lt_two
  have h3 := range_start_idx_le _ _ hb
  have h4 := (range_start_idx_ge (call_frame H start_ts step_s range_s ts vs)
    (head_of_round H start_ts end_ts step_s range_s ts vs k')).1
  have hn : (call_frame H start_ts step_s range_s ts vs).t_length = (ts.length : Int) := rfl
  unfold end_idx_of_round at heq
  omega

/-! ## Two runs over the same samples, moved in time -/

section Shift

variable {W : Type}

theorem advance_shifted (c : Int) (F : Frame V) (G : Frame W) (h : shifted c F G)
    (bound : Int) :
    ∀ (fuel : Nat) (idx : Int), 0 ≤ idx →
      advance G (bound + c) fuel idx = advance F bound fuel idx
  | 0, idx, _ => rfl
  | fuel + 1, idx, h0 => by
    have hcond : (idx < G.t_length ∧ G.t idx > bound + c) ↔
        (idx < F.t_length ∧ F.t idx > bound) := by
      rw [h.1]
      constructor
      · rintro ⟨h1, h2⟩
        have := h.2.1 idx h0 h1
        exact ⟨h1, by omega⟩
      · rintro ⟨h1, h2⟩
        have := h.2.1 idx h0 h1
        exact ⟨h1, by omega⟩
    rw [advance, advance]
    by_cases hF : idx < F.t_length ∧ F.t idx > bound
    · rw [if_pos hF, if_pos (hcond.mpr hF)]
      exact advance_shifted c F G h bound fuel (idx + 1) (by omega)
    · rw [if_neg hF, if_neg (fun hc => hF (hcond.mp hc))]

theorem scan_shifted (c : Int) (F : Frame V) (G : Frame W) (h : shifted c F G)
    (bound idx : Int) (h0 : 0 ≤ idx) : scan G (bound + c) idx = scan F bound idx := by
  unfold scan
  rw [h.1]
  exact advance_shifted c F G h bound _ idx h0

theorem bucket_end_idx_shifted (c : Int) (F : Frame V) (G : Frame W) (h : shifted c F G)
    (s : Cursor V) (r : Cursor W) (ha : aligned c s r) (hb : in_bounds F s) :
    bucket_end_idx G r = bucket_end_idx F s := by
  unfold bucket_end_idx
  rw [ha.1, ha.2.1]
  exact scan_shifted c F G h _ _ hb.1

theorem range_start_idx_shifted (c : Int) (F : Frame V) (G : Frame W) (h : shifted c F G)
    (s : Cursor V) (r : Cursor W) (ha : aligned c s r) (hb : in_bounds F s)
    (hws : range_start_ts G r = range_start_ts F s + c) :
    range_start_idx G r = range_start_idx F s := by
  have hce := bucket_end_idx_shifted c F G h s r ha hb
  have hfrom : range_start_from G r = range_start_from F s := by
    unfold range_start_from
    rw [hce, ha.2.2]
  unfold range_start_idx
  rw [hfrom, hws]
  apply scan_shifted c F G h
  have := range_start_from_ge F s
  have := bucket_end_idx_ge F s
  have := hb.1
  omega

theorem need_two_shifted (c : Int) (F : Frame V) (G : Frame W) (h : shifted c F G)
    (s : Cursor V) (r : Cursor W) (ha : aligned c s r) (hb : in_bounds F s)
    (hws : range_start_ts G r = range_start_ts F s + c) :
    need_two G r = need_two F s := by
  have hce := bucket_end_idx_shifted c F G h s r ha hb
  have hrs := range_start_idx_shifted c F G h s r ha hb hws
  have h1 := bucket_end_idx_ge F s
  have h3 := range_start_idx_le F s hb
  have h0 := hb.1
  unfold need_two
  rw [hce, hrs, hws]
  by_cases h2 : range_start_idx F s - bucket_end_idx F s ≥ 2
  · have hti := h.2.1 (range_start_idx F s - 1) (by omega) (by omega)
    rw [hti]
    apply decide_eq_decide.mpr
    constructor
    · rintro ⟨ha1, ha2⟩
      exact ⟨by omega, ha2⟩
    · rintro ⟨ha1, ha2⟩
      exact ⟨by omega, ha2⟩
  · rw [decide_eq_false (fun hc => h2 hc.2), decide_eq_false (fun hc => h2 hc.2)]

/-- Two rounds from aligned states end in aligned states, when the start of the window
and the next boundary of the second are those of the first moved by `c`. -/
theorem bucket_aligned [Sub V] [Sub W] (c : Int) (F : Frame V) (G : Frame W)
    (h : shifted c F G) (s : Cursor V) (r : Cursor W) (ha : aligned c s r)
    (hb : in_bounds F s) (hws : range_start_ts G r = range_start_ts F s + c)
    (hB : (bucket G r).current_bucket_end_ts = (bucket F s).current_bucket_end_ts + c) :
    aligned c (bucket F s) (bucket G r) :=
  ⟨hB, bucket_end_idx_shifted c F G h s r ha hb,
    range_start_idx_shifted c F G h s r ha hb hws⟩

/-- Over the same samples the start of the window is the same. -/
theorem range_start_ts_same (F : Frame V) (G : Frame W) (h : shifted 0 F G)
    (s : Cursor V) (r : Cursor W) (ha : aligned 0 s r) :
    range_start_ts G r = range_start_ts F s + 0 := by
  unfold range_start_ts
  rw [ha.1, h.2.2.2]
  simp

theorem bucket_ts_same [Sub V] [Sub W] (F : Frame V) (G : Frame W) (h : shifted 0 F G)
    (s : Cursor V) (r : Cursor W) (ha : aligned 0 s r) :
    (bucket G r).current_bucket_end_ts = (bucket F s).current_bucket_end_ts + 0 := by
  show wrap64 (r.current_bucket_end_ts - wrap64 (G.step_s * USECS_PER_SEC))
    = wrap64 (s.current_bucket_end_ts - wrap64 (F.step_s * USECS_PER_SEC)) + 0
  rw [ha.1, h.2.2.1]
  simp

theorem rounds_aligned_same [Sub V] [Sub W] (F : Frame V) (G : Frame W)
    (h : shifted 0 F G) (s : Cursor V) (r : Cursor W) (ha : aligned 0 s r)
    (hb : in_bounds F s) (k : Nat) : aligned 0 (rounds F k s) (rounds G k r) := by
  induction k with
  | zero => exact ha
  | succ k ih =>
    rw [rounds_succ, rounds_succ]
    exact bucket_aligned 0 F G h _ _ ih (rounds_in_bounds F k s hb)
      (range_start_ts_same F G h _ _ ih) (bucket_ts_same F G h _ _ ih)

/-- The frames of two calls on the same samples moved by `c`. -/
theorem call_frame_shifted (H : Host V) (G : Host W) (start_ts start_ts' step_s range_s : Int)
    (ts : List Int) (vs : List V) (ws : List W) (c : Int) :
    shifted c (call_frame H start_ts step_s range_s ts vs)
      (call_frame G start_ts' step_s range_s (ts.map (fun t => t + c)) ws) := by
  refine ⟨?_, ?_, rfl, rfl⟩
  · show (((ts.map (fun t => t + c)).length : Nat) : Int) = (ts.length : Int)
    rw [List.length_map]
  · intro i h0 hlt
    obtain ⟨n, rfl⟩ := Int.eq_ofNat_of_zero_le h0
    have hn : n < ts.length := by
      have : ((n : Nat) : Int) < (ts.length : Int) := hlt
      omega
    show deref (ts.map (fun t => t + c)) G.t_outside (n : Int)
      = deref ts H.t_outside (n : Int) + c
    rw [deref_natCast _ _ n (by rw [List.length_map]; exact hn), deref_natCast _ _ n hn,
      List.getElem_map]

/-- The frames of two calls on the same samples. -/
theorem call_frame_same (H : Host V) (G : Host W) (start_ts start_ts' step_s range_s : Int)
    (ts : List Int) (vs : List V) (ws : List W) :
    shifted 0 (call_frame H start_ts step_s range_s ts vs)
      (call_frame G start_ts' step_s range_s ts ws) := by
  have := call_frame_shifted H G start_ts start_ts' step_s range_s ts vs ws 0
  simpa using this

theorem n_buckets_mono (start_ts start_ts' end_ts step_s : Int) (hstep : 0 < step_s)
    (h : start_ts' ≤ start_ts) :
    n_buckets start_ts end_ts step_s ≤ n_buckets start_ts' end_ts step_s := by
  by_contra hc
  have h1 := (n_buckets_spec start_ts end_ts step_s hstep
    (n_buckets start_ts' end_ts step_s)).mp (by omega)
  have h2 := (n_buckets_spec start_ts' end_ts step_s hstep
    (n_buckets start_ts' end_ts step_s)).mpr (by omega)
  omega

theorem n_buckets_shift (start_ts end_ts step_s c : Int) :
    n_buckets (start_ts + c) (end_ts + c) step_s = n_buckets start_ts end_ts step_s := by
  have : end_ts + c - (start_ts + c) = end_ts - start_ts := by ring
  unfold n_buckets
  rw [this]

/-- The cursors and boundaries of two calls on the same samples agree round by round,
whatever their values, hosts and `start`. -/
theorem head_of_round_same [Sub V] [Sub W] (H : Host V) (G : Host W)
    (start_ts start_ts' end_ts step_s range_s : Int)
    (ts : List Int) (vs : List V) (ws : List W) (k : Nat) :
    aligned 0 (head_of_round H start_ts end_ts step_s range_s ts vs k)
      (head_of_round G start_ts' end_ts step_s range_s ts ws k) :=
  rounds_aligned_same _ _ (call_frame_same H G start_ts start_ts' step_s range_s ts vs ws)
    _ _ ⟨(add_zero _).symm, rfl, rfl⟩ (init_in_bounds _ _ (by simp [call_frame])) k

/-- The boundary at the head of a round does not depend on `start`, the values or the
host. -/
theorem head_of_round_ts_same [Sub V] [Sub W] (H : Host V) (G : Host W)
    (start_ts start_ts' end_ts step_s range_s : Int)
    (ts : List Int) (vs : List V) (ws : List W) (k : Nat) :
    (head_of_round G start_ts' end_ts step_s range_s ts ws k).current_bucket_end_ts
      = (head_of_round H start_ts end_ts step_s range_s ts vs k).current_bucket_end_ts := by
  have := (head_of_round_same H G start_ts start_ts' end_ts step_s range_s ts vs ws k).1
  rw [this, add_zero]

/-- Two calls that differ in `start` only write the same slot in every round. -/
theorem slot_of_round_same_start [Sub V] (H : Host V)
    (start_ts start_ts' end_ts step_s range_s : Int) (ts : List Int) (vs : List V)
    (k : Nat) :
    slot_of_round H start_ts' end_ts step_s range_s ts vs k
      = slot_of_round H start_ts end_ts step_s range_s ts vs k := by
  have h := call_frame_same H H start_ts start_ts' step_s range_s ts vs vs
  have ha := head_of_round_same H H start_ts start_ts' end_ts step_s range_s ts vs vs k
  have hb := head_of_round_in_bounds H start_ts end_ts step_s range_s ts vs k
  have hws := range_start_ts_same _ _ h _ _ ha
  unfold slot_of_round slot
  rw [need_two_shifted 0 _ _ h _ _ ha hb hws, bucket_end_idx_shifted 0 _ _ h _ _ ha hb,
    range_start_idx_shifted 0 _ _ h _ _ ha hb hws]
  rfl

/-- Two calls on the same timestamps write an absent slot in the same rounds, whatever
their values and hosts. -/
theorem slot_of_round_none_iff [Sub V] [Sub W] (H : Host V) (G : Host W)
    (start_ts end_ts step_s range_s : Int) (ts : List Int) (vs : List V) (ws : List W)
    (k : Nat) :
    slot_of_round H start_ts end_ts step_s range_s ts vs k = none ↔
      slot_of_round G start_ts end_ts step_s range_s ts ws k = none := by
  have h := call_frame_same H G start_ts start_ts step_s range_s ts vs ws
  have ha := head_of_round_same H G start_ts start_ts end_ts step_s range_s ts vs ws k
  have hb := head_of_round_in_bounds H start_ts end_ts step_s range_s ts vs k
  have hws := range_start_ts_same _ _ h _ _ ha
  unfold slot_of_round
  rw [slot_eq_none_iff, slot_eq_none_iff, need_two_shifted 0 _ _ h _ _ ha hb hws]

theorem boundary_shift (end_ts step_s c : Int) (k : Nat) :
    boundary (end_ts + c) step_s k = boundary end_ts step_s k + c := by
  unfold boundary
  ring

/-- Absent `int64` overflow in both calls, the cursors of two calls on the same samples
moved by `c` agree round by round, up to round `n_buckets`. -/
theorem head_of_round_moved [Sub V] (H : Host V)
    (start_ts end_ts step_s range_s : Int) (ts : List Int) (vs : List V) (c : Int)
    (hstep : 0 < step_s)
    (hno : no_step_overflow start_ts end_ts step_s)
    (hno' : no_step_overflow (start_ts + c) (end_ts + c) step_s)
    (hnr : no_range_overflow start_ts end_ts step_s range_s)
    (hnr' : no_range_overflow (start_ts + c) (end_ts + c) step_s range_s) :
    ∀ k : Nat, k ≤ n_buckets start_ts end_ts step_s →
      aligned c (head_of_round H start_ts end_ts step_s range_s ts vs k)
        (head_of_round H (start_ts + c) (end_ts + c) step_s range_s
          (ts.map (fun t => t + c)) vs k)
  | 0, _ => ⟨rfl, rfl, rfl⟩
  | k + 1, hk => by
    have ih := head_of_round_moved H start_ts end_ts step_s range_s ts vs c hstep hno hno'
      hnr hnr' k (by omega)
    have hn := n_buckets_shift start_ts end_ts step_s c
    have hsh := call_frame_shifted H H start_ts (start_ts + c) step_s range_s ts vs vs c
    have hb := head_of_round_in_bounds H start_ts end_ts step_s range_s ts vs k
    have hts := head_of_round_ts_upto H start_ts end_ts step_s range_s ts vs hstep hno k
      (by omega)
    have hts' := head_of_round_ts_upto H (start_ts + c) (end_ts + c) step_s range_s
      (ts.map (fun t => t + c)) vs hstep hno' k (by omega)
    have hts1 := head_of_round_ts_upto H start_ts end_ts step_s range_s ts vs hstep hno
      (k + 1) hk
    have hts1' := head_of_round_ts_upto H (start_ts + c) (end_ts + c) step_s range_s
      (ts.map (fun t => t + c)) vs hstep hno' (k + 1) (by omega)
    have hws := window_start_of_round_eq H start_ts end_ts step_s range_s ts vs k hts
      (hnr k (by omega))
    have hws' := window_start_of_round_eq H (start_ts + c) (end_ts + c) step_s range_s
      (ts.map (fun t => t + c)) vs k hts' (hnr' k (by omega))
    unfold window_start_of_round at hws hws'
    rw [head_of_round_succ] at hts1 hts1' ⊢
    rw [head_of_round_succ]
    apply bucket_aligned c _ _ hsh _ _ ih hb
    · rw [hws, hws', boundary_shift]
      ring
    · rw [hts1, hts1', boundary_shift]

/-- Absent `int64` overflow in both calls, two calls on the same samples moved by `c`,
with the same values and the same host, write the same slot in every round before round
`n_buckets`. -/
theorem slot_of_round_moved [Sub V] (H : Host V)
    (start_ts end_ts step_s range_s : Int) (ts : List Int) (vs : List V) (c : Int)
    (hstep : 0 < step_s)
    (hno : no_step_overflow start_ts end_ts step_s)
    (hno' : no_step_overflow (start_ts + c) (end_ts + c) step_s)
    (hnr : no_range_overflow start_ts end_ts step_s range_s)
    (hnr' : no_range_overflow (start_ts + c) (end_ts + c) step_s range_s)
    (k : Nat) (hk : k < n_buckets start_ts end_ts step_s) :
    slot_of_round H (start_ts + c) (end_ts + c) step_s range_s (ts.map (fun t => t + c)) vs k
      = slot_of_round H start_ts end_ts step_s range_s ts vs k := by
  have ha := head_of_round_moved H start_ts end_ts step_s range_s ts vs c hstep hno hno'
    hnr hnr' k (le_of_lt hk)
  have hn := n_buckets_shift start_ts end_ts step_s c
  have hsh := call_frame_shifted H H start_ts (start_ts + c) step_s range_s ts vs vs c
  have hb := head_of_round_in_bounds H start_ts end_ts step_s range_s ts vs k
  have hts := head_of_round_ts_upto H start_ts end_ts step_s range_s ts vs hstep hno k
    (le_of_lt hk)
  have hts' := head_of_round_ts_upto H (start_ts + c) (end_ts + c) step_s range_s
    (ts.map (fun t => t + c)) vs hstep hno' k (by omega)
  have hws := window_start_of_round_eq H start_ts end_ts step_s range_s ts vs k hts
    (hnr k hk)
  have hws' := window_start_of_round_eq H (start_ts + c) (end_ts + c) step_s range_s
    (ts.map (fun t => t + c)) vs k hts' (hnr' k (by omega))
  unfold window_start_of_round at hws hws'
  have hw : range_start_ts (call_frame H (start_ts + c) step_s range_s
        (ts.map (fun t => t + c)) vs)
      (head_of_round H (start_ts + c) (end_ts + c) step_s range_s
        (ts.map (fun t => t + c)) vs k)
      = range_start_ts (call_frame H start_ts step_s range_s ts vs)
        (head_of_round H start_ts end_ts step_s range_s ts vs k) + c := by
    rw [hws, hws', boundary_shift]
    ring
  unfold slot_of_round slot
  rw [need_two_shifted c _ _ hsh _ _ ha hb hw, bucket_end_idx_shifted c _ _ hsh _ _ ha hb,
    range_start_idx_shifted c _ _ hsh _ _ ha hb hw]
  rfl

end Shift

end Lemmas

/-! ## The claims -/

/-- C1, counterexample. Worked example A called with `range_s = 18446744073710` (an
`int64` value), at its first boundary `B = 100` (`k = 0`): step > 0, range > 0, the arrays
have equal length, the timestamps are sorted, `B > start`, and the window `(B - RANGE, B]`
holds all five samples.  But the `int64` product `range_s * USECS_PER_SEC` wraps around to
`448384`, the window the code looks at is `(99.551616, 100]`, and the slot is absent
instead of `values[0] - values[4] = 6`: the call returns `[null, null]`. -/
theorem wide_range_loses_the_window :
    (0 : Int) < exampleWideRange.step_s ∧ (0 : Int) < exampleWideRange.range_s ∧
    int64 exampleWideRange.range_s ∧ ts_example.length = vs_example.length ∧
    non_increasing ts_example ∧
    exampleWideRange.start_ts < boundary exampleWideRange.end_ts exampleWideRange.step_s 0 ∧
    window_count exampleWideRange.range_s
      (boundary exampleWideRange.end_ts exampleWideRange.step_s 0) ts_example = 5 ∧
    wrap64 (exampleWideRange.range_s * USECS_PER_SEC) = 448384 ∧
    slot_of_round host0 0 (100 * USECS_PER_SEC) 50 wide_s ts_example vs_example 0 = none ∧
    ∀ (H : Host Int) (fuel : Nat),
      gapfill_array_delta H (fuel + 2) exampleWideRange = .returned [none, none] := by
  refine ⟨by decide, by decide, by decide, by decide, by decide, by decide, by decide,
    by decide, by decide, fun H fuel => ?_⟩
  unfold exampleWideRange
  rw [gapfill_array_delta_returns H (fuel + 2) 0 (100 * USECS_PER_SEC) 50 wide_s ts_example
    vs_example (by decide) (by decide) (by decide) (fun _ => by decide) (by decide)
    (by decide) (by
      have : n_buckets 0 (100 * USECS_PER_SEC) 50 = 2 := by decide
      omega)]
  rfl

/-- C1, amended. For step > 0, range > 0, `int64` timestamps `start` and `end`, timestamps
and values of equal length, timestamps sorted non-increasing, and a generated boundary
`B = end - k * STEP` for which `B - RANGE` is an `int64` value (no overflow in the start
of the window) and whose window `(B - RANGE, B]` holds at least two samples: there is a
smallest index `i` with `timestamps[i] ≤ B` and a largest index `j` with
`timestamps[j] > B - RANGE` (each is the only index of its kind); the slot round `k`
writes is present and equals `values[i] - values[j]`; it is slot `k` of the result of
every call that returns; and the call does return when no `int64` operation on the way to
the boundaries overflows and `palloc0` accepts the number of slots. -/
theorem delta_of_window_with_two_samples {V : Type} [Sub V] (H : Host V)
    (start_ts end_ts step_s range_s : Int) (ts : List Int) (vs : List V)
    (hstep : 0 < step_s) (hrange : 0 < range_s) (hlen : ts.length = vs.length)
    (hsorted : non_increasing ts) (k : Nat)
    (hk : start_ts < boundary end_ts step_s k)
    (hwin : 2 ≤ window_count range_s (boundary end_ts step_s k) ts)
    (hs : int64 start_ts) (he : int64 end_ts)
    (hw : int64 (boundary end_ts step_s k - range_s * USECS_PER_SEC)) :
    ∃ i j : Nat,
      most_recent_at ts (boundary end_ts step_s k) i ∧
      earliest_in_window ts range_s (boundary end_ts step_s k) j ∧
      (∀ i' : Nat, most_recent_at ts (boundary end_ts step_s k) i' → i' = i) ∧
      (∀ j' : Nat, earliest_in_window ts range_s (boundary end_ts step_s k) j' → j' = j) ∧
      ∃ vi vj : V, vs[i]? = some vi ∧ vs[j]? = some vj ∧
        slot_of_round H start_ts end_ts step_s range_s ts vs k = some (vi - vj) ∧
        (∀ (fuel : Nat) (res : List (Option V)),
          gapfill_array_delta H fuel (call start_ts end_ts step_s range_s ts vs)
            = .returned res → res[k]? = some (some (vi - vj))) ∧
        (no_step_overflow start_ts end_ts step_s → slots_fit start_ts end_ts step_s →
          ∃ N : Nat, ∀ fuel : Nat, N ≤ fuel → ∃ res : List (Option V),
            gapfill_array_delta H fuel (call start_ts end_ts step_s range_s ts vs)
              = .returned res ∧ res[k]? = some (some (vi - vj))) := by
  have hkm := (n_buckets_spec start_ts end_ts step_s hstep k).mpr hk
  have hk64 := boundary_int64 start_ts end_ts step_s (le_of_lt hstep) hs he k hk
  set F := call_frame H start_ts step_s range_s ts vs with hF
  set s := head_of_round H start_ts end_ts step_s range_s ts vs k with hs'
  have hB : s.current_bucket_end_ts = boundary end_ts step_s k :=
    head_of_round_ts H start_ts end_ts step_s range_s ts vs k he hk64
  have hWS : range_start_ts F s = boundary end_ts step_s k - range_s * USECS_PER_SEC :=
    window_start_of_round_eq H start_ts end_ts step_s range_s ts vs k hB hw
  have hR0 : 0 < range_s * USECS_PER_SEC := by
    unfold USECS_PER_SEC
    omega
  have hR : range_start_ts F s ≤ s.current_bucket_end_ts := by
    rw [hWS, hB]
    omega
  have hb : in_bounds F s := head_of_round_in_bounds H start_ts end_ts step_s range_s ts vs k
  have hp : passed F s := head_of_round_passed H start_ts end_ts step_s range_s ts vs
    (le_of_lt hstep) (le_of_lt hrange) he k hk64 hw
  have hcount := window_count_eq F s hb hp hR (by rw [hWS, hB]; rfl) hsorted rfl
  rw [hB] at hcount
  have htwo : 2 ≤ range_start_idx F s - bucket_end_idx F s := by
    have : (2 : Int) ≤ (window_count F.range_s (boundary end_ts step_s k) F.t_datums : Int) := by
      exact_mod_cast hwin
    omega
  have hslot := slot_of_two F s hb hp hR htwo
  have h1 := bucket_end_idx_ge F s
  have h3 := range_start_idx_le F s hb
  have hce0 : 0 ≤ bucket_end_idx F s := by
    unfold in_bounds at hb
    omega
  have hn : F.t_length = (ts.length : Int) := rfl
  have hti : ∀ (n : Nat), n < ts.length → F.t (n : Int) = ts.getD n 0 :=
    fun n hn => deref_getD ts _ n 0 hn
  -- what the two cursor loops establish, in terms of the boundary
  have hstop1 : F.t (bucket_end_idx F s) ≤ boundary end_ts step_s k := by
    have := bucket_end_idx_stop F s (by omega)
    rwa [hB] at this
  have hpass1 : ∀ x : Int, 0 ≤ x → x < bucket_end_idx F s → boundary end_ts step_s k < F.t x := by
    intro x hx0 hx
    have := bucket_end_idx_passed F s hp x hx0 hx
    rwa [hB] at this
  have hpass2 : ∀ x : Int, 0 ≤ x → x < range_start_idx F s →
      boundary end_ts step_s k - range_s * USECS_PER_SEC < F.t x := by
    intro x hx0 hx
    have := range_start_idx_passed F s hp hR x hx0 hx
    rwa [hWS] at this
  have hstop2 : ∀ x : Int, range_start_idx F s ≤ x → x < F.t_length →
      F.t x ≤ boundary end_ts step_s k - range_s * USECS_PER_SEC := by
    intro x hx hxn
    have hstop := range_start_idx_stop F s (by omega)
    have hsort := sorted_t F hsorted rfl (range_start_idx F s) x (by omega) hx hxn
    rw [hWS] at hstop
    omega
  obtain ⟨c, hc⟩ := Int.eq_ofNat_of_zero_le hce0
  obtain ⟨r, hr'⟩ := Int.eq_ofNat_of_zero_le (by omega : 0 ≤ range_start_idx F s - 1)
  have hcn : c < ts.length := by omega
  have hrn : r < ts.length := by omega
  have hmr : most_recent_at ts (boundary end_ts step_s k) c := by
    refine ⟨hcn, ?_, ?_⟩
    · rw [← hti c hcn, ← hc]
      exact hstop1
    · intro i' hi'
      rw [← hti i' (by omega)]
      exact hpass1 _ (by omega) (by omega)
  have hew : earliest_in_window ts range_s (boundary end_ts step_s k) r := by
    refine ⟨hrn, ?_, ?_⟩
    · rw [← hti r hrn, ← hr']
      exact hpass2 _ (by omega) (by omega)
    · intro j' hj' hlt
      rw [← hti j' hj']
      exact hstop2 _ (by omega) (by omega)
  have hiv : c < vs.length := by omega
  have hjv : r < vs.length := by omega
  have hvi : F.v (c : Int) = vs[c] := deref_natCast vs _ c hiv
  have hvj : F.v (r : Int) = vs[r] := deref_natCast vs _ r hjv
  have hslot' : slot_of_round H start_ts end_ts step_s range_s ts vs k
      = some (vs[c] - vs[r]) := by
    show slot F s = _
    rw [hslot, hc, hr', hvi, hvj]
  have hts : ts ≠ [] := by
    intro h0
    rw [h0] at hcn
    exact absurd hcn (by simp)
  have hvs : vs ≠ [] := by
    intro h0
    rw [h0] at hiv
    exact absurd hiv (by simp)
  refine ⟨c, r, hmr, hew, ?_, ?_, vs[c], vs[r], List.getElem?_eq_getElem _,
    List.getElem?_eq_getElem _, hslot', ?_, ?_⟩
  · rintro i' ⟨hi1, hi2, hi3⟩
    rcases lt_trichotomy i' c with h | h | h
    · exfalso
      have := hpass1 (i' : Int) (by omega) (by omega)
      rw [hti i' hi1] at this
      omega
    · exact h
    · exfalso
      have := hi3 c h
      rw [← hti c hcn, ← hc] at this
      omega
  · rintro j' ⟨hj1, hj2, hj3⟩
    rcases lt_trichotomy j' r with h | h | h
    · exfalso
      have := hj3 r hrn h
      have h2 := hpass2 (r : Int) (by omega) (by omega)
      rw [hti r hrn] at h2
      omega
    · exact h
    · exfalso
      have := hstop2 (j' : Int) (by omega) (by omega)
      rw [hti j' hj1] at this
      omega
  · intro fuel res hres
    rw [gapfill_array_delta_returned_get H fuel start_ts end_ts step_s range_s ts vs res
      (le_of_lt hstep) hs he k hk hres, hslot']
  · intro hno hfit
    refine ⟨n_buckets start_ts end_ts step_s, fun fuel hfuel => ⟨_,
      gapfill_array_delta_returns H fuel start_ts end_ts step_s range_s ts vs hstep hno hfit
        (fun _ => hlen) hts hvs hfuel, ?_⟩⟩
    rw [← hslot']
    simp [List.getElem?_range, hkm]

/-- Witness of C1 (amended): worked example A at its second boundary (`k = 1`,
`B = 50`); no `int64` operation of this call overflows and `palloc0` accepts its three
slots. -/
theorem delta_of_window_with_two_samples_witness :
    (0 : Int) < 50 ∧ (0 : Int) < 60 ∧ ts_example.length = vs_example.length ∧
    non_increasing ts_example ∧
    (0 : Int) < boundary (100 * USECS_PER_SEC) 50 1 ∧
    2 ≤ window_count 60 (boundary (100 * USECS_PER_SEC) 50 1) ts_example ∧
    int64 0 ∧ int64 (100 * USECS_PER_SEC) ∧
    int64 (boundary (100 * USECS_PER_SEC) 50 1 - 60 * USECS_PER_SEC) ∧
    no_step_overflow 0 (100 * USECS_PER_SEC) 50 ∧ slots_fit 0 (100 * USECS_PER_SEC) 50 ∧
    ∃ i j : Nat,
      most_recent_at ts_example (boundary (100 * USECS_PER_SEC) 50 1) i ∧
      earliest_in_window ts_example 60 (boundary (100 * USECS_PER_SEC) 50 1) j ∧
      (∀ i' : Nat, most_recent_at ts_example (boundary (100 * USECS_PER_SEC) 50 1) i' →
        i' = i) ∧
      (∀ j' : Nat, earliest_in_window ts_example 60 (boundary (100 * USECS_PER_SEC) 50 1) j' →
        j' = j) ∧
      ∃ vi vj : Int, vs_example[i]? = some vi ∧ vs_example[j]? = some vj ∧
        slot_of_round host0 0 (100 * USECS_PER_SEC) 50 60 ts_example vs_example 1
          = some (vi - vj) ∧
        (∀ (fuel : Nat) (res : List (Option Int)),
          gapfill_array_delta host0 fuel
              (call 0 (100 * USECS_PER_SEC) 50 60 ts_example vs_example)
            = .returned res → res[1]? = some (some (vi - vj))) ∧
        (no_step_overflow 0 (100 * USECS_PER_SEC) 50 → slots_fit 0 (100 * USECS_PER_SEC) 50 →
          ∃ N : Nat, ∀ fuel : Nat, N ≤ fuel → ∃ res : List (Option Int),
            gapfill_array_delta host0 fuel
                (call 0 (100 * USECS_PER_SEC) 50 60 ts_example vs_example)
              = .returned res ∧ res[1]? = some (some (vi - vj))) :=
  ⟨by decide, by decide, by decide, by decide, by decide, by decide, by decide, by decide,
    by decide, by decide, by decide,
    delta_of_window_with_two_samples host0 0 (100 * USECS_PER_SEC) 50 60 ts_example
      vs_example (by decide) (by decide) (by decide) (by decide) 1 (by decide) (by decide)
      (by decide) (by decide) (by decide)⟩

/-- C2. For step > 0, range > 0, `int64` timestamps `start` and `end`, timestamps and
values of equal length, timestamps sorted non-increasing, and a generated boundary
`B = end - k * STEP`: if fewer than two samples have their timestamp in the window
`(B - RANGE, B]`, the slot round `k` writes is absent, whether or not an `int64` operation
overflows (and so is the slot of any round, for the boundary the loop is at in that
round); it is slot `k` of the result of every call that returns; and the call does return
when no `int64` operation on the way to the boundaries overflows and `palloc0` accepts the
number of slots. -/
theorem absent_of_window_below_two_samples {V : Type} [Sub V] (H : Host V)
    (start_ts end_ts step_s range_s : Int) (ts : List Int) (vs : List V)
    (hstep : 0 < step_s) (hrange : 0 < range_s) (hlen : ts.length = vs.length)
    (hsorted : non_increasing ts) (k : Nat)
    (hk : start_ts < boundary end_ts step_s k)
    (hwin : window_count range_s (boundary end_ts step_s k) ts < 2)
    (hs : int64 start_ts) (he : int64 end_ts) :
    slot_of_round H start_ts end_ts step_s range_s ts vs k = none ∧
    (∀ j : Nat,
      window_count range_s
        (head_of_round H start_ts end_ts step_s range_s ts vs j).current_bucket_end_ts ts < 2 →
      slot_of_round H start_ts end_ts step_s range_s ts vs j = none) ∧
    (∀ (fuel : Nat) (res : List (Option V)),
      gapfill_array_delta H fuel (call start_ts end_ts step_s range_s ts vs)
        = .returned res → res[k]? = some none) ∧
    (no_step_overflow start_ts end_ts step_s → slots_fit start_ts end_ts step_s →
      ts ≠ [] →
      ∃ N : Nat, ∀ fuel : Nat, N ≤ fuel → ∃ res : List (Option V),
        gapfill_array_delta H fuel (call start_ts end_ts step_s range_s ts vs)
          = .returned res ∧
        res[k]? = some none) := by
  have hkm := (n_buckets_spec start_ts end_ts step_s hstep k).mpr hk
  have hk64 := boundary_int64 start_ts end_ts step_s (le_of_lt hstep) hs he k hk
  have hB := head_of_round_ts H start_ts end_ts step_s range_s ts vs k he hk64
  have hany : ∀ j : Nat,
      window_count range_s
        (head_of_round H start_ts end_ts step_s range_s ts vs j).current_bucket_end_ts ts < 2 →
      slot_of_round H start_ts end_ts step_s range_s ts vs j = none := by
    intro j hj
    exact slot_of_window_below_two _ _
      (head_of_round_in_bounds H start_ts end_ts step_s range_s ts vs j)
      (head_of_round_ts_int64 H start_ts end_ts step_s range_s ts vs j he)
      (le_of_lt hrange) hsorted rfl hj
  have hslot : slot_of_round H start_ts end_ts step_s range_s ts vs k = none := by
    apply hany
    rw [hB]
    exact hwin
  refine ⟨hslot, hany, ?_, ?_⟩
  · intro fuel res hres
    rw [gapfill_array_delta_returned_get H fuel start_ts end_ts step_s range_s ts vs res
      (le_of_lt hstep) hs he k hk hres, hslot]
  · intro hno hfit hts
    have hvs : vs ≠ [] := by
      intro h0
      apply hts
      apply List.length_eq_zero.mp
      rw [hlen, h0]
      rfl
    refine ⟨n_buckets start_ts end_ts step_s, fun fuel hfuel => ⟨_,
      gapfill_array_delta_returns H fuel start_ts end_ts step_s range_s ts vs hstep hno hfit
        (fun _ => hlen) hts hvs hfuel, ?_⟩⟩
    rw [← hslot]
    simp [List.getElem?_range, hkm]

/-- Witness of C2: worked example B at its first boundary (`k = 0`, `B = 100`), whose
window `(90, 100]` holds one sample; no `int64` operation of this call overflows and
`palloc0` accepts its three slots. -/
theorem absent_of_window_below_two_samples_witness :
    (0 : Int) < 50 ∧ (0 : Int) < 10 ∧ ts_example.length = vs_example.length ∧
    non_increasing ts_example ∧
    (0 : Int) < boundary (100 * USECS_PER_SEC) 50 0 ∧
    window_count 10 (boundary (100 * USECS_PER_SEC) 50 0) ts_example < 2 ∧
    int64 0 ∧ int64 (100 * USECS_PER_SEC) ∧
    no_step_overflow 0 (100 * USECS_PER_SEC) 50 ∧ slots_fit 0 (100 * USECS_PER_SEC) 50 ∧
    ts_example ≠ [] ∧
    slot_of_round host0 0 (100 * USECS_PER_SEC) 50 10 ts_example vs_example 0 = none ∧
    (∀ j : Nat,
      window_count 10
        (head_of_round host0 0 (100 * USECS_PER_SEC) 50 10 ts_example vs_example
          j).current_bucket_end_ts ts_example < 2 →
      slot_of_round host0 0 (100 * USECS_PER_SEC) 50 10 ts_example vs_example j = none) ∧
    (∀ (fuel : Nat) (res : List (Option Int)),
      gapfill_array_delta host0 fuel (call 0 (100 * USECS_PER_SEC) 50 10 ts_example vs_example)
        = .returned res → res[0]? = some none) ∧
    (no_step_overflow 0 (100 * USECS_PER_SEC) 50 → slots_fit 0 (100 * USECS_PER_SEC) 50 →
      ts_example ≠ [] →
      ∃ N : Nat, ∀ fuel : Nat, N ≤ fuel → ∃ res : List (Option Int),
        gapfill_array_delta host0 fuel
            (call 0 (100 * USECS_PER_SEC) 50 10 ts_example vs_example)
          = .returned res ∧
        res[0]? = some none) :=
  ⟨by decide, by decide, by decide, by decide, by decide, by decide, by decide, by decide,
    by decide, by decide, by decide,
    absent_of_window_below_two_samples host0 0 (100 * USECS_PER_SEC) 50 10 ts_example
      vs_example (by decide) (by decide) (by decide) (by decide) 0 (by decide) (by decide)
      (by decide) (by decide)⟩

/-- C3, counterexample. Three calls with step > 0 on the samples of the worked examples.
With `start = 200, end = 0, step = 50` no boundary is above `start`, so the claimed result
is the empty array; but `num_elements` is `-4 + 1 = -3`, `palloc0` is asked for
`8 * (size_t) -3` bytes and raises an error: the call does not return.  With `start = 0,
end = 1` and `step_s = 18446744073710` one boundary is above `start`; but the `int64`
product `step_s * USECS_PER_SEC` wraps around to `448384`, and the call returns three
slots.  With `step_s = 2 ^ 58` the product wraps around to `0` and the call divides by
zero. -/
theorem length_claim_fails_outside_limits :
    ((0 : Int) < exampleFarStart.step_s ∧ exampleFarStart.end_ts ≤ exampleFarStart.start_ts ∧
      ts_example.length = vs_example.length ∧ num_elements exampleFarStart = -3 ∧
      ∀ (H : Host Int) (fuel : Nat), gapfill_array_delta H fuel exampleFarStart
        = .error "invalid memory alloc request size 18446744073709551592") ∧
    ((0 : Int) < exampleWideStep.step_s ∧ int64 exampleWideStep.step_s ∧
      exampleWideStep.start_ts < exampleWideStep.end_ts ∧
      n_buckets exampleWideStep.start_ts exampleWideStep.end_ts exampleWideStep.step_s = 1 ∧
      wrap64 (exampleWideStep.step_s * USECS_PER_SEC) = 448384 ∧
      ∀ (H : Host Int) (fuel : Nat), ∃ res : List (Option Int),
        gapfill_array_delta H (fuel + 3) exampleWideStep = .returned res ∧
        res.length = 3) ∧
    ((0 : Int) < exampleZeroProduct.step_s ∧ int64 exampleZeroProduct.step_s ∧
      wrap64 (exampleZeroProduct.step_s * USECS_PER_SEC) = 0 ∧
      ∀ (H : Host Int) (fuel : Nat),
        gapfill_array_delta H fuel exampleZeroProduct = .sigfpe) := by
  refine ⟨⟨by decide, by decide, by decide, by decide, fun H fuel => rfl⟩,
    ⟨by decide, by decide, by decide, by decide, by decide, fun H fuel => ?_⟩,
    ⟨by decide, by decide, by decide, fun H fuel => rfl⟩⟩
  have he : int64 (1 * USECS_PER_SEC) := by decide
  have hrun := gapfill_run_of_rounds H (fuel + 3) 0 (1 * USECS_PER_SEC) wide_s 60 ts_example
    vs_example 3 (by decide) (by decide) (fun _ => by decide) (by decide) (by decide)
    (by
      intro k hk
      rw [head_of_round_ts_wrap H 0 (1 * USECS_PER_SEC) wide_s 60 ts_example vs_example k he]
      have : ∀ j : Nat, j < 3 → (0 : Int) < wrap64 (boundary (1 * USECS_PER_SEC) wide_s j) := by
        decide
      exact this k hk)
    (by
      rw [head_of_round_ts_wrap H 0 (1 * USECS_PER_SEC) wide_s 60 ts_example vs_example 3 he]
      decide)
    (by omega) (by decide)
  exact ⟨_, gapfill_array_delta_of_run H (fuel + 3) exampleWideStep _ hrun (by
      rw [head_of_round_res_length]
      decide),
    head_of_round_res_length H 0 (1 * USECS_PER_SEC) wide_s 60 ts_example vs_example 3⟩

/-- C3, amended. For step > 0, when no `int64` operation on the way to the boundaries
overflows: the length of the result of every call that returns is the number of `k ≥ 0`
with `end - k * STEP > start`: `0` when `end ≤ start`, otherwise the ceiling of
`(end - start) / STEP`; the slot at position `k` was computed for the boundary
`end - k * STEP`, and no slot was computed for a boundary equal to `start`.  The call does
terminate (with enough fuel it returns) when moreover `palloc0` accepts the number of
slots `(end - start) / STEP + 1` and the arrays are not empty (and of equal length, in a
build with assertion checking). -/
theorem result_length_counts_boundaries {V : Type} [Sub V] (H : Host V)
    (start_ts end_ts step_s range_s : Int) (ts : List Int) (vs : List V)
    (hstep : 0 < step_s) (hno : no_step_overflow start_ts end_ts step_s) :
    (∀ (fuel : Nat) (res : List (Option V)),
      gapfill_array_delta H fuel (call start_ts end_ts step_s range_s ts vs) = .returned res →
      ∃ s : Cursor V,
        gapfill_run H fuel (call start_ts end_ts step_s range_s ts vs) = .returned s ∧
        res = s.res ∧
        (∀ k : Nat, k < res.length ↔ start_ts < boundary end_ts step_s k) ∧
        Set.ncard {k : Nat | start_ts < boundary end_ts step_s k} = res.length ∧
        (end_ts ≤ start_ts → res.length = 0) ∧
        (start_ts < end_ts → (res.length : Int)
          = ⌈((end_ts - start_ts : Int) : ℚ) / ((step_s * USECS_PER_SEC : Int) : ℚ)⌉) ∧
        s.boundaries = (List.range res.length).map (boundary end_ts step_s) ∧
        start_ts ∉ s.boundaries) ∧
    (slots_fit start_ts end_ts step_s → ts ≠ [] → vs ≠ [] →
      (H.assert_checking = true → ts.length = vs.length) →
      ∃ N : Nat, ∀ fuel : Nat, N ≤ fuel → ∃ res : List (Option V),
        gapfill_array_delta H fuel (call start_ts end_ts step_s range_s ts vs)
          = .returned res) := by
  constructor
  swap
  · intro hfit hts hvs hlen
    exact ⟨n_buckets start_ts end_ts step_s, fun fuel hfuel => ⟨_,
      gapfill_array_delta_returns H fuel start_ts end_ts step_s range_s ts vs hstep hno hfit
        hlen hts hvs hfuel⟩⟩
  intro fuel res hres
  obtain ⟨s, hrun, hress, _⟩ := gapfill_array_delta_returned H fuel _ res hres
  obtain ⟨m', _, hsm, hgo, hstop, _⟩ := gapfill_run_returned H fuel start_ts end_ts step_s
    range_s ts vs s hrun
  have hm' := rounds_eq_n_buckets H start_ts end_ts step_s range_s ts vs hstep hno m' hgo hstop
  rw [hm'] at hsm
  set m := n_buckets start_ts end_ts step_s with hm
  have hspec := n_buckets_spec start_ts end_ts step_s hstep
  rw [← hm] at hspec
  have hlength : res.length = m := by
    rw [hress, hsm]
    exact head_of_round_res_length H start_ts end_ts step_s range_s ts vs m
  have hbound : s.boundaries = (List.range m).map (boundary end_ts step_s) := by
    rw [hsm, head_of_round_boundaries]
    apply List.map_congr_left
    intro k hk
    rw [List.mem_range] at hk
    exact head_of_round_ts_upto H start_ts end_ts step_s range_s ts vs hstep hno k
      (le_of_lt hk)
  have hS : (0 : Int) < step_s * USECS_PER_SEC := by
    unfold USECS_PER_SEC
    omega
  refine ⟨s, hrun, hress, ?_, ?_, ?_, ?_, ?_, ?_⟩
  · intro k
    rw [hlength]
    exact hspec k
  · rw [hlength]
    have : {k : Nat | start_ts < boundary end_ts step_s k}
        = ((Finset.range m : Finset Nat) : Set Nat) := by
      ext k
      simp only [Set.mem_setOf_eq, Finset.coe_range, Set.mem_Iio]
      exact (hspec k).symm
    rw [this, Set.ncard_coe_Finset, Finset.card_range]
  · intro h
    rw [hlength]
    by_contra hc
    have := (hspec 0).mp (Nat.pos_of_ne_zero hc)
    simp only [boundary, Nat.cast_zero, zero_mul, sub_zero] at this
    omega
  · intro h
    rw [hlength]
    symm
    rw [Int.ceil_eq_iff]
    have hSq : (0 : ℚ) < ((step_s * USECS_PER_SEC : Int) : ℚ) := by exact_mod_cast hS
    have hpos : 0 < m := by
      apply (hspec 0).mpr
      simp only [boundary, Nat.cast_zero, zero_mul, sub_zero]
      exact h
    have h1 := (hspec (m - 1)).mp (by omega)
    have h2 : ¬ start_ts < boundary end_ts step_s m := fun hc =>
      absurd ((hspec m).mpr hc) (lt_irrefl _)
    unfold boundary at h1 h2
    have hm1 : ((m - 1 : Nat) : Int) = (m : Int) - 1 := by omega
    rw [hm1] at h1
    constructor
    · rw [lt_div_iff₀ hSq]
      have : ((m : Int) - 1) * (step_s * USECS_PER_SEC) < end_ts - start_ts := by linarith
      exact_mod_cast this
    · rw [div_le_iff₀ hSq]
      have : end_ts - start_ts ≤ (m : Int) * (step_s * USECS_PER_SEC) := by linarith
      exact_mod_cast this
  · rw [hbound, hlength]
  · rw [hbound]
    intro hc
    rw [List.mem_map] at hc
    obtain ⟨k, hk, hk2⟩ := hc
    rw [List.mem_range] at hk
    have := (hspec k).mp hk
    omega

/-- Witness of C3 (amended): worked example A, whose result has the two slots of the
boundaries `100` and `50`; no `int64` operation of this call overflows and `palloc0`
accepts its three slots. -/
theorem result_length_counts_boundaries_witness :
    (0 : Int) < 50 ∧ no_step_overflow 0 (100 * USECS_PER_SEC) 50 ∧
    slots_fit 0 (100 * USECS_PER_SEC) 50 ∧ ts_example ≠ [] ∧ vs_example ≠ [] ∧
    (host0.assert_checking = true → ts_example.length = vs_example.length) ∧
    (∀ (fuel : Nat) (res : List (Option Int)),
      gapfill_array_delta host0 fuel (call 0 (100 * USECS_PER_SEC) 50 60 ts_example vs_example)
        = .returned res →
      ∃ s : Cursor Int,
        gapfill_run host0 fuel (call 0 (100 * USECS_PER_SEC) 50 60 ts_example vs_example)
          = .returned s ∧
        res = s.res ∧
        (∀ k : Nat, k < res.length ↔ (0 : Int) < boundary (100 * USECS_PER_SEC) 50 k) ∧
        Set.ncard {k : Nat | (0 : Int) < boundary (100 * USECS_PER_SEC) 50 k} = res.length ∧
        ((100 * USECS_PER_SEC : Int) ≤ 0 → res.length = 0) ∧
        ((0 : Int) < 100 * USECS_PER_SEC → (res.length : Int)
          = ⌈((100 * USECS_PER_SEC - 0 : Int) : ℚ) / ((50 * USECS_PER_SEC : Int) : ℚ)⌉) ∧
        s.boundaries = (List.range res.length).map (boundary (100 * USECS_PER_SEC) 50) ∧
        (0 : Int) ∉ s.boundaries) ∧
    (slots_fit 0 (100 * USECS_PER_SEC) 50 → ts_example ≠ [] → vs_example ≠ [] →
      (host0.assert_checking = true → ts_example.length = vs_example.length) →
      ∃ N : Nat, ∀ fuel : Nat, N ≤ fuel → ∃ res : List (Option Int),
        gapfill_array_delta host0 fuel
            (call 0 (100 * USECS_PER_SEC) 50 60 ts_example vs_example)
          = .returned res) :=
  ⟨by decide, by decide, by decide, by decide, by decide, fun _ => by decide,
    result_length_counts_boundaries host0 0 (100 * USECS_PER_SEC) 50 60 ts_example
      vs_example (by decide) (by decide)⟩

/-- C5. Worked example A: timestamps `[100, 90, 80, 50, 40]` (seconds, stored as
microseconds), values `[10, 9, 8, 5, 4]`, `start = 0, end = 100, step = 50, range = 60`.
The call returns exactly the two present values `[5, 1]`, on every host and with any fuel
of two rounds or more; for an arbitrary value type the two slots are `v0 - v3` and
`v3 - v4`. -/
theorem worked_example_A :
    (∀ (H : Host Int) (fuel : Nat),
      gapfill_array_delta H (fuel + 2) exampleA = .returned [some 5, some 1]) ∧
    (∀ (V : Type) [Sub V] (H : Host V) (v0 v1 v2 v3 v4 : V) (fuel : Nat),
      gapfill_array_delta H (fuel + 2)
        (call 0 (100 * USECS_PER_SEC) 50 60 ts_example [v0, v1, v2, v3, v4])
        = .returned [some (v0 - v3), some (v3 - v4)]) := by
  constructor
  · intro H fuel
    unfold exampleA
    rw [gapfill_array_delta_returns H (fuel + 2) 0 (100 * USECS_PER_SEC) 50 60 ts_example
      vs_example (by decide) (by decide) (by decide) (fun _ => by decide) (by decide)
      (by decide) (by
        have : n_buckets 0 (100 * USECS_PER_SEC) 50 = 2 := by decide
        omega)]
    rfl
  · intro V _ H v0 v1 v2 v3 v4 fuel
    rw [gapfill_array_delta_returns H (fuel + 2) 0 (100 * USECS_PER_SEC) 50 60 ts_example
      [v0, v1, v2, v3, v4] (by decide) (by decide) (by decide) (fun _ => rfl) (by decide)
      (List.cons_ne_nil _ _) (by
        have : n_buckets 0 (100 * USECS_PER_SEC) 50 = 2 := by decide
        omega)]
    rfl

/-- C6. Worked example B: the samples of example A with `start = 0, end = 100, step = 50,
range = 10`.  The result has two slots and the first one (boundary `100`) is absent; of
the five samples only the one at index `0` lies in the window `(90, 100]`. -/
theorem worked_example_B :
    (∀ (H : Host Int) (fuel : Nat),
      gapfill_array_delta H (fuel + 2) exampleB = .returned [none, none]) ∧
    window_count 10 (100 * USECS_PER_SEC) ts_example = 1 ∧
    (∀ i : Nat, i < ts_example.length →
      (in_window 10 (100 * USECS_PER_SEC) (ts_example.getD i 0) = true ↔ i = 0)) := by
  refine ⟨?_, by decide, by decide⟩
  intro H fuel
  unfold exampleB
  rw [gapfill_array_delta_returns H (fuel + 2) 0 (100 * USECS_PER_SEC) 50 10 ts_example
    vs_example (by decide) (by decide) (by decide) (fun _ => by decide) (by decide)
    (by decide) (by
      have : n_buckets 0 (100 * USECS_PER_SEC) 50 = 2 := by decide
      omega)]
  rfl

/-- C7 (the code departs from the claim). A well-formed call: one sample `(50, 1)`,
`start = 0, end = 100, step = 50, range = 10`.  In the round of the boundary `100` both
cursors stay at `0`, and the test under `need two elements` reads
`t_datums[range_start_idx - 1] = t_datums[-1]`, outside `[0, n)` with `n = 1`.  On every
host the call returns `[null, null]` after reading the indices `0, 0, -1, 0, 0, 0` of
`t_datums`. -/
theorem stale_sample_reads_before_t_datums :
    (0 : Int) < exampleStale.step_s ∧ (0 : Int) < exampleStale.range_s ∧
    exampleStale.t_array.elems.length = 1 ∧ exampleStale.v_array.elems.length = 1 ∧
    ∀ (H : Host Int) (fuel : Nat), ∃ s : Cursor Int,
      gapfill_run H (fuel + 2) exampleStale = .returned s ∧
      s.t_reads = [0, 0, -1, 0, 0, 0] ∧
      ¬ (∀ i ∈ s.t_reads, 0 ≤ i ∧ i < 1) ∧
      s.res = [none, none] := by
  refine ⟨by decide, by decide, by decide, by decide, fun H fuel => ?_⟩
  have hn : n_buckets 0 (100 * USECS_PER_SEC) 50 = 2 := by decide
  have hrun := gapfill_run_returns H (fuel + 2) 0 (100 * USECS_PER_SEC) 50 10 (secs [50])
    [(1 : Int)] (by decide) (by decide) (by decide) (fun _ => rfl) (by decide) (by decide)
    (by omega)
  rw [hn] at hrun
  have hreads : (head_of_round H 0 (100 * USECS_PER_SEC) 50 10 (secs [50]) [(1 : Int)]
      2).t_reads = [0, 0, -1, 0, 0, 0] := rfl
  refine ⟨_, hrun, hreads, ?_, ?_⟩
  · rw [hreads]
    intro h
    have := h (-1) (by decide)
    omega
  · rw [head_of_round_res]
    have h0 : slot_of_round H 0 (100 * USECS_PER_SEC) 50 10 (secs [50]) [(1 : Int)] 0
        = none :=
      slot_of_lt_two _ _ (by
        have h1 : range_start_idx (call_frame H 0 50 10 (secs [50]) [(1 : Int)])
          (head_of_round H 0 (100 * USECS_PER_SEC) 50 10 (secs [50]) [(1 : Int)] 0) = 0 :=
          rfl
        have h2 : bucket_end_idx (call_frame H 0 50 10 (secs [50]) [(1 : Int)])
          (head_of_round H 0 (100 * USECS_PER_SEC) 50 10 (secs [50]) [(1 : Int)] 0) = 0 :=
          rfl
        omega)
    have h1 : slot_of_round H 0 (100 * USECS_PER_SEC) 50 10 (secs [50]) [(1 : Int)] 1
        = none :=
      slot_of_lt_two _ _ (by
        have h1 : range_start_idx (call_frame H 0 50 10 (secs [50]) [(1 : Int)])
          (head_of_round H 0 (100 * USECS_PER_SEC) 50 10 (secs [50]) [(1 : Int)] 1) = 1 :=
          rfl
        have h2 : bucket_end_idx (call_frame H 0 50 10 (secs [50]) [(1 : Int)])
          (head_of_round H 0 (100 * USECS_PER_SEC) 50 10 (secs [50]) [(1 : Int)] 1) = 0 :=
          rfl
        omega)
    simp only [List.range_succ, List.range_zero, List.nil_append, List.map_cons,
      List.map_nil, List.cons_append, h0, h1]

/-- C8, counterexample. Worked example A called with `range = 0`: no error is raised, the
call returns the array `[null, null]` (and while the fuel does not suffice the loop is
still running: no fuel makes the call end in an error). -/
theorem zero_range_returns_an_array :
    exampleZeroRange.range_s ≤ 0 ∧
    (∀ fuel : Nat, gapfill_array_delta host0 (fuel + 2) exampleZeroRange
      = .returned [none, none]) ∧
    (∀ (fuel : Nat) (msg : String),
      gapfill_array_delta host0 fuel exampleZeroRange ≠ .error msg) := by
  have h : ∀ fuel : Nat, gapfill_array_delta host0 (fuel + 2) exampleZeroRange
      = .returned [none, none] := by
    intro fuel
    unfold exampleZeroRange
    rw [gapfill_array_delta_returns host0 (fuel + 2) 0 (100 * USECS_PER_SEC) 50 0
      ts_example vs_example (by decide) (by decide) (by decide) (fun _ => by decide)
      (by decide) (by decide) (by
        have : n_buckets 0 (100 * USECS_PER_SEC) 50 = 2 := by decide
        omega)]
    rfl
  refine ⟨by decide, h, ?_⟩
  intro fuel msg
  match fuel with
  | 0 =>
    have h0 : gapfill_array_delta host0 0 exampleZeroRange = .unfinished := by decide
    rw [h0]
    exact fun hc => Outcome.noConfusion hc
  | 1 =>
    have h1 : gapfill_array_delta host0 1 exampleZeroRange = .unfinished := by decide
    rw [h1]
    exact fun hc => Outcome.noConfusion hc
  | fuel + 2 =>
    rw [h fuel]
    exact fun hc => Outcome.noConfusion hc

/-- C8, amended. The code does not validate `range`: for every call with step > 0 and
range ≤ 0 (arrays of equal length that are not empty, without absent entries), when no
`int64` operation overflows and `palloc0` accepts the number of slots, no error is
raised; the call returns an array with one slot per boundary `end - k * STEP > start`, and
every slot is absent. -/
theorem nonpositive_range_returns_absent_slots {V : Type} [Sub V] (H : Host V)
    (start_ts end_ts step_s range_s : Int) (ts : List Int) (vs : List V)
    (hstep : 0 < step_s) (hrange : range_s ≤ 0) (hlen : ts.length = vs.length)
    (hno : no_step_overflow start_ts end_ts step_s)
    (hnr : no_range_overflow start_ts end_ts step_s range_s)
    (hfit : slots_fit start_ts end_ts step_s) (hts : ts ≠ []) :
    ∃ N : Nat, ∀ fuel : Nat, N ≤ fuel → ∃ res : List (Option V),
      gapfill_array_delta H fuel (call start_ts end_ts step_s range_s ts vs)
        = .returned res ∧
      (∀ k : Nat, k < res.length ↔ start_ts < boundary end_ts step_s k) ∧
      (∀ x ∈ res, x = none) := by
  refine ⟨n_buckets start_ts end_ts step_s, fun fuel hfuel => ?_⟩
  have hvs : vs ≠ [] := by
    intro h0
    apply hts
    apply List.length_eq_zero.mp
    rw [hlen, h0]
    rfl
  have hrun := gapfill_array_delta_returns H fuel start_ts end_ts step_s range_s ts vs hstep
    hno hfit (fun _ => hlen) hts hvs hfuel
  refine ⟨_, hrun, ?_, ?_⟩
  · intro k
    rw [List.length_map, List.length_range]
    exact n_buckets_spec start_ts end_ts step_s hstep k
  · intro x hx
    rw [List.mem_map] at hx
    obtain ⟨k, hk, rfl⟩ := hx
    rw [List.mem_range] at hk
    exact (slot_of_round_of_range_nonpos H start_ts end_ts step_s range_s ts vs hstep hrange
      hno hnr k hk).1

/-- Witness of C8 (amended): worked example A called with `range = 0`. -/
theorem nonpositive_range_returns_absent_slots_witness :
    (0 : Int) < 50 ∧ (0 : Int) ≤ 0 ∧ ts_example.length = vs_example.length ∧
    no_step_overflow 0 (100 * USECS_PER_SEC) 50 ∧
    no_range_overflow 0 (100 * USECS_PER_SEC) 50 0 ∧
    slots_fit 0 (100 * USECS_PER_SEC) 50 ∧ ts_example ≠ [] ∧
    ∃ N : Nat, ∀ fuel : Nat, N ≤ fuel → ∃ res : List (Option Int),
      gapfill_array_delta host0 fuel (call 0 (100 * USECS_PER_SEC) 50 0 ts_example vs_example)
        = .returned res ∧
      (∀ k : Nat, k < res.length ↔ (0 : Int) < boundary (100 * USECS_PER_SEC) 50 k) ∧
      (∀ x ∈ res, x = none) :=
  ⟨by decide, by decide, by decide, by decide, by decide, by decide, by decide,
    nonpositive_range_returns_absent_slots host0 0 (100 * USECS_PER_SEC) 50 0 ts_example
      vs_example (by decide) (by decide) (by decide) (by decide) (by decide) (by decide)
      (by decide)⟩

/-- C9 (the code departs from the claim). Three timestamps `[100, 90, 80]` and a single
value `[10]`, `start = 0, end = 100, step = 50, range = 60`.  In a build without
assertion checking nothing compares the two lengths: the loop runs, reads `v_elem[2]`
past the end of the values and returns `[10 - v_elem[2], null]`.  In a build with
assertion checking `Assert(t_length == v_length)` aborts the process. -/
theorem unequal_lengths_are_not_rejected :
    exampleShortValues.t_array.elems.length = 3 ∧
    exampleShortValues.v_array.elems.length = 1 ∧
    (∀ (t_outside v_outside : Int → Int) (fuel : Nat), ∃ s : Cursor Int,
      gapfill_run { assert_checking := false, t_outside := t_outside, v_outside := v_outside }
        (fuel + 2) exampleShortValues = .returned s ∧
      s.res = [some (10 - v_outside 2), none] ∧ s.v_reads = [0, 2]) ∧
    (∀ (t_outside v_outside : Int → Int) (fuel : Nat),
      gapfill_run { assert_checking := true, t_outside := t_outside, v_outside := v_outside }
        fuel exampleShortValues = .trap) := by
  refine ⟨by decide, by decide, ?_, ?_⟩
  · intro t_outside v_outside fuel
    have hrun := gapfill_run_returns
      { assert_checking := false, t_outside := t_outside, v_outside := v_outside }
      (fuel + 2) 0 (100 * USECS_PER_SEC) 50 60 (secs [100, 90, 80]) [(10 : Int)]
      (by decide) (by decide) (by decide) (fun h => Bool.noConfusion h) (by decide)
      (by decide) (by
        have : n_buckets 0 (100 * USECS_PER_SEC) 50 = 2 := by decide
        omega)
    exact ⟨_, hrun, rfl, rfl⟩
  · intro t_outside v_outside fuel
    rfl

/-- C10, counterexample. Two calls on worked example A with an absent entry among the
values, which `check_float8_array` would reject.  With `step = 0` the declaration of
`num_elements` divides by zero before either check is called, so the call ends there.
With `start = 200, end = 0, step = 50` it is `num_elements = -3`, and `palloc0`, also
called before the checks, raises `invalid memory alloc request size`.  Neither call ends
in the error of a check. -/
theorem absent_entry_with_zero_step_divides_first :
    (none ∈ exampleNullZeroStep.v_array.elems ∧
      exampleNullZeroStep.v_array.WellFormed ∧ exampleNullZeroStep.t_array.WellFormed ∧
      (∀ caller : String, check_float8_array exampleNullZeroStep.v_array caller
        = .error (caller ++ ": expected float8 array")) ∧
      (∀ (H : Host Int) (fuel : Nat),
        gapfill_array_delta H fuel exampleNullZeroStep = .sigfpe ∧
        gapfill_array_delta H fuel exampleNullZeroStep
          ≠ .error "gapfill array delta: expected float8 array" ∧
        gapfill_array_delta H fuel exampleNullZeroStep
          ≠ .error "gapfill array delta: expected timestamptz array")) ∧
    (none ∈ exampleNullFarStart.v_array.elems ∧
      exampleNullFarStart.v_array.WellFormed ∧ exampleNullFarStart.t_array.WellFormed ∧
      (0 : Int) < exampleNullFarStart.step_s ∧ num_elements exampleNullFarStart = -3 ∧
      (∀ caller : String, check_float8_array exampleNullFarStart.v_array caller
        = .error (caller ++ ": expected float8 array")) ∧
      (∀ (H : Host Int) (fuel : Nat),
        gapfill_array_delta H fuel exampleNullFarStart
          = .error "invalid memory alloc request size 18446744073709551592" ∧
        gapfill_array_delta H fuel exampleNullFarStart
          ≠ .error "gapfill array delta: expected float8 array" ∧
        gapfill_array_delta H fuel exampleNullFarStart
          ≠ .error "gapfill array delta: expected timestamptz array")) := by
  refine ⟨⟨by decide, ?_, ?_, fun caller => rfl, fun H fuel => ?_⟩,
    ⟨by decide, ?_, ?_, by decide, by decide, fun caller => rfl, fun H fuel => ?_⟩⟩
  · unfold ArrayType.WellFormed
    decide
  · unfold ArrayType.WellFormed
    decide
  · have h : gapfill_array_delta H fuel exampleNullZeroStep = .sigfpe := rfl
    rw [h]
    exact ⟨rfl, fun hc => Outcome.noConfusion hc, fun hc => Outcome.noConfusion hc⟩
  · unfold ArrayType.WellFormed
    decide
  · unfold ArrayType.WellFormed
    decide
  · have h : gapfill_array_delta H fuel exampleNullFarStart
        = .error "invalid memory alloc request size 18446744073709551592" := rfl
    rw [h]
    exact ⟨rfl, by decide, by decide⟩

/-- C10, amended. For every call in which the `int64` product `step_s * USECS_PER_SEC` is
not zero and either array has an absent entry, or is not one-dimensional, or has not the
expected element type: the check of that array raises its error, and the call fails
before any bucket is processed (its outcome is the same with fuel `0`).  When
`num_elements` is negative or above `MaxAllocSize / sizeof(Datum)` it fails in `palloc0`,
with the error `invalid memory alloc request size`; otherwise it fails in the error
`expected float8 array` or `expected timestamptz array` or, only in a build with assertion
checking, in a failed `Assert`. -/
theorem malformed_array_is_rejected {V : Type} [Sub V] (H : Host V) (fuel : Nat)
    (a : Args V) (hstep : wrap64 (a.step_s * USECS_PER_SEC) ≠ 0)
    (hwv : a.v_array.WellFormed) (hwt : a.t_array.WellFormed)
    (hbad : a.v_array.malformed_for FLOAT8OID ∨ a.t_array.malformed_for TIMESTAMPTZOID) :
    (a.v_array.malformed_for FLOAT8OID → ∀ caller : String,
      check_float8_array a.v_array caller = .error (caller ++ ": expected float8 array")) ∧
    (a.t_array.malformed_for TIMESTAMPTZOID → ∀ caller : String,
      check_timestamptz_array a.t_array caller
        = .error (caller ++ ": expected timestamptz array")) ∧
    gapfill_array_delta H fuel a = gapfill_array_delta H 0 a ∧
    ((¬ (0 ≤ num_elements a ∧ 8 * num_elements a ≤ 1073741823) ∧
        gapfill_array_delta H fuel a = .error ("invalid memory alloc request size "
          ++ toString (alloc_request SIZEOF_DATUM (num_elements a)))) ∨
     ((0 ≤ num_elements a ∧ 8 * num_elements a ≤ 1073741823) ∧
      (gapfill_array_delta H fuel a = .error "gapfill array delta: expected float8 array" ∨
       gapfill_array_delta H fuel a
         = .error "gapfill array delta: expected timestamptz array" ∨
       (H.assert_checking = true ∧ gapfill_array_delta H fuel a = .trap)))) := by
  obtain ⟨o, ho, hcases⟩ := gapfill_run_malformed H a hstep hwv hwt hbad
  refine ⟨fun h caller => check_float8_array_malformed _ caller hwv h,
    fun h caller => check_timestamptz_array_malformed _ caller hwt h, ?_, ?_⟩
  · unfold gapfill_array_delta
    rw [ho fuel, ho 0]
  · unfold gapfill_array_delta
    rw [ho fuel]
    rcases hcases with ⟨hn, h⟩ | ⟨hn, h | h | ⟨h1, h⟩⟩
    · exact Or.inl ⟨hn, by rw [h]; rfl⟩
    · exact Or.inr ⟨hn, Or.inl (by rw [h]; rfl)⟩
    · exact Or.inr ⟨hn, Or.inr (Or.inl (by rw [h]; rfl))⟩
    · exact Or.inr ⟨hn, Or.inr (Or.inr ⟨h1, by rw [h]; rfl⟩)⟩

/-- Witness of C10 (amended): worked example A with an absent entry among the values,
which fails in the error of `check_float8_array`. -/
theorem malformed_array_is_rejected_witness :
    wrap64 (exampleNull.step_s * USECS_PER_SEC) ≠ 0 ∧
    exampleNull.v_array.WellFormed ∧ exampleNull.t_array.WellFormed ∧
    (exampleNull.v_array.malformed_for FLOAT8OID ∨
      exampleNull.t_array.malformed_for TIMESTAMPTZOID) ∧
    (exampleNull.v_array.malformed_for FLOAT8OID → ∀ caller : String,
      check_float8_array exampleNull.v_array caller
        = .error (caller ++ ": expected float8 array")) ∧
    (exampleNull.t_array.malformed_for TIMESTAMPTZOID → ∀ caller : String,
      check_timestamptz_array exampleNull.t_array caller
        = .error (caller ++ ": expected timestamptz array")) ∧
    gapfill_array_delta host0 5 exampleNull = gapfill_array_delta host0 0 exampleNull ∧
    ((¬ (0 ≤ num_elements exampleNull ∧ 8 * num_elements exampleNull ≤ 1073741823) ∧
        gapfill_array_delta host0 5 exampleNull
          = .error ("invalid memory alloc request size "
            ++ toString (alloc_request SIZEOF_DATUM (num_elements exampleNull)))) ∨
     ((0 ≤ num_elements exampleNull ∧ 8 * num_elements exampleNull ≤ 1073741823) ∧
      (gapfill_array_delta host0 5 exampleNull
          = .error "gapfill array delta: expected float8 array" ∨
       gapfill_array_delta host0 5 exampleNull
          = .error "gapfill array delta: expected timestamptz array" ∨
       (host0.assert_checking = true ∧
        gapfill_array_delta host0 5 exampleNull = .trap)))) :=
  ⟨by decide, by unfold ArrayType.WellFormed; decide, by unfold ArrayType.WellFormed; decide,
    Or.inl (Or.inl (by decide)),
    malformed_array_is_rejected host0 5 exampleNull (by decide)
      (by unfold ArrayType.WellFormed; decide) (by unfold ArrayType.WellFormed; decide)
      (Or.inl (Or.inl (by decide)))⟩

/-- C11, counterexample. Worked example A called with `range_s = 18446744073710` (an
`int64` value), step > 0, range > 0, in the round of its first boundary `B = 100`: no
timestamp is at or before `B - RANGE`, so the claimed value of `range_start_idx` is
`n = 5`; but the `int64` product `range_s * USECS_PER_SEC` wraps around to `448384`, and
the cursor stops at `1`, on every host. -/
theorem wide_range_stops_the_window_cursor :
    (0 : Int) < exampleWideRange.step_s ∧ (0 : Int) < exampleWideRange.range_s ∧
    int64 exampleWideRange.range_s ∧
    first_at_or_before ts_example
      (boundary (100 * USECS_PER_SEC) 50 0 - wide_s * USECS_PER_SEC) = 5 ∧
    ts_example.length = 5 ∧
    window_start_of_round host0 0 (100 * USECS_PER_SEC) 50 wide_s ts_example vs_example 0
      = 100 * USECS_PER_SEC - 448384 ∧
    ∀ H : Host Int,
      start_idx_of_round H 0 (100 * USECS_PER_SEC) 50 wide_s ts_example vs_example 0 = 1 :=
  ⟨by decide, by decide, by decide, by decide, by decide, by decide, fun _ => rfl⟩

/-- C11, amended. For step > 0, range > 0 and an `int64` timestamp `end` (timestamps
sorted non-increasing or not), although the cursors are never reset between buckets: in
the round of a boundary `B = end - k * STEP` that is an `int64` value, the boundary the
loop is at is `B`, and after the two cursor loops `current_bucket_end_idx` is the smallest
index `i` with `timestamps[i] ≤ B`, or `n` if there is none; when `B - RANGE` is an
`int64` value too (no overflow in the start of the window), `range_start_idx` is the
smallest index `i` with `timestamps[i] ≤ B - RANGE`, or `n` if there is none.  These are
the cursors the loop carries into the next round.  A call that returns returns the locals
at the head of a round, and the call does return when no `int64` operation on the way to
the boundaries overflows, `palloc0` accepts the number of slots and the arrays are not
empty. -/
theorem cursors_are_first_indices {V : Type} [Sub V] (H : Host V)
    (start_ts end_ts step_s range_s : Int) (ts : List Int) (vs : List V)
    (hstep : 0 < step_s) (hrange : 0 < range_s)
    (hlen : H.assert_checking = true → ts.length = vs.length) (he : int64 end_ts) :
    (no_step_overflow start_ts end_ts step_s → slots_fit start_ts end_ts step_s →
      ts ≠ [] → vs ≠ [] → ∃ N : Nat, ∀ fuel : Nat, N ≤ fuel →
      gapfill_run H fuel (call start_ts end_ts step_s range_s ts vs) =
        .returned (head_of_round H start_ts end_ts step_s range_s ts vs
          (n_buckets start_ts end_ts step_s))) ∧
    (∀ (fuel : Nat) (s : Cursor V),
      gapfill_run H fuel (call start_ts end_ts step_s range_s ts vs) = .returned s →
      ∃ m : Nat, s = head_of_round H start_ts end_ts step_s range_s ts vs m) ∧
    ∀ k : Nat, int64 (boundary end_ts step_s k) →
      (head_of_round H start_ts end_ts step_s range_s ts vs k).current_bucket_end_ts
        = boundary end_ts step_s k ∧
      (head_of_round H start_ts end_ts step_s range_s ts vs (k + 1)).current_bucket_end_idx
        = end_idx_of_round H start_ts end_ts step_s range_s ts vs k ∧
      (head_of_round H start_ts end_ts step_s range_s ts vs (k + 1)).range_start_idx
        = start_idx_of_round H start_ts end_ts step_s range_s ts vs k ∧
      end_idx_of_round H start_ts end_ts step_s range_s ts vs k
        = (first_at_or_before ts (boundary end_ts step_s k) : Int) ∧
      (int64 (boundary end_ts step_s k - range_s * USECS_PER_SEC) →
        start_idx_of_round H start_ts end_ts step_s range_s ts vs k
          = (first_at_or_before ts
              (boundary end_ts step_s k - range_s * USECS_PER_SEC) : Int)) := by
  refine ⟨fun hno hfit hts hvs => ⟨n_buckets start_ts end_ts step_s, fun fuel hfuel =>
      gapfill_run_returns H fuel start_ts end_ts step_s range_s ts vs hstep hno hfit hlen
        hts hvs hfuel⟩,
    fun fuel s hs => ?_, ?_⟩
  · obtain ⟨m, _, hm, _⟩ := gapfill_run_returned H fuel start_ts end_ts step_s range_s ts vs
      s hs
    exact ⟨m, hm⟩
  intro k hk64
  have hb := head_of_round_in_bounds H start_ts end_ts step_s range_s ts vs k
  have hp1 := head_of_round_passed_end H start_ts end_ts step_s range_s ts vs (le_of_lt hstep)
    he k hk64
  have hB := head_of_round_ts H start_ts end_ts step_s range_s ts vs k he hk64
  set F := call_frame H start_ts step_s range_s ts vs with hF
  set s := head_of_round H start_ts end_ts step_s range_s ts vs k with hs
  have h1 := bucket_end_idx_ge F s
  have h2 := range_start_idx_ge F s
  have h3 := range_start_idx_le F s hb
  have hce0 : 0 ≤ bucket_end_idx F s := le_trans hb.1 h1
  have hn : F.t_length = (ts.length : Int) := rfl
  have hti : ∀ (n : Nat), n < ts.length → F.t (n : Int) = ts.getD n 0 :=
    fun n hn => deref_getD ts _ n 0 hn
  refine ⟨hB, ?_, ?_, ?_, ?_⟩
  · rw [head_of_round_succ]
    rfl
  · rw [head_of_round_succ]
    rfl
  · obtain ⟨c, hc⟩ := Int.eq_ofNat_of_zero_le hce0
    have : first_at_or_before ts (boundary end_ts step_s k) = c := by
      apply first_at_or_before_eq
      · omega
      · intro i hi
        have := bucket_end_idx_passed_of F s hp1 (i : Int) (by omega) (by omega)
        rwa [hB, hti i (by omega)] at this
      · intro hlt
        have := bucket_end_idx_stop F s (by omega)
        rwa [hB, hc, hti c hlt] at this
    unfold end_idx_of_round
    rw [this, ← hs, ← hF, hc]
  · intro hw
    have hp := head_of_round_passed H start_ts end_ts step_s range_s ts vs (le_of_lt hstep)
      (le_of_lt hrange) he k hk64 hw
    have hWS : range_start_ts F s = boundary end_ts step_s k - range_s * USECS_PER_SEC :=
      window_start_of_round_eq H start_ts end_ts step_s range_s ts vs k hB hw
    have hR : range_start_ts F s ≤ s.current_bucket_end_ts := by
      rw [hWS, hB]
      unfold USECS_PER_SEC
      omega
    obtain ⟨c, hc⟩ := Int.eq_ofNat_of_zero_le (le_trans hce0 h2.1)
    have : first_at_or_before ts (boundary end_ts step_s k - range_s * USECS_PER_SEC) = c := by
      apply first_at_or_before_eq
      · omega
      · intro i hi
        have := range_start_idx_passed F s hp hR (i : Int) (by omega) (by omega)
        rwa [hWS, hti i (by omega)] at this
      · intro hlt
        have := range_start_idx_stop F s (by omega)
        rwa [hWS, hc, hti c hlt] at this
    unfold start_idx_of_round
    rw [this, ← hs, ← hF, hc]

/-- Witness of C11 (amended): worked example A. -/
theorem cursors_are_first_indices_witness :
    no_step_overflow 0 (100 * USECS_PER_SEC) 50 ∧ slots_fit 0 (100 * USECS_PER_SEC) 50 ∧
    ts_example ≠ [] ∧ vs_example ≠ [] ∧
    (0 : Int) < 50 ∧ (0 : Int) < 60 ∧
    (host0.assert_checking = true → ts_example.length = vs_example.length) ∧
    int64 (100 * USECS_PER_SEC) ∧
    (no_step_overflow 0 (100 * USECS_PER_SEC) 50 → slots_fit 0 (100 * USECS_PER_SEC) 50 →
      ts_example ≠ [] → vs_example ≠ [] → ∃ N : Nat, ∀ fuel : Nat, N ≤ fuel →
      gapfill_run host0 fuel (call 0 (100 * USECS_PER_SEC) 50 60 ts_example vs_example) =
        .returned (head_of_round host0 0 (100 * USECS_PER_SEC) 50 60 ts_example vs_example
          (n_buckets 0 (100 * USECS_PER_SEC) 50))) ∧
    (∀ (fuel : Nat) (s : Cursor Int),
      gapfill_run host0 fuel (call 0 (100 * USECS_PER_SEC) 50 60 ts_example vs_example)
        = .returned s →
      ∃ m : Nat, s = head_of_round host0 0 (100 * USECS_PER_SEC) 50 60 ts_example
        vs_example m) ∧
    ∀ k : Nat, int64 (boundary (100 * USECS_PER_SEC) 50 k) →
      (head_of_round host0 0 (100 * USECS_PER_SEC) 50 60 ts_example vs_example
          k).current_bucket_end_ts
        = boundary (100 * USECS_PER_SEC) 50 k ∧
      (head_of_round host0 0 (100 * USECS_PER_SEC) 50 60 ts_example vs_example
          (k + 1)).current_bucket_end_idx
        = end_idx_of_round host0 0 (100 * USECS_PER_SEC) 50 60 ts_example vs_example k ∧
      (head_of_round host0 0 (100 * USECS_PER_SEC) 50 60 ts_example vs_example
          (k + 1)).range_start_idx
        = start_idx_of_round host0 0 (100 * USECS_PER_SEC) 50 60 ts_example vs_example k ∧
      end_idx_of_round host0 0 (100 * USECS_PER_SEC) 50 60 ts_example vs_example k
        = (first_at_or_before ts_example (boundary (100 * USECS_PER_SEC) 50 k) : Int) ∧
      (int64 (boundary (100 * USECS_PER_SEC) 50 k - 60 * USECS_PER_SEC) →
        start_idx_of_round host0 0 (100 * USECS_PER_SEC) 50 60 ts_example vs_example k
          = (first_at_or_before ts_example
              (boundary (100 * USECS_PER_SEC) 50 k - 60 * USECS_PER_SEC) : Int)) :=
  ⟨by decide, by decide, by decide, by decide,
    by decide, by decide, fun _ => by decide, by decide,
    cursors_are_first_indices host0 0 (100 * USECS_PER_SEC) 50 60 ts_example vs_example
      (by decide) (by decide) (fun _ => by decide) (by decide)⟩

/-- C12. For step > 0 (timestamps sorted or not): at the head of every round
`0 ≤ current_bucket_end_idx ≤ n` and `0 ≤ range_start_idx ≤ n`; from one program point to
the next neither cursor decreases (head of the round, after the first cursor loop, after
the `if`, after the second cursor loop, head of the next round, and every step inside a
cursor loop); and after each round `current_bucket_end_idx ≤ range_start_idx`.  A call
that returns returns the locals at the head of a round, and the call does return, the
locals of the last round, when no `int64` operation on the way to the boundaries
overflows, `palloc0` accepts the number of slots and the arrays are not empty. -/
theorem cursors_bounded_and_monotone {V : Type} [Sub V] (H : Host V)
    (start_ts end_ts step_s range_s : Int) (ts : List Int) (vs : List V)
    (hstep : 0 < step_s) (hlen : H.assert_checking = true → ts.length = vs.length) :
    (no_step_overflow start_ts end_ts step_s → slots_fit start_ts end_ts step_s →
      ts ≠ [] → vs ≠ [] → ∃ N : Nat, ∀ fuel : Nat, N ≤ fuel →
      gapfill_run H fuel (call start_ts end_ts step_s range_s ts vs) =
        .returned (head_of_round H start_ts end_ts step_s range_s ts vs
          (n_buckets start_ts end_ts step_s))) ∧
    (∀ (fuel : Nat) (s : Cursor V),
      gapfill_run H fuel (call start_ts end_ts step_s range_s ts vs) = .returned s →
      ∃ m : Nat, s = head_of_round H start_ts end_ts step_s range_s ts vs m) ∧
    (∀ k : Nat,
      0 ≤ (head_of_round H start_ts end_ts step_s range_s ts vs k).current_bucket_end_idx ∧
      (head_of_round H start_ts end_ts step_s range_s ts vs k).current_bucket_end_idx
        ≤ (ts.length : Int) ∧
      0 ≤ (head_of_round H start_ts end_ts step_s range_s ts vs k).range_start_idx ∧
      (head_of_round H start_ts end_ts step_s range_s ts vs k).range_start_idx
        ≤ (ts.length : Int) ∧
      (head_of_round H start_ts end_ts step_s range_s ts vs k).current_bucket_end_idx
        ≤ (head_of_round H start_ts end_ts step_s range_s ts vs k).range_start_idx ∧
      (head_of_round H start_ts end_ts step_s range_s ts vs k).current_bucket_end_idx
        ≤ end_idx_of_round H start_ts end_ts step_s range_s ts vs k ∧
      end_idx_of_round H start_ts end_ts step_s range_s ts vs k ≤ (ts.length : Int) ∧
      (head_of_round H start_ts end_ts step_s range_s ts vs k).range_start_idx
        ≤ range_start_from (call_frame H start_ts step_s range_s ts vs)
            (head_of_round H start_ts end_ts step_s range_s ts vs k) ∧
      range_start_from (call_frame H start_ts step_s range_s ts vs)
          (head_of_round H start_ts end_ts step_s range_s ts vs k)
        ≤ start_idx_of_round H start_ts end_ts step_s range_s ts vs k ∧
      start_idx_of_round H start_ts end_ts step_s range_s ts vs k ≤ (ts.length : Int) ∧
      end_idx_of_round H start_ts end_ts step_s range_s ts vs k
        ≤ start_idx_of_round H start_ts end_ts step_s range_s ts vs k ∧
      (head_of_round H start_ts end_ts step_s range_s ts vs (k + 1)).current_bucket_end_idx
        = end_idx_of_round H start_ts end_ts step_s range_s ts vs k ∧
      (head_of_round H start_ts end_ts step_s range_s ts vs (k + 1)).range_start_idx
        = start_idx_of_round H start_ts end_ts step_s range_s ts vs k) ∧
    (∀ (bound idx : Int) (j : Nat),
      advance (call_frame H start_ts step_s range_s ts vs) bound j idx
        ≤ advance (call_frame H start_ts step_s range_s ts vs) bound (j + 1) idx) := by
  refine ⟨fun hno hfit hts hvs => ⟨n_buckets start_ts end_ts step_s, fun fuel hfuel =>
      gapfill_run_returns H fuel start_ts end_ts step_s range_s ts vs hstep hno hfit hlen
        hts hvs hfuel⟩,
    fun fuel s hs => ?_, ?_, fun bound idx j => advance_mono_fuel _ bound j idx⟩
  · obtain ⟨m, _, hm, _⟩ := gapfill_run_returned H fuel start_ts end_ts step_s range_s ts vs
      s hs
    exact ⟨m, hm⟩
  intro k
  have hb := head_of_round_in_bounds H start_ts end_ts step_s range_s ts vs k
  set F := call_frame H start_ts step_s range_s ts vs with hF
  set s := head_of_round H start_ts end_ts step_s range_s ts vs k with hs
  have h1 := bucket_end_idx_ge F s
  have h2 := range_start_idx_ge F s
  have h3 := range_start_idx_le F s hb
  have h4 := bucket_end_idx_le F s hb
  have h5 := range_start_from_ge F s
  have h6 : range_start_from F s ≤ range_start_idx F s := scan_ge F _ _
  have hn : F.t_length = (ts.length : Int) := rfl
  obtain ⟨hb1, hb2, hb3⟩ := hb
  have e1 : end_idx_of_round H start_ts end_ts step_s range_s ts vs k = bucket_end_idx F s :=
    rfl
  have e2 : start_idx_of_round H start_ts end_ts step_s range_s ts vs k
      = range_start_idx F s := rfl
  have e3 : (head_of_round H start_ts end_ts step_s range_s ts vs (k + 1)).current_bucket_end_idx
      = bucket_end_idx F s := by
    rw [head_of_round_succ]
    rfl
  have e4 : (head_of_round H start_ts end_ts step_s range_s ts vs (k + 1)).range_start_idx
      = range_start_idx F s := by
    rw [head_of_round_succ]
    rfl
  rw [e1, e2, e3, e4]
  refine ⟨hb1, ?_, ?_, ?_, hb2, h1, ?_, h5.2, h6, ?_, h2.1, rfl, rfl⟩ <;> omega

/-- Witness of C12: worked example A. -/
theorem cursors_bounded_and_monotone_witness :
    no_step_overflow 0 (100 * USECS_PER_SEC) 50 ∧ slots_fit 0 (100 * USECS_PER_SEC) 50 ∧
    ts_example ≠ [] ∧ vs_example ≠ [] ∧
    (0 : Int) < 50 ∧
    (host0.assert_checking = true → ts_example.length = vs_example.length) ∧
    (no_step_overflow 0 (100 * USECS_PER_SEC) 50 → slots_fit 0 (100 * USECS_PER_SEC) 50 →
      ts_example ≠ [] → vs_example ≠ [] → ∃ N : Nat, ∀ fuel : Nat, N ≤ fuel →
      gapfill_run host0 fuel (call 0 (100 * USECS_PER_SEC) 50 60 ts_example vs_example) =
        .returned (head_of_round host0 0 (100 * USECS_PER_SEC) 50 60 ts_example vs_example
          (n_buckets 0 (100 * USECS_PER_SEC) 50))) ∧
    (∀ (fuel : Nat) (s : Cursor Int),
      gapfill_run host0 fuel (call 0 (100 * USECS_PER_SEC) 50 60 ts_example vs_example)
        = .returned s →
      ∃ m : Nat, s = head_of_round host0 0 (100 * USECS_PER_SEC) 50 60 ts_example
        vs_example m) ∧
    (∀ k : Nat,
      0 ≤ (head_of_round host0 0 (100 * USECS_PER_SEC) 50 60 ts_example vs_example
        k).current_bucket_end_idx ∧
      (head_of_round host0 0 (100 * USECS_PER_SEC) 50 60 ts_example vs_example
        k).current_bucket_end_idx ≤ (ts_example.length : Int) ∧
      0 ≤ (head_of_round host0 0 (100 * USECS_PER_SEC) 50 60 ts_example vs_example
        k).range_start_idx ∧
      (head_of_round host0 0 (100 * USECS_PER_SEC) 50 60 ts_example vs_example
        k).range_start_idx ≤ (ts_example.length : Int) ∧
      (head_of_round host0 0 (100 * USECS_PER_SEC) 50 60 ts_example vs_example
          k).current_bucket_end_idx
        ≤ (head_of_round host0 0 (100 * USECS_PER_SEC) 50 60 ts_example vs_example
          k).range_start_idx ∧
      (head_of_round host0 0 (100 * USECS_PER_SEC) 50 60 ts_example vs_example
          k).current_bucket_end_idx
        ≤ end_idx_of_round host0 0 (100 * USECS_PER_SEC) 50 60 ts_example vs_example k ∧
      end_idx_of_round host0 0 (100 * USECS_PER_SEC) 50 60 ts_example vs_example k
        ≤ (ts_example.length : Int) ∧
      (head_of_round host0 0 (100 * USECS_PER_SEC) 50 60 ts_example vs_example
          k).range_start_idx
        ≤ range_start_from (call_frame host0 0 50 60 ts_example vs_example)
            (head_of_round host0 0 (100 * USECS_PER_SEC) 50 60 ts_example vs_example k) ∧
      range_start_from (call_frame host0 0 50 60 ts_example vs_example)
          (head_of_round host0 0 (100 * USECS_PER_SEC) 50 60 ts_example vs_example k)
        ≤ start_idx_of_round host0 0 (100 * USECS_PER_SEC) 50 60 ts_example vs_example k ∧
      start_idx_of_round host0 0 (100 * USECS_PER_SEC) 50 60 ts_example vs_example k
        ≤ (ts_example.length : Int) ∧
      end_idx_of_round host0 0 (100 * USECS_PER_SEC) 50 60 ts_example vs_example k
        ≤ start_idx_of_round host0 0 (100 * USECS_PER_SEC) 50 60 ts_example vs_example k ∧
      (head_of_round host0 0 (100 * USECS_PER_SEC) 50 60 ts_example vs_example
          (k + 1)).current_bucket_end_idx
        = end_idx_of_round host0 0 (100 * USECS_PER_SEC) 50 60 ts_example vs_example k ∧
      (head_of_round host0 0 (100 * USECS_PER_SEC) 50 60 ts_example vs_example
          (k + 1)).range_start_idx
        = start_idx_of_round host0 0 (100 * USECS_PER_SEC) 50 60 ts_example vs_example k) ∧
    (∀ (bound idx : Int) (j : Nat),
      advance (call_frame host0 0 50 60 ts_example vs_example) bound j idx
        ≤ advance (call_frame host0 0 50 60 ts_example vs_example) bound (j + 1) idx) :=
  ⟨by decide, by decide, by decide, by decide,
    by decide, fun _ => by decide,
    cursors_bounded_and_monotone host0 0 (100 * USECS_PER_SEC) 50 60 ts_example vs_example
      (by decide) (fun _ => by decide)⟩

/-- C14, refuted. There is no input with step > 0, range > 0 and timestamps and values
of equal length for which, in some round, `current_bucket_end_idx` has reached `n` and the
lookup `v_elem[current_bucket_end_idx]` is evaluated (the lookup sits under the test
`need two elements`); and no call returns after having read `v_elem` at index `n`. -/
theorem no_input_reads_v_elem_at_n :
    (¬ ∃ (V : Type) (_ : Sub V) (H : Host V) (start_ts end_ts step_s range_s : Int)
        (ts : List Int) (vs : List V) (k : Nat),
      0 < step_s ∧ 0 < range_s ∧ ts.length = vs.length ∧
      end_idx_of_round H start_ts end_ts step_s range_s ts vs k = (ts.length : Int) ∧
      need_two (call_frame H start_ts step_s range_s ts vs)
        (head_of_round H start_ts end_ts step_s range_s ts vs k) = true) ∧
    (¬ ∃ (V : Type) (_ : Sub V) (H : Host V) (start_ts end_ts step_s range_s : Int)
        (ts : List Int) (vs : List V) (fuel : Nat) (s : Cursor V),
      0 < step_s ∧ 0 < range_s ∧ ts.length = vs.length ∧
      gapfill_run H fuel (call start_ts end_ts step_s range_s ts vs) = .returned s ∧
      (vs.length : Int) ∈ s.v_reads) := by
  constructor
  · rintro ⟨V, _, H, start_ts, end_ts, step_s, range_s, ts, vs, k, _, _, _, hend, hneed⟩
    have := need_two_false_of_exhausted _ _
      (head_of_round_in_bounds H start_ts end_ts step_s range_s ts vs k) hend
    rw [this] at hneed
    exact Bool.noConfusion hneed
  · rintro ⟨V, _, H, start_ts, end_ts, step_s, range_s, ts, vs, fuel, s, hstep, _, hlen,
      hrun, hmem⟩
    obtain ⟨m, _, hm, _⟩ := gapfill_run_returned H fuel start_ts end_ts step_s range_s ts vs
      s hrun
    subst hm
    have := head_of_round_v_reads H start_ts end_ts step_s range_s ts vs _ _ hmem
    omega

/-- C14, amended. For every input with step > 0 and timestamps and values of equal length
`n`: every index at which `v_elem` is read, in any round, lies in `[0, n)`; the lookup
`v_elem[current_bucket_end_idx]` is evaluated only when the test `need two elements`
succeeds, and then `current_bucket_end_idx ≤ n - 2`; in a round where
`current_bucket_end_idx` has reached `n` the slot is absent and `v_elem` is not read.
A call that returns returns the locals at the head of a round, and the call does return,
the locals of the last round, when no `int64` operation on the way to the boundaries
overflows, `palloc0` accepts the number of slots and the arrays are not empty. -/
theorem v_elem_reads_inside {V : Type} [Sub V] (H : Host V)
    (start_ts end_ts step_s range_s : Int) (ts : List Int) (vs : List V)
    (hstep : 0 < step_s) (hlen : ts.length = vs.length) :
    (no_step_overflow start_ts end_ts step_s → slots_fit start_ts end_ts step_s →
      ts ≠ [] → ∃ N : Nat, ∀ fuel : Nat, N ≤ fuel →
      gapfill_run H fuel (call start_ts end_ts step_s range_s ts vs) =
        .returned (head_of_round H start_ts end_ts step_s range_s ts vs
          (n_buckets start_ts end_ts step_s))) ∧
    (∀ (fuel : Nat) (s : Cursor V),
      gapfill_run H fuel (call start_ts end_ts step_s range_s ts vs) = .returned s →
      ∃ m : Nat, s = head_of_round H start_ts end_ts step_s range_s ts vs m) ∧
    (∀ k : Nat, ∀ i ∈ (head_of_round H start_ts end_ts step_s range_s ts vs k).v_reads,
      0 ≤ i ∧ i < (vs.length : Int)) ∧
    (∀ k : Nat,
      (head_of_round H start_ts end_ts step_s range_s ts vs (k + 1)).v_reads
        = (head_of_round H start_ts end_ts step_s range_s ts vs k).v_reads ++
          (if need_two (call_frame H start_ts step_s range_s ts vs)
              (head_of_round H start_ts end_ts step_s range_s ts vs k) then
            [end_idx_of_round H start_ts end_ts step_s range_s ts vs k,
              start_idx_of_round H start_ts end_ts step_s range_s ts vs k - 1]
          else [])) ∧
    (∀ k : Nat, need_two (call_frame H start_ts step_s range_s ts vs)
        (head_of_round H start_ts end_ts step_s range_s ts vs k) = true →
      end_idx_of_round H start_ts end_ts step_s range_s ts vs k + 2 ≤ (vs.length : Int)) ∧
    (∀ k : Nat,
      end_idx_of_round H start_ts end_ts step_s range_s ts vs k = (vs.length : Int) →
      slot_of_round H start_ts end_ts step_s range_s ts vs k = none ∧
      (head_of_round H start_ts end_ts step_s range_s ts vs (k + 1)).v_reads
        = (head_of_round H start_ts end_ts step_s range_s ts vs k).v_reads) := by
  have hn : (call_frame H start_ts step_s range_s ts vs).t_length = (vs.length : Int) := by
    show (ts.length : Int) = (vs.length : Int)
    rw [hlen]
  have hreads : ∀ k : Nat,
      (head_of_round H start_ts end_ts step_s range_s ts vs (k + 1)).v_reads
        = (head_of_round H start_ts end_ts step_s range_s ts vs k).v_reads ++
          (if need_two (call_frame H start_ts step_s range_s ts vs)
              (head_of_round H start_ts end_ts step_s range_s ts vs k) then
            [end_idx_of_round H start_ts end_ts step_s range_s ts vs k,
              start_idx_of_round H start_ts end_ts step_s range_s ts vs k - 1]
          else []) := by
    intro k
    rw [head_of_round_succ, bucket_v_reads]
    rfl
  refine ⟨fun hno hfit hts => ⟨n_buckets start_ts end_ts step_s, fun fuel hfuel =>
      gapfill_run_returns H fuel start_ts end_ts step_s range_s ts vs hstep hno hfit
        (fun _ => hlen) hts (by
          intro h0
          apply hts
          apply List.length_eq_zero.mp
          rw [hlen, h0]
          rfl) hfuel⟩,
    fun fuel s hs => ?_, ?_, hreads, ?_, ?_⟩
  · obtain ⟨m, _, hm, _⟩ := gapfill_run_returned H fuel start_ts end_ts step_s range_s ts vs
      s hs
    exact ⟨m, hm⟩
  · intro k i hi
    have := head_of_round_v_reads H start_ts end_ts step_s range_s ts vs k i hi
    omega
  · intro k hk
    have := need_two_bounds _ _
      (head_of_round_in_bounds H start_ts end_ts step_s range_s ts vs k) hk
    unfold end_idx_of_round
    omega
  · intro k hk
    have hfalse := need_two_false_of_exhausted _ _
      (head_of_round_in_bounds H start_ts end_ts step_s range_s ts vs k)
      (by rw [hn]; exact hk)
    constructor
    · unfold slot_of_round slot
      rw [hfalse]
      rfl
    · rw [hreads k, hfalse]
      simp

/-- Witness of C14 (amended): worked example A. -/
theorem v_elem_reads_inside_witness :
    no_step_overflow 0 (100 * USECS_PER_SEC) 50 ∧ slots_fit 0 (100 * USECS_PER_SEC) 50 ∧
    ts_example ≠ [] ∧ vs_example ≠ [] ∧
    (0 : Int) < 50 ∧ ts_example.length = vs_example.length ∧
    (no_step_overflow 0 (100 * USECS_PER_SEC) 50 → slots_fit 0 (100 * USECS_PER_SEC) 50 →
      ts_example ≠ [] → ∃ N : Nat, ∀ fuel : Nat, N ≤ fuel →
      gapfill_run host0 fuel (call 0 (100 * USECS_PER_SEC) 50 60 ts_example vs_example) =
        .returned (head_of_round host0 0 (100 * USECS_PER_SEC) 50 60 ts_example vs_example
          (n_buckets 0 (100 * USECS_PER_SEC) 50))) ∧
    (∀ (fuel : Nat) (s : Cursor Int),
      gapfill_run host0 fuel (call 0 (100 * USECS_PER_SEC) 50 60 ts_example vs_example)
        = .returned s →
      ∃ m : Nat, s = head_of_round host0 0 (100 * USECS_PER_SEC) 50 60 ts_example
        vs_example m) ∧
    (∀ k : Nat, ∀ i ∈ (head_of_round host0 0 (100 * USECS_PER_SEC) 50 60 ts_example
        vs_example k).v_reads, 0 ≤ i ∧ i < (vs_example.length : Int)) ∧
    (∀ k : Nat,
      (head_of_round host0 0 (100 * USECS_PER_SEC) 50 60 ts_example vs_example
          (k + 1)).v_reads
        = (head_of_round host0 0 (100 * USECS_PER_SEC) 50 60 ts_example vs_example
            k).v_reads ++
          (if need_two (call_frame host0 0 50 60 ts_example vs_example)
              (head_of_round host0 0 (100 * USECS_PER_SEC) 50 60 ts_example vs_example k)
          then
            [end_idx_of_round host0 0 (100 * USECS_PER_SEC) 50 60 ts_example vs_example k,
              start_idx_of_round host0 0 (100 * USECS_PER_SEC) 50 60 ts_example vs_example k
                - 1]
          else [])) ∧
    (∀ k : Nat, need_two (call_frame host0 0 50 60 ts_example vs_example)
        (head_of_round host0 0 (100 * USECS_PER_SEC) 50 60 ts_example vs_example k) = true →
      end_idx_of_round host0 0 (100 * USECS_PER_SEC) 50 60 ts_example vs_example k + 2
        ≤ (vs_example.length : Int)) ∧
    (∀ k : Nat,
      end_idx_of_round host0 0 (100 * USECS_PER_SEC) 50 60 ts_example vs_example k
        = (vs_example.length : Int) →
      slot_of_round host0 0 (100 * USECS_PER_SEC) 50 60 ts_example vs_example k = none ∧
      (head_of_round host0 0 (100 * USECS_PER_SEC) 50 60 ts_example vs_example
          (k + 1)).v_reads
        = (head_of_round host0 0 (100 * USECS_PER_SEC) 50 60 ts_example vs_example
            k).v_reads) :=
  ⟨by decide, by decide, by decide, by decide,
    by decide, by decide,
    v_elem_reads_inside host0 0 (100 * USECS_PER_SEC) 50 60 ts_example vs_example
      (by decide) (by decide)⟩

/-- C15. For every input (sorted or not, any step and range) and every round `k` whose
first cursor loop leaves `current_bucket_end_idx = n`: the slot of that round is absent,
and in every later round the cursor is still `n` and the slot is absent as well.  The
result of a call that returns is absent at every position from `k` on; with step > 0 the
call does return when no `int64` operation on the way to the boundaries overflows,
`palloc0` accepts the number of slots and the arrays are not empty. -/
theorem absent_once_samples_are_exhausted {V : Type} [Sub V] (H : Host V)
    (start_ts end_ts step_s range_s : Int) (ts : List Int) (vs : List V) (k : Nat)
    (hend : end_idx_of_round H start_ts end_ts step_s range_s ts vs k = (ts.length : Int)) :
    (∀ k' : Nat, k ≤ k' →
      end_idx_of_round H start_ts end_ts step_s range_s ts vs k' = (ts.length : Int) ∧
      slot_of_round H start_ts end_ts step_s range_s ts vs k' = none) ∧
    (∀ (fuel : Nat) (res : List (Option V)),
      gapfill_array_delta H fuel (call start_ts end_ts step_s range_s ts vs)
        = .returned res →
      ∀ k' : Nat, k ≤ k' → k' < res.length → res[k']? = some none) ∧
    (0 < step_s → (H.assert_checking = true → ts.length = vs.length) →
      no_step_overflow start_ts end_ts step_s → slots_fit start_ts end_ts step_s →
      ts ≠ [] → vs ≠ [] →
      ∃ N : Nat, ∀ fuel : Nat, N ≤ fuel → ∃ res : List (Option V),
        gapfill_array_delta H fuel (call start_ts end_ts step_s range_s ts vs)
          = .returned res ∧
        ∀ k' : Nat, k ≤ k' → k' < res.length → res[k']? = some none) := by
  have hget : ∀ (m k' : Nat), k ≤ k' →
      k' < ((List.range m).map
        (slot_of_round H start_ts end_ts step_s range_s ts vs)).length →
      ((List.range m).map (slot_of_round H start_ts end_ts step_s range_s ts vs))[k']?
        = some none := by
    intro m k' hk hlt
    rw [List.length_map, List.length_range] at hlt
    rw [List.getElem?_map, List.getElem?_range hlt,
      ← (exhausted_stays H start_ts end_ts step_s range_s ts vs k k' hk hend).2]
    rfl
  refine ⟨fun k' hk => exhausted_stays H start_ts end_ts step_s range_s ts vs k k' hk hend,
    fun fuel res hres => ?_,
    fun hstep hlen hno hfit hts hvs => ⟨n_buckets start_ts end_ts step_s, fun fuel hfuel =>
      ⟨_, gapfill_array_delta_returns H fuel start_ts end_ts step_s range_s ts vs hstep hno
        hfit hlen hts hvs hfuel, hget _⟩⟩⟩
  obtain ⟨m, _, hm, _⟩ := gapfill_array_delta_returned_slots H fuel start_ts end_ts step_s
    range_s ts vs res hres
  rw [hm]
  exact hget m

/-- Witness of C15: the samples of the worked examples with `start = -100, end = 100,
step = 50, range = 60`; the third round (`k = 2`, boundary `0`) finds no sample at or
before its boundary. -/
theorem absent_once_samples_are_exhausted_witness :
    (0 : Int) < 50 ∧
    no_step_overflow (-100 * USECS_PER_SEC) (100 * USECS_PER_SEC) 50 ∧
    slots_fit (-100 * USECS_PER_SEC) (100 * USECS_PER_SEC) 50 ∧
    ts_example ≠ [] ∧ vs_example ≠ [] ∧
    end_idx_of_round host0 (-100 * USECS_PER_SEC) (100 * USECS_PER_SEC) 50 60 ts_example
      vs_example 2 = (ts_example.length : Int) ∧
    (∀ k' : Nat, 2 ≤ k' →
      end_idx_of_round host0 (-100 * USECS_PER_SEC) (100 * USECS_PER_SEC) 50 60 ts_example
        vs_example k' = (ts_example.length : Int) ∧
      slot_of_round host0 (-100 * USECS_PER_SEC) (100 * USECS_PER_SEC) 50 60 ts_example
        vs_example k' = none) ∧
    (∀ (fuel : Nat) (res : List (Option Int)),
      gapfill_array_delta host0 fuel
          (call (-100 * USECS_PER_SEC) (100 * USECS_PER_SEC) 50 60 ts_example vs_example)
        = .returned res →
      ∀ k' : Nat, 2 ≤ k' → k' < res.length → res[k']? = some none) ∧
    ((0 : Int) < 50 → (host0.assert_checking = true → ts_example.length = vs_example.length) →
      no_step_overflow (-100 * USECS_PER_SEC) (100 * USECS_PER_SEC) 50 →
      slots_fit (-100 * USECS_PER_SEC) (100 * USECS_PER_SEC) 50 →
      ts_example ≠ [] → vs_example ≠ [] →
      ∃ N : Nat, ∀ fuel : Nat, N ≤ fuel → ∃ res : List (Option Int),
        gapfill_array_delta host0 fuel
            (call (-100 * USECS_PER_SEC) (100 * USECS_PER_SEC) 50 60 ts_example vs_example)
          = .returned res ∧
        ∀ k' : Nat, 2 ≤ k' → k' < res.length → res[k']? = some none) :=
  ⟨by decide, by decide, by decide, by decide, by decide,
    by decide,
    absent_once_samples_are_exhausted host0 (-100 * USECS_PER_SEC) (100 * USECS_PER_SEC)
      50 60 ts_example vs_example 2 (by decide)⟩

/-- C16, counterexample. Two pairs of calls with step > 0 and `start' ≤ start` on the
samples of the worked examples.  With `end = 0, step = 50`, `start = 200` and
`start' = 0`: the call with `start'` returns the empty array, but for the call with
`start` the number of slots is `-3` and `palloc0` raises an error, so it has no result.
With `end = 100, step = 50`, `start = 0` and `start' = -7000000000`: the call with `start`
returns `[5, 1]`, but the call with `start'` asks `palloc0` for `140000003` slots, more
than `MaxAllocSize` allows, and has no result. -/
theorem far_start_has_no_result :
    ((0 : Int) < 50 ∧ (0 : Int) ≤ 200 * USECS_PER_SEC ∧
      exampleFarStart = call (200 * USECS_PER_SEC) 0 50 60 ts_example vs_example ∧
      (∀ (H : Host Int) (fuel : Nat),
        gapfill_array_delta H fuel (call 0 0 50 60 ts_example vs_example) = .returned []) ∧
      (∀ (H : Host Int) (fuel : Nat), gapfill_array_delta H fuel exampleFarStart
        = .error "invalid memory alloc request size 18446744073709551592")) ∧
    ((0 : Int) < 50 ∧ (-7000000000 * USECS_PER_SEC : Int) ≤ 0 ∧
      int64 (-7000000000 * USECS_PER_SEC) ∧
      exampleA = call 0 (100 * USECS_PER_SEC) 50 60 ts_example vs_example ∧
      (∀ (H : Host Int) (fuel : Nat),
        gapfill_array_delta H (fuel + 2) exampleA = .returned [some 5, some 1]) ∧
      (∀ (H : Host Int) (fuel : Nat),
        gapfill_array_delta H fuel
            (call (-7000000000 * USECS_PER_SEC) (100 * USECS_PER_SEC) 50 60 ts_example
              vs_example)
          = .error "invalid memory alloc request size 1120000024")) := by
  refine ⟨⟨by decide, by decide, rfl, ?_, fun H fuel => rfl⟩,
    ⟨by decide, by decide, by decide, rfl, ?_, fun H fuel => rfl⟩⟩
  · intro H fuel
    cases fuel <;> rfl
  · intro H fuel
    unfold exampleA
    rw [gapfill_array_delta_returns H (fuel + 2) 0 (100 * USECS_PER_SEC) 50 60 ts_example
      vs_example (by decide) (by decide) (by decide) (fun _ => by decide) (by decide)
      (by decide) (by
        have : n_buckets 0 (100 * USECS_PER_SEC) 50 = 2 := by decide
        omega)]
    rfl

/-- C16, amended. Start-independence. The slot a round writes is the same for any two
values of `start`.  For step > 0 and `start' ≤ start`, whenever both calls return, the
result for `start` is an initial segment of the result for `start'` (the latter is the
former followed by the slots of the further boundaries); and both calls do return when,
for each of them, no `int64` operation on the way to the boundaries overflows and
`palloc0` accepts the number of slots, the arrays not being empty. -/
theorem result_is_initial_segment {V : Type} [Sub V] (H : Host V)
    (start_ts start_ts' end_ts step_s range_s : Int) (ts : List Int) (vs : List V)
    (hstep : 0 < step_s) (hlen : H.assert_checking = true → ts.length = vs.length)
    (hstart : start_ts' ≤ start_ts) :
    (∀ (s1 s2 : Int) (k : Nat),
      slot_of_round H s1 end_ts step_s range_s ts vs k
        = slot_of_round H s2 end_ts step_s range_s ts vs k) ∧
    (∀ (fuel fuel' : Nat) (res res' : List (Option V)),
      gapfill_array_delta H fuel (call start_ts end_ts step_s range_s ts vs)
        = .returned res →
      gapfill_array_delta H fuel' (call start_ts' end_ts step_s range_s ts vs)
        = .returned res' →
      ∃ rest : List (Option V), res' = res ++ rest ∧
        ∀ k : Nat, k < res.length → res'[k]? = res[k]?) ∧
    (no_step_overflow start_ts end_ts step_s → no_step_overflow start_ts' end_ts step_s →
      slots_fit start_ts end_ts step_s → slots_fit start_ts' end_ts step_s →
      ts ≠ [] → vs ≠ [] →
      ∃ N : Nat, ∀ fuel : Nat, N ≤ fuel → ∃ res rest : List (Option V),
        gapfill_array_delta H fuel (call start_ts end_ts step_s range_s ts vs)
          = .returned res ∧
        gapfill_array_delta H fuel (call start_ts' end_ts step_s range_s ts vs)
          = .returned (res ++ rest) ∧
        (∀ k : Nat, k < res.length → (res ++ rest)[k]? = res[k]?)) := by
  have hslot : ∀ (s1 s2 : Int) (k : Nat),
      slot_of_round H s1 end_ts step_s range_s ts vs k
        = slot_of_round H s2 end_ts step_s range_s ts vs k :=
    fun s1 s2 k => slot_of_round_same_start H s2 s1 end_ts step_s range_s ts vs k
  refine ⟨hslot, ?_, ?_⟩
  · intro fuel fuel' res res' hres hres'
    obtain ⟨m, _, hm, hgo, _⟩ := gapfill_array_delta_returned_slots H fuel start_ts end_ts
      step_s range_s ts vs res hres
    obtain ⟨m', _, hm', _, hstop'⟩ := gapfill_array_delta_returned_slots H fuel' start_ts'
      end_ts step_s range_s ts vs res' hres'
    have hle : m ≤ m' := by
      by_contra hc
      have h1 := hgo m' (by omega)
      rw [head_of_round_ts_same H H start_ts start_ts' end_ts step_s range_s ts vs vs m']
        at hstop'
      omega
    obtain ⟨d, hd⟩ : ∃ d, m' = m + d := ⟨_, (Nat.add_sub_cancel' hle).symm⟩
    have happ : res' = res ++ ((List.range d).map (fun x => m + x)).map
        (slot_of_round H start_ts' end_ts step_s range_s ts vs) := by
      rw [hm', hm, hd, List.range_add, List.map_append]
      congr 1
      apply List.map_congr_left
      intro k _
      exact hslot _ _ k
    refine ⟨_, happ, fun k hk => ?_⟩
    rw [happ]
    exact List.getElem?_append_left hk
  · intro hno hno' hfit hfit' hts hvs
    refine ⟨n_buckets start_ts' end_ts step_s, fun fuel hfuel => ?_⟩
    have hm := n_buckets_mono start_ts start_ts' end_ts step_s hstep hstart
    obtain ⟨d, hd⟩ : ∃ d, n_buckets start_ts' end_ts step_s
        = n_buckets start_ts end_ts step_s + d := ⟨_, (Nat.add_sub_cancel' hm).symm⟩
    refine ⟨(List.range (n_buckets start_ts end_ts step_s)).map
        (slot_of_round H start_ts end_ts step_s range_s ts vs),
      ((List.range d).map (fun x => n_buckets start_ts end_ts step_s + x)).map
        (slot_of_round H start_ts' end_ts step_s range_s ts vs),
      gapfill_array_delta_returns H fuel start_ts end_ts step_s range_s ts vs hstep hno hfit
        hlen hts hvs (by omega), ?_, ?_⟩
    · rw [gapfill_array_delta_returns H fuel start_ts' end_ts step_s range_s ts vs hstep hno'
        hfit' hlen hts hvs hfuel, hd, List.range_add, List.map_append]
      congr 2
      apply List.map_congr_left
      intro k _
      exact hslot _ _ k
    · intro k hk
      exact List.getElem?_append_left hk

/-- Witness of C16 (amended): worked example A (`start = 0`) against the same call with
`start = -100`. -/
theorem result_is_initial_segment_witness :
    no_step_overflow 0 (100 * USECS_PER_SEC) 50 ∧
    no_step_overflow (-100 * USECS_PER_SEC) (100 * USECS_PER_SEC) 50 ∧
    slots_fit 0 (100 * USECS_PER_SEC) 50 ∧
    slots_fit (-100 * USECS_PER_SEC) (100 * USECS_PER_SEC) 50 ∧
    ts_example ≠ [] ∧ vs_example ≠ [] ∧
    (0 : Int) < 50 ∧
    (host0.assert_checking = true → ts_example.length = vs_example.length) ∧
    (-100 * USECS_PER_SEC : Int) ≤ 0 ∧
    (∀ (s1 s2 : Int) (k : Nat),
      slot_of_round host0 s1 (100 * USECS_PER_SEC) 50 60 ts_example vs_example k
        = slot_of_round host0 s2 (100 * USECS_PER_SEC) 50 60 ts_example vs_example k) ∧
    (∀ (fuel fuel' : Nat) (res res' : List (Option Int)),
      gapfill_array_delta host0 fuel
          (call 0 (100 * USECS_PER_SEC) 50 60 ts_example vs_example)
        = .returned res →
      gapfill_array_delta host0 fuel'
          (call (-100 * USECS_PER_SEC) (100 * USECS_PER_SEC) 50 60 ts_example vs_example)
        = .returned res' →
      ∃ rest : List (Option Int), res' = res ++ rest ∧
        ∀ k : Nat, k < res.length → res'[k]? = res[k]?) ∧
    (no_step_overflow 0 (100 * USECS_PER_SEC) 50 →
      no_step_overflow (-100 * USECS_PER_SEC) (100 * USECS_PER_SEC) 50 →
      slots_fit 0 (100 * USECS_PER_SEC) 50 →
      slots_fit (-100 * USECS_PER_SEC) (100 * USECS_PER_SEC) 50 →
      ts_example ≠ [] → vs_example ≠ [] →
      ∃ N : Nat, ∀ fuel : Nat, N ≤ fuel → ∃ res rest : List (Option Int),
        gapfill_array_delta host0 fuel
            (call 0 (100 * USECS_PER_SEC) 50 60 ts_example vs_example)
          = .returned res ∧
        gapfill_array_delta host0 fuel
            (call (-100 * USECS_PER_SEC) (100 * USECS_PER_SEC) 50 60 ts_example vs_example)
          = .returned (res ++ rest) ∧
        (∀ k : Nat, k < res.length → (res ++ rest)[k]? = res[k]?)) :=
  ⟨by decide, by decide, by decide, by decide, by decide, by decide,
    by decide, fun _ => by decide, by decide,
    result_is_initial_segment host0 0 (-100 * USECS_PER_SEC) (100 * USECS_PER_SEC) 50 60
      ts_example vs_example (by decide) (fun _ => by decide) (by decide)⟩

/-- C17. Value-independence of gaps. For step > 0, the same `start`, `end`, `range` and
timestamps, and any two sequences of values of the same length as the timestamps (on any
two hosts): when one call returns so does the other, the two results have the same
length, and a position is absent in one exactly when it is absent in the other; and both
calls do return when no `int64` operation on the way to the boundaries overflows,
`palloc0` accepts the number of slots and the arrays are not empty. -/
theorem absent_positions_ignore_values {V W : Type} [Sub V] [Sub W] (H : Host V)
    (G : Host W) (start_ts end_ts step_s range_s : Int) (ts : List Int)
    (vs1 : List V) (vs2 : List W)
    (hstep : 0 < step_s) (hlen1 : vs1.length = ts.length) (hlen2 : vs2.length = ts.length) :
    (∀ (fuel : Nat) (res1 : List (Option V)),
      gapfill_array_delta H fuel (call start_ts end_ts step_s range_s ts vs1)
        = .returned res1 →
      ∃ res2 : List (Option W),
        gapfill_array_delta G fuel (call start_ts end_ts step_s range_s ts vs2)
          = .returned res2 ∧
        res1.length = res2.length ∧
        (∀ k : Nat, res1[k]? = some none ↔ res2[k]? = some none)) ∧
    (no_step_overflow start_ts end_ts step_s → slots_fit start_ts end_ts step_s →
      ts ≠ [] →
      ∃ N : Nat, ∀ fuel : Nat, N ≤ fuel →
        ∃ (res1 : List (Option V)) (res2 : List (Option W)),
          gapfill_array_delta H fuel (call start_ts end_ts step_s range_s ts vs1)
            = .returned res1 ∧
          gapfill_array_delta G fuel (call start_ts end_ts step_s range_s ts vs2)
            = .returned res2 ∧
          res1.length = res2.length ∧
          (∀ k : Nat, res1[k]? = some none ↔ res2[k]? = some none)) := by
  have hsame : ∀ m : Nat,
      ((List.range m).map (slot_of_round H start_ts end_ts step_s range_s ts vs1)).length
        = ((List.range m).map
            (slot_of_round G start_ts end_ts step_s range_s ts vs2)).length ∧
      ∀ k : Nat,
        ((List.range m).map (slot_of_round H start_ts end_ts step_s range_s ts vs1))[k]?
            = some none ↔
          ((List.range m).map (slot_of_round G start_ts end_ts step_s range_s ts vs2))[k]?
            = some none := by
    intro m
    refine ⟨by simp only [List.length_map, List.length_range], fun k => ?_⟩
    rw [List.getElem?_map, List.getElem?_map]
    rcases Nat.lt_or_ge k m with hk | hk
    · rw [List.getElem?_range hk]
      simp only [Option.map_some', Option.some.injEq]
      exact slot_of_round_none_iff H G start_ts end_ts step_s range_s ts vs1 vs2 k
    · rw [List.getElem?_eq_none (by rw [List.length_range]; exact hk)]
      simp
  constructor
  · intro fuel res1 hres1
    obtain ⟨c, hc, hres, hcons⟩ := gapfill_array_delta_returned H fuel _ res1 hres1
    obtain ⟨m, hm, hcm, hgo, hstop, h0, ha, _, hts, hvs1, hfit⟩ := gapfill_run_returned H
      fuel start_ts end_ts step_s range_s ts vs1 c hc
    have hvs2 : vs2 ≠ [] := by
      intro h0'
      apply hts
      apply List.length_eq_zero.mp
      rw [← hlen2, h0']
      rfl
    have hrun2 := gapfill_run_of_rounds G fuel start_ts end_ts step_s range_s ts vs2 m h0 ha
      (fun _ => hlen2.symm) hts hvs2
      (by
        intro k hk
        rw [head_of_round_ts_same H G start_ts start_ts end_ts step_s range_s ts vs1 vs2 k]
        exact hgo k hk)
      (by
        rw [head_of_round_ts_same H G start_ts start_ts end_ts step_s range_s ts vs1 vs2 m]
        exact hstop)
      hm hfit
    have hnull : c.res.map Option.isNone
        = (head_of_round G start_ts end_ts step_s range_s ts vs2 m).res.map Option.isNone := by
      rw [hcm, head_of_round_res, head_of_round_res, List.map_map, List.map_map]
      apply List.map_congr_left
      intro k _
      have := slot_of_round_none_iff H G start_ts end_ts step_s range_s ts vs1 vs2 k
      show (slot_of_round H start_ts end_ts step_s range_s ts vs1 k).isNone
        = (slot_of_round G start_ts end_ts step_s range_s ts vs2 k).isNone
      rw [Bool.eq_iff_iff, Option.isNone_iff_eq_none, Option.isNone_iff_eq_none]
      exact this
    have hcons2 := construct_md_array_congr _ _ hnull hcons
    refine ⟨(List.range m).map (slot_of_round G start_ts end_ts step_s range_s ts vs2), ?_,
      ?_⟩
    · unfold gapfill_array_delta
      rw [hrun2]
      simp only [Outcome.andThen, hcons2]
      rw [head_of_round_res]
    · rw [hres, hcm, head_of_round_res]
      exact hsame m
  · intro hno hfit hts
    have hvs1 : vs1 ≠ [] := by
      intro h0'
      apply hts
      apply List.length_eq_zero.mp
      rw [← hlen1, h0']
      rfl
    have hvs2 : vs2 ≠ [] := by
      intro h0'
      apply hts
      apply List.length_eq_zero.mp
      rw [← hlen2, h0']
      rfl
    exact ⟨n_buckets start_ts end_ts step_s, fun fuel hfuel => ⟨_, _,
      gapfill_array_delta_returns H fuel start_ts end_ts step_s range_s ts vs1 hstep hno hfit
        (fun _ => hlen1.symm) hts hvs1 hfuel,
      gapfill_array_delta_returns G fuel start_ts end_ts step_s range_s ts vs2 hstep hno hfit
        (fun _ => hlen2.symm) hts hvs2 hfuel, hsame _⟩⟩

/-- Witness of C17: worked example A against the same call with other values. -/
theorem absent_positions_ignore_values_witness :
    no_step_overflow 0 (100 * USECS_PER_SEC) 50 ∧ slots_fit 0 (100 * USECS_PER_SEC) 50 ∧
    ts_example ≠ [] ∧ vs_example ≠ [] ∧
    (0 : Int) < 50 ∧ vs_example.length = ts_example.length ∧
    [(7 : Int), 7, 2, 0, 9].length = ts_example.length ∧
    (∀ (fuel : Nat) (res1 : List (Option Int)),
      gapfill_array_delta host0 fuel
          (call 0 (100 * USECS_PER_SEC) 50 60 ts_example vs_example)
        = .returned res1 →
      ∃ res2 : List (Option Int),
        gapfill_array_delta host0 fuel
            (call 0 (100 * USECS_PER_SEC) 50 60 ts_example [(7 : Int), 7, 2, 0, 9])
          = .returned res2 ∧
        res1.length = res2.length ∧
        (∀ k : Nat, res1[k]? = some none ↔ res2[k]? = some none)) ∧
    (no_step_overflow 0 (100 * USECS_PER_SEC) 50 → slots_fit 0 (100 * USECS_PER_SEC) 50 →
      ts_example ≠ [] →
      ∃ N : Nat, ∀ fuel : Nat, N ≤ fuel →
        ∃ (res1 : List (Option Int)) (res2 : List (Option Int)),
          gapfill_array_delta host0 fuel
              (call 0 (100 * USECS_PER_SEC) 50 60 ts_example vs_example)
            = .returned res1 ∧
          gapfill_array_delta host0 fuel
              (call 0 (100 * USECS_PER_SEC) 50 60 ts_example [(7 : Int), 7, 2, 0, 9])
            = .returned res2 ∧
          res1.length = res2.length ∧
          (∀ k : Nat, res1[k]? = some none ↔ res2[k]? = some none)) :=
  ⟨by decide, by decide, by decide, by decide,
    by decide, by decide, by decide,
    absent_positions_ignore_values host0 host0 0 (100 * USECS_PER_SEC) 50 60 ts_example
      vs_example [(7 : Int), 7, 2, 0, 9] (by decide) (by decide) (by decide)⟩

/-- C18. Time-translation invariance. For step > 0 and every offset `c` such that no
`int64` operation overflows in either call (on the way to the boundaries and in the
starts of the windows), the call with `start + c`, `end + c` and every timestamp moved by
`c` ends as the call with `start`, `end` and the timestamps themselves does, for every
fuel; with enough fuel both return the same sequence of optional deltas, when `palloc0`
accepts the number of slots and the arrays are not empty. -/
theorem result_invariant_under_translation {V : Type} [Sub V] (H : Host V)
    (start_ts end_ts step_s range_s : Int) (ts : List Int) (vs : List V) (c : Int)
    (hstep : 0 < step_s) (hlen : H.assert_checking = true → ts.length = vs.length)
    (hno : no_step_overflow start_ts end_ts step_s)
    (hno' : no_step_overflow (start_ts + c) (end_ts + c) step_s)
    (hnr : no_range_overflow start_ts end_ts step_s range_s)
    (hnr' : no_range_overflow (start_ts + c) (end_ts + c) step_s range_s) :
    (∀ fuel : Nat,
      gapfill_array_delta H fuel
          (call (start_ts + c) (end_ts + c) step_s range_s (ts.map (fun t => t + c)) vs)
        = gapfill_array_delta H fuel (call start_ts end_ts step_s range_s ts vs)) ∧
    (slots_fit start_ts end_ts step_s → ts ≠ [] → vs ≠ [] →
      ∃ N : Nat, ∀ fuel : Nat, N ≤ fuel → ∃ res : List (Option V),
        gapfill_array_delta H fuel
            (call (start_ts + c) (end_ts + c) step_s range_s (ts.map (fun t => t + c)) vs)
          = .returned res ∧
        gapfill_array_delta H fuel (call start_ts end_ts step_s range_s ts vs)
          = .returned res) := by
  have hlen' : H.assert_checking = true → (ts.map (fun t => t + c)).length = vs.length := by
    intro h
    rw [List.length_map]
    exact hlen h
  have hn := n_buckets_shift start_ts end_ts step_s c
  have hd : end_ts + c - (start_ts + c) = end_ts - start_ts := by ring
  have hne : num_elements
        (call (start_ts + c) (end_ts + c) step_s range_s (ts.map (fun t => t + c)) vs)
      = num_elements (call start_ts end_ts step_s range_s ts vs) := by
    rw [num_elements_call, num_elements_call, hd]
  have hres : (head_of_round H (start_ts + c) (end_ts + c) step_s range_s
        (ts.map (fun t => t + c)) vs (n_buckets start_ts end_ts step_s)).res
      = (head_of_round H start_ts end_ts step_s range_s ts vs
        (n_buckets start_ts end_ts step_s)).res := by
    rw [head_of_round_res, head_of_round_res]
    apply List.map_congr_left
    intro k hk
    rw [List.mem_range] at hk
    exact slot_of_round_moved H start_ts end_ts step_s range_s ts vs c hstep hno hno' hnr
      hnr' k hk
  have h0 : ¬ wrap64 (step_s * USECS_PER_SEC) = 0 := by
    rw [wrap64_of_int64 _ hno.2.2.1]
    unfold USECS_PER_SEC
    omega
  have hmap0 : (ts.map (fun t => t + c)).length = 0 ↔ ts.length = 0 := by
    rw [List.length_map]
  have hA : ¬ (H.assert_checking = true ∧ ts.length ≠ vs.length) :=
    fun hc => hc.2 (hlen hc.1)
  have hA' : ¬ (H.assert_checking = true ∧ (ts.map (fun t => t + c)).length ≠ vs.length) :=
    fun hc => hc.2 (hlen' hc.1)
  constructor
  · intro fuel
    by_cases ha : 0 ≤ num_elements (call start_ts end_ts step_s range_s ts vs) ∧
        8 * num_elements (call start_ts end_ts step_s range_s ts vs) ≤ 1073741823
    swap
    · unfold gapfill_array_delta
      rw [gapfill_run_call, gapfill_run_call, if_neg h0, if_neg h0, hne,
        if_pos ha, if_pos ha]
    have hna : ¬ ¬ (0 ≤ num_elements (call start_ts end_ts step_s range_s ts vs) ∧
        8 * num_elements (call start_ts end_ts step_s range_s ts vs) ≤ 1073741823) :=
      not_not.mpr ha
    by_cases hv : vs.length = 0
    · unfold gapfill_array_delta
      rw [gapfill_run_call, gapfill_run_call, if_neg h0, if_neg h0, hne,
        if_neg hna, if_neg hna, if_neg hA', if_neg hA, if_pos hv, if_pos hv]
    by_cases ht : ts.length = 0
    · have ht' : (ts.map (fun t => t + c)).length = 0 := hmap0.mpr ht
      unfold gapfill_array_delta
      rw [gapfill_run_call, gapfill_run_call, if_neg h0, if_neg h0, hne,
        if_neg hna, if_neg hna, if_neg hA', if_neg hA, if_neg hv, if_neg hv, if_pos ht',
        if_pos ht]
    have hts : ts ≠ [] := fun hc => ht (by rw [hc]; rfl)
    have hvs : vs ≠ [] := fun hc => hv (by rw [hc]; rfl)
    have hts' : ts.map (fun t => t + c) ≠ [] := by
      intro hc
      apply ht
      rw [← hmap0, hc]
      rfl
    rcases Nat.lt_or_ge fuel (n_buckets start_ts end_ts step_s) with hf | hf
    · unfold gapfill_array_delta
      rw [gapfill_run_unfinished H fuel start_ts end_ts step_s range_s ts vs hstep hno ha
          hlen hts hvs hf,
        gapfill_run_unfinished H fuel (start_ts + c) (end_ts + c) step_s range_s
          (ts.map (fun t => t + c)) vs hstep hno' (by rw [hne]; exact ha) hlen' hts' hvs
          (by rw [hn]; exact hf)]
    · unfold gapfill_array_delta
      rw [gapfill_run_rounds H fuel start_ts end_ts step_s range_s ts vs hstep hno ha
          hlen hts hvs hf,
        gapfill_run_rounds H fuel (start_ts + c) (end_ts + c) step_s range_s
          (ts.map (fun t => t + c)) vs hstep hno' (by rw [hne]; exact ha) hlen' hts' hvs
          (by rw [hn]; exact hf), hn, hne]
      by_cases hfit : (n_buckets start_ts end_ts step_s : Int)
          ≤ num_elements (call start_ts end_ts step_s range_s ts vs)
      · rw [if_pos hfit, if_pos hfit]
        simp only [Outcome.andThen, hres]
      · rw [if_neg hfit, if_neg hfit]
  · intro hfit hts hvs
    have hts' : ts.map (fun t => t + c) ≠ [] := by
      intro hc
      apply hts
      apply List.length_eq_zero.mp
      rw [← hmap0.mp]
      rw [hc]
      rfl
    have hfit' : slots_fit (start_ts + c) (end_ts + c) step_s := by
      unfold slots_fit at hfit ⊢
      rw [hd]
      exact hfit
    refine ⟨n_buckets start_ts end_ts step_s, fun fuel hfuel => ⟨_, ?_,
      gapfill_array_delta_returns H fuel start_ts end_ts step_s range_s ts vs hstep hno hfit
        hlen hts hvs hfuel⟩⟩
    rw [gapfill_array_delta_returns H fuel (start_ts + c) (end_ts + c) step_s range_s
      (ts.map (fun t => t + c)) vs hstep hno' hfit' hlen' hts' hvs (by rw [hn]; exact hfuel),
      hn]
    congr 1
    apply List.map_congr_left
    intro k hk
    rw [List.mem_range] at hk
    exact slot_of_round_moved H start_ts end_ts step_s range_s ts vs c hstep hno hno' hnr
      hnr' k hk

/-- Witness of C18: worked example A moved by `c = 7` microseconds. -/
theorem result_invariant_under_translation_witness :
    slots_fit 0 (100 * USECS_PER_SEC) 50 ∧ ts_example ≠ [] ∧ vs_example ≠ [] ∧
    (0 : Int) < 50 ∧
    (host0.assert_checking = true → ts_example.length = vs_example.length) ∧
    no_step_overflow 0 (100 * USECS_PER_SEC) 50 ∧
    no_step_overflow (0 + 7) (100 * USECS_PER_SEC + 7) 50 ∧
    no_range_overflow 0 (100 * USECS_PER_SEC) 50 60 ∧
    no_range_overflow (0 + 7) (100 * USECS_PER_SEC + 7) 50 60 ∧
    (∀ fuel : Nat,
      gapfill_array_delta host0 fuel
          (call (0 + 7) (100 * USECS_PER_SEC + 7) 50 60
            (ts_example.map (fun t => t + 7)) vs_example)
        = gapfill_array_delta host0 fuel
          (call 0 (100 * USECS_PER_SEC) 50 60 ts_example vs_example)) ∧
    (slots_fit 0 (100 * USECS_PER_SEC) 50 → ts_example ≠ [] → vs_example ≠ [] →
      ∃ N : Nat, ∀ fuel : Nat, N ≤ fuel → ∃ res : List (Option Int),
        gapfill_array_delta host0 fuel
            (call (0 + 7) (100 * USECS_PER_SEC + 7) 50 60
              (ts_example.map (fun t => t + 7)) vs_example)
          = .returned res ∧
        gapfill_array_delta host0 fuel
            (call 0 (100 * USECS_PER_SEC) 50 60 ts_example vs_example)
          = .returned res) :=
  ⟨by decide, by decide, by decide,
    by decide, fun _ => by decide, by decide, by decide, by decide, by decide,
    result_invariant_under_translation host0 0 (100 * USECS_PER_SEC) 50 60 ts_example
      vs_example 7 (by decide) (fun _ => by decide) (by decide) (by decide) (by decide)
      (by decide)⟩

end Promscale
